import Mathlib

/-!
Verification of the natural-language specification of TVB's H5 storage
migration script `005_update_files.py` (upgrade of on-disk scientific data
containers from schema version 4 to version 5) against a shallow embedding
of that script.

The embedding models:
* root metadata as an association list of string keys to tagged values,
  mirroring Python dict semantics (in-place update keeps position, new keys
  append at the end, `dict(pairs)` keeps the first position and last value
  of a duplicated key);
* the HDF5 storage manager as a key/value + attribute-metadata API over an
  explicit state (the spec treats it as an external key/value facade);
* the relational-index data-access facade (`dao`) as an environment carrying
  the set of indexed gids and the outcomes of external lookups;
* the `update` entry point of the script faithfully, branch by branch, as a
  small step language (`Step`) plus phase functions composed in source order.

Python strings are modelled as Lean `String`; byte values read from the
container arrive already utf-8 decoded (the script's `str(value, 'utf-8')`
is identity in the model, with values that the script later `eval`s or
`json.loads`es represented structurally).  Python floats are kept symbolic
(`MVal.flt raw` tags the raw string a successful `float(...)` call parsed),
since no checked property depends on float arithmetic.
-/

namespace Migration005

/-! ## String helpers (kernel-reducible re-implementations) -/

/-- Embeds `_lowercase_first_character` (005_update_files.py lines 70-75):
`string[:1].lower() + string[1:] if string else ''`. -/
def lowerFirstChar (s : String) : String :=
  match s.data with
  | [] => ""
  | c :: rest => String.mk (c.toLower :: rest)

/-- First character uppercased, as in `string[:1].upper() + string[1:]`
(used by the surface/sensor boolean re-encoding at lines 347-352, 392-393). -/
def upperFirstChar (s : String) : String :=
  match s.data with
  | [] => ""
  | c :: rest => String.mk (c.toUpper :: rest)

/-- Left-to-right, non-overlapping replacement over character lists, with
fuel for termination; mirrors Python `str.replace` which replaces every
occurrence. -/
def replaceAllL (fuel : Nat) (s pat rep : List Char) : List Char :=
  match fuel, s with
  | 0, s => s
  | _, [] => []
  | fuel + 1, c :: t =>
    if pat ≠ [] ∧ pat.isPrefixOf (c :: t) then
      rep ++ replaceAllL fuel (List.drop pat.length (c :: t)) pat rep
    else
      c :: replaceAllL fuel t pat rep

/-- Python `s.replace(pat, rep)` (all occurrences, left to right). -/
def replaceAll (s pat rep : String) : String :=
  String.mk (replaceAllL s.data.length s.data pat.data rep.data)

/-- Substring test over character lists (Python `sub in s`). -/
def containsSubL (s sub : List Char) : Bool :=
  match s with
  | [] => sub.isEmpty
  | _ :: t => sub.isPrefixOf s || containsSubL t sub

/-- Python `sub in s` on strings. -/
def containsSub (s sub : String) : Bool :=
  containsSubL s.data sub.data

/-- Digits of a decimal literal; `none` when empty or a non-digit occurs. -/
def digitsToNat (l : List Char) : Option Nat :=
  match l with
  | [] => none
  | _ =>
    l.foldl
      (fun acc c =>
        match acc with
        | none => none
        | some n => if c.isDigit then some (n * 10 + (c.toNat - 48)) else none)
      (some 0)

/-- Python `int(s)` on the decimal literals the migration actually meets;
`none` models the `ValueError` raise.  (Whitespace stripping, `+` signs and
underscore separators of full Python `int` are not needed by any container
field and are not modelled.) -/
def pyInt (s : String) : Option Int :=
  match s.data with
  | '-' :: rest => (digitsToNat rest).map (fun n => -(n : Int))
  | l => (digitsToNat l).map (fun n => (n : Int))

/-- Syntactic admissibility of `float(s)`; the migration never uses the
numeric value of a converted float, so only success/failure is modelled. -/
def floatOk (s : String) : Bool :=
  (!s.data.isEmpty) &&
    s.data.all (fun c =>
      c.isDigit || c = '.' || c = '-' || c = '+' || c = 'e' || c = 'E')

/-- Worker for `countOccur`, with fuel for termination. -/
def countOccurL (fuel : Nat) (s sub : List Char) : Nat :=
  match fuel, s with
  | 0, _ => 0
  | _, [] => 0
  | fuel + 1, c :: t =>
    if sub.isPrefixOf (c :: t) then
      1 + countOccurL fuel (List.drop (sub.length - 1) t) sub
    else
      countOccurL fuel t sub

/-- Number of occurrences of `sub` in `s` (used to state the URN-prefix
counting claims): occurrences counted left to right, non-overlapping. -/
def countOccur (s sub : String) : Nat :=
  match sub.data with
  | [] => 0
  | _ => countOccurL s.data.length s.data sub.data

/-- 32 hexadecimal characters, no dashes. -/
def isHex32 (s : String) : Bool :=
  s.data.length = 32 &&
    s.data.all (fun c => c.isDigit || ('a' ≤ c ∧ c ≤ 'f') || ('A' ≤ c ∧ c ≤ 'F'))

/-- The canonical URN rendering demanded by the spec:
`urn:uuid:` followed by exactly 32 hex characters. -/
def isCanonicalUrn (s : String) : Bool :=
  "urn:uuid:".data.isPrefixOf s.data && isHex32 (String.mk (s.data.drop 9))

/-! ## Metadata values -/

/-- A root-metadata / dataset-attribute value.  `str` is a decoded text
value; `int`/`flt` are the results of the script's `int(...)`/`float(...)`
coercions (`flt` keeps the raw literal, no float arithmetic is needed);
`rat` is a recomputed dataset statistic; `boolv`/`pynull` are Python
`True/False/None` stored into the operation parameters; `obj`/`arr`
structurally represent text values whose content is a serialized dict or
array (the script reads them back via `eval`/`json.loads`). -/
inductive MVal where
  | str (v : String)
  | int (v : Int)
  | flt (raw : String)
  | rat (q : Rat)
  | boolv (b : Bool)
  | pynull
  | obj (fields : List (String × MVal))
  | arr (elems : List MVal)

/-- A Python dict with string keys, as an ordered association list. -/
abbrev Dict := List (String × MVal)

/-- First binding of `k` (Python `d[k]` read / `k in d`). -/
def lookupD (d : Dict) (k : String) : Option MVal :=
  match d with
  | [] => none
  | (k', v) :: t => if k' = k then some v else lookupD t k

/-- Python `d[k] = v`: updates the existing binding in place (keeping its
position), otherwise appends at the end. -/
def setD (d : Dict) (k : String) (v : MVal) : Dict :=
  match d with
  | [] => [(k, v)]
  | (k', v') :: t => if k' = k then (k, v) :: t else (k', v') :: setD t k v

/-- Python `d.pop(k)` without default: `none` models the `KeyError`. -/
def popD (d : Dict) (k : String) : Option Dict :=
  match d with
  | [] => none
  | (k', v') :: t =>
    if k' = k then some t
    else (popD t k).map (fun t' => (k', v') :: t')

/-- Python `k in d`. -/
def hasD (d : Dict) (k : String) : Bool :=
  (lookupD d k).isSome

/-- Python `d.update(m)` item by item / `dict(pairs)` built by repeated
assignment: first occurrence fixes the position, last occurrence the value. -/
def mergeD (d m : Dict) : Dict :=
  m.foldl (fun acc p => setD acc p.1 p.2) d

/-- Python `dict(pairs)`. -/
def dictOfPairs (l : Dict) : Dict :=
  mergeD [] l

/-- The key-normalization pass of `update` (lines 243-251): every root
metadata key has its first character lowercased, values keep their order,
and the renamed pairs are re-assembled with
`dict(zip(lowercase_keys, list(root_metadata.values())))`. -/
def normalizeKeys (d : Dict) : Dict :=
  dictOfPairs (d.map (fun p => (lowerFirstChar p.1, p.2)))

/-- Total removal of the first binding of `k` (Python `del d[k]` /
`d.pop(k, None)` when presence was already checked). -/
def delD (d : Dict) (k : String) : Dict :=
  match d with
  | [] => []
  | (k', v) :: t => if k' = k then t else (k', v) :: delD t k

/-- Association lookup for the per-dataset tables. -/
def lookupA {β : Type} (d : List (String × β)) (k : String) : Option β :=
  match d with
  | [] => none
  | (k', v) :: t => if k' = k then some v else lookupA t k

/-- Association update-or-append for the per-dataset tables. -/
def setA {β : Type} (d : List (String × β)) (k : String) (v : β) : List (String × β) :=
  match d with
  | [] => [(k, v)]
  | (k', v') :: t => if k' = k then (k, v) :: t else (k', v') :: setA t k v

/-- Association removal for the per-dataset tables. -/
def delA {β : Type} (d : List (String × β)) (k : String) : List (String × β) :=
  match d with
  | [] => []
  | (k', v) :: t => if k' = k then t else (k', v) :: delA t k

/-! ## Modelled external constants

These constants live in repository modules that are not under `src/`
(`DataTypeMetaData`, `TvbProfile`, `H5File`, `SensorTypes`); their values
are modelled from the spec's root-metadata key contract and from the
script's own consistent usage (the class-name key is checked on the raw,
still-capitalized mapping at line 239 and read back as `"type"` after the
lowercasing pass at line 253; the creation-date key is read as
`"create_date"` at lines 256 and 654). -/

/-- Modelled from the spec: `DataTypeMetaData.KEY_CLASS_NAME`, the
class-name/type key of the raw (pre-normalization) root metadata. -/
def keyClassName : String := "Type"

/-- Modelled from the spec: `DataTypeMetaData.KEY_DATE` as read by this
script from the normalized mapping. -/
def keyDate : String := "create_date"

/-- Modelled from the spec: `DataTypeMetaData.KEY_TITLE` as read by this
script from the normalized mapping. -/
def keyTitle : String := "title"

/-- Modelled from the spec: `H5File.KEY_WRITTEN_BY`, the reserved key naming
the owning-adapter class path. -/
def keyWrittenBy : String := "written_by"

/-- Modelled from the spec: `TvbProfile.current.version.DATA_VERSION_ATTRIBUTE`,
the reserved (capitalized) key naming the schema/data version. -/
def dataVersionAttr : String := "Data_version"

/-- Modelled from the spec: `TvbProfile.current.version.DATA_VERSION` for
tvb release 2.0 (target of the 4 -> 5 upgrade). -/
def dataVersionNew : Int := 5

/-- `GID_PREFIX` (005_update_files.py line 67). -/
def urnTag : String := "urn:uuid:"

/-- Modelled from the spec: `SensorTypes.TYPE_EEG/TYPE_MEG/TYPE_INTERNAL`
enum values (only their distinctness matters to the migration). -/
def sensorTypeEEG : String := "EEG"

/-- Modelled from the spec: the MEG member of the sensor-type enum. -/
def sensorTypeMEG : String := "MEG"

/-- Modelled from the spec: the internal-sensors member of the enum. -/
def sensorTypeInternal : String := "Internal"

/-! ## Errors, file kinds, relational rows, state, environment -/

/-- The Python exceptions the migration can raise, collapsed to the kinds
the spec distinguishes.  `incompatible` is `IncompatibleFileManagerException`;
`missingDataSet` is `MissingDataSetException`; `lookupFailure` is the
dependency-resolution failure surfaced by `dao.get_datatype_by_gid` /
`h5.load_from_index` on an unindexed gid; `externalFailure` stands for
failures inside external collaborators (import service, registry, adapters)
that the script does not catch. -/
inductive PyErr where
  | keyError (k : String)
  | typeError
  | valueError
  | missingDataSet (ds : String)
  | incompatible
  | osError
  | lookupFailure (gid : String)
  | externalFailure
deriving DecidableEq

/-- What the input path resolves to. -/
inductive FileKind where
  | absent
  | regular
  | directory
deriving DecidableEq

/-- Kinds of rows the run hands to `dao.store_entity`. -/
inductive RowKind where
  | datatypeIndex
  | historyIndex
  | burstConfig
deriving DecidableEq

/-- A row passed to `dao.store_entity`. -/
structure IndexRow where
  kind : RowKind
  fkFromOperation : Option Int
  createDate : Option MVal

/-- The migration state: the on-disk container (file, root attributes,
datasets with their attribute blocks and contents, sidecar XML) plus the
run-local bookkeeping of `update` (in-memory metadata dict, dependent
attributes, operation parameters, flags, rows stored to the database). -/
structure MigState where
  fileName : String
  fileKind : FileKind
  storedRoot : Dict
  dsMeta : List (String × Dict)
  dsData : List (String × List MVal)
  xmlExists : Bool
  memMeta : Dict
  deps : Dict
  params : Dict
  addParams : Dict
  hasVm : Bool
  algorithmStr : String
  opFound : Bool
  h5class : Option String
  className : Option String
  storedRows : List IndexRow

/-- The external collaborators of one `update` run: orchestration facts
derived from the path (storage-migration mode, operation id), the
relational-index facade (`dao`), the import service and the registries.
Modelled from the spec where the implementing code is outside `src/`. -/
structure Env where
  storageMode : Bool
  opId : Int
  buildOpOk : Bool
  xmlParams : Dict
  algorithmStr : String
  operationFound : Bool
  registryWrittenBy : Option String
  registryIndexOk : Bool
  indexGids : List String
  parentBurstFor : String → Option String
  algJson : String → Option (String × String)
  getAlgorithm : String → String → Option Int
  importOk : Bool
  simOk : Bool
  burstParams : Option String

/-! ## Storage-manager and helper operations -/

/-- Values a version-4 container can hold before decoding: text (`str`),
or text whose content is a serialized dict/array (kept structural). -/
def decodableVal : MVal → Bool
  | .str _ => true
  | .obj _ => true
  | .arr _ => true
  | _ => false

/-- Modelled from the spec: `DataSetMetaData.from_array(...).to_dict()` —
the statistical attribute block (min/max/mean) recomputed from the
dataset's current content (`tvb.core.neotraits._h5accessors` is not under
`src/`). -/
def dsStats (content : List MVal) : Dict :=
  let qs := content.filterMap (fun v =>
    match v with
    | .rat q => some q
    | .int n => some (n : Rat)
    | _ => none)
  [("Minimum", .rat (minRats qs)), ("Maximum", .rat (maxRats qs)),
   ("Mean", .rat (meanRats qs))]
where
  minRats : List Rat → Rat
    | [] => 0
    | x :: t => t.foldl min x
  maxRats : List Rat → Rat
    | [] => 0
    | x :: t => t.foldl max x
  meanRats (l : List Rat) : Rat := l.foldl (· + ·) 0 / (l.length : Rat)

/-- Embeds `_migrate_dataset_metadata` (lines 106-114): for each dataset,
recompute the statistic block from the current content and set it
(attribute-wise merge, as the storage manager writes attributes one by
one), then re-read the attributes and drop `Variance` and `Size` when
present. -/
def migrateDatasetMetadata (l : List String) (st : MigState) :
    Except (PyErr × MigState) MigState :=
  match l with
  | [] => .ok st
  | ds :: rest =>
    match lookupA st.dsData ds with
    | none => .error (.missingDataSet ds, st)
    | some content =>
      match lookupA st.dsMeta ds with
      | none => .error (.missingDataSet ds, st)
      | some attrs =>
        let attrs1 := mergeD attrs (dsStats content)
        let attrs2 := if hasD attrs1 "Variance" then delD attrs1 "Variance" else attrs1
        let attrs3 := if hasD attrs2 "Size" then delD attrs2 "Size" else attrs2
        migrateDatasetMetadata rest { st with dsMeta := setA st.dsMeta ds attrs3 }

/-- Embeds `_migrate_one_stimuli_param` (lines 117-122): the legacy
serialized equation descriptor is re-serialized as
`(type, parameters)`, failing when the class-tag key is missing. -/
def migrateOneStimuliParam (m : Dict) (p : String) : Except PyErr Dict :=
  match lookupD m p with
  | some (.obj param) =>
    match lookupD param "__mapped_class" with
    | none => .error (.keyError "__mapped_class")
    | some cls =>
      match lookupD param "parameters" with
      | none => .error (.keyError "parameters")
      | some ps => .ok (setD m p (.obj [("type", cls), ("parameters", ps)]))
  | some _ => .error .typeError
  | none => .error (.keyError p)

/-- Reads a string-valued entry of the in-memory root metadata
(`root_metadata[k]` where the script then uses it as text). -/
def getMetaS (st : MigState) (k : String) : Except PyErr String :=
  match lookupD st.memMeta k with
  | some (.str v) => .ok v
  | some _ => .error .typeError
  | none => .error (.keyError k)

/-- Boolean re-encoding used for `undirected` (lines 309-312):
`"0"` becomes `"bool:False"`, anything else `"bool:True"`. -/
def reencodeBool01 (v : String) : String :=
  if v = "0" then "bool:False" else "bool:True"

/-- Boolean re-encoding used for the surface and sensor flags
(lines 347-352, 392-393): `"bool:" + value[:1].upper() + value[1:]`. -/
def reencodeBoolCap (v : String) : String :=
  "bool:" ++ upperFirstChar v

/-- Dependency-gid normalization used on lookup (line 658):
`attr_value.replace('-', '').replace('urn:uuid:', '')`. -/
def stripUrn (v : MVal) : String :=
  match v with
  | .str s => replaceAll (replaceAll s "-" "") "urn:uuid:" ""
  | _ => ""

/-! ## The step language

One `Step` per root-metadata / parameter / dataset operation of a
type-specific branch of `update`, so every branch is the list of its source
lines. -/

/-- One primitive operation of a type-specific branch. -/
inductive Step where
  | setMetaS (k v : String)
  | prefixGidK (k : String)
  | popMetaK (k : String)
  | intMetaK (k : String)
  | floatMetaK (k : String)
  | stripQuotesMetaK (k : String)
  | bool01MetaK (k : String)
  | boolCapMetaK (k : String)
  | savedSelectionFix
  | depOfMetaK (k : String)
  | setParamOfMetaK (pk mk : String)
  | setParamStr (pk v : String)
  | setParamFileName (pk : String)
  | popBlankParam
  | noneIfBlankParam (k : String)
  | noneIfEmptyParamStrict (k : String)
  | connNormalizationFix
  | zeroBasedParamFix
  | rmDsAttrK (attr ds : String)
  | dsMigrateK (l : List String)
  | connDatasetsK
  | dsStoreEmptyK (ds : String)
  | bytesToStrK (ds : String)
  | dsCastFloatK (ds : String)
  | equationFixK
  | matrixDecodeK
  | stimParamFixK (k : String)
  | stimDsK (ds : String)
  | addParamArrK (pk mk : String)
  | setWrittenByK (v : String)
  | setH5ClassK (v : String)
  | algReplaceK (a b : String)
  | removeFileK
deriving DecidableEq

/-- `storage_manager.store_data(ds, content)`: creates or replaces the
dataset (a fresh dataset starts with an empty attribute block). -/
def storeDsData (st : MigState) (ds : String) (content : List MVal) : MigState :=
  { st with
    dsData := setA st.dsData ds content,
    dsMeta := if (lookupA st.dsMeta ds).isSome then st.dsMeta else setA st.dsMeta ds [] }

/-- `storage_manager.remove_data(ds)`: deletes the dataset and its
attribute block. -/
def removeDsData (st : MigState) (ds : String) : MigState :=
  { st with dsData := delA st.dsData ds, dsMeta := delA st.dsMeta ds }

/-- Executes one `Step` (the referenced source lines are given with each
branch's step list below). -/
def runStep (st : MigState) : Step → Except (PyErr × MigState) MigState
  | .setMetaS k v => .ok { st with memMeta := setD st.memMeta k (.str v) }
  | .prefixGidK k =>
    match getMetaS st k with
    | .error e => .error (e, st)
    | .ok v => .ok { st with memMeta := setD st.memMeta k (.str (urnTag ++ v)) }
  | .popMetaK k =>
    match popD st.memMeta k with
    | none => .error (.keyError k, st)
    | some m => .ok { st with memMeta := m }
  | .intMetaK k =>
    match getMetaS st k with
    | .error e => .error (e, st)
    | .ok v =>
      match pyInt v with
      | none => .error (.valueError, st)
      | some n => .ok { st with memMeta := setD st.memMeta k (.int n) }
  | .floatMetaK k =>
    match getMetaS st k with
    | .error e => .error (e, st)
    | .ok v =>
      if floatOk v then .ok { st with memMeta := setD st.memMeta k (.flt v) }
      else .error (.valueError, st)
  | .stripQuotesMetaK k =>
    match getMetaS st k with
    | .error e => .error (e, st)
    | .ok v => .ok { st with memMeta := setD st.memMeta k (.str (replaceAll v "\"" "")) }
  | .bool01MetaK k =>
    match getMetaS st k with
    | .error e => .error (e, st)
    | .ok v => .ok { st with memMeta := setD st.memMeta k (.str (reencodeBool01 v)) }
  | .boolCapMetaK k =>
    match getMetaS st k with
    | .error e => .error (e, st)
    | .ok v => .ok { st with memMeta := setD st.memMeta k (.str (reencodeBoolCap v)) }
  | .savedSelectionFix =>
    match getMetaS st "saved_selection" with
    | .error e => .error (e, st)
    | .ok v =>
      if v = "null" then
        .ok { st with memMeta := setD st.memMeta "saved_selection" (.str "[]") }
      else .ok st
  | .depOfMetaK k =>
    match lookupD st.memMeta k with
    | none => .error (.keyError k, st)
    | some v => .ok { st with deps := setD st.deps k v }
  | .setParamOfMetaK pk mk =>
    match lookupD st.memMeta mk with
    | none => .error (.keyError mk, st)
    | some v => .ok { st with params := setD st.params pk v }
  | .setParamStr pk v => .ok { st with params := setD st.params pk (.str v) }
  | .setParamFileName pk =>
    .ok { st with params := setD st.params pk (.str st.fileName) }
  | .popBlankParam => .ok { st with params := delD st.params "" }
  | .noneIfBlankParam k =>
    match lookupD st.params k with
    | some (.str "") => .ok { st with params := setD st.params k .pynull }
    | _ => .ok st
  | .noneIfEmptyParamStrict k =>
    match lookupD st.params k with
    | none => .error (.keyError k, st)
    | some (.str "") => .ok { st with params := setD st.params k .pynull }
    | some _ => .ok st
  | .connNormalizationFix =>
    match lookupD st.params "normalization" with
    | none => .error (.keyError "normalization", st)
    | some (.str "none") => .ok { st with params := delD st.params "normalization" }
    | some _ => .ok st
  | .zeroBasedParamFix =>
    match getMetaS st "zero_based_triangles" with
    | .error e => .error (e, st)
    | .ok v =>
      let pv : MVal := .boolv (v == "bool:True")
      .ok { st with params := setD st.params "zero_based_triangles" pv }
  | .rmDsAttrK attr ds =>
    match lookupA st.dsMeta ds with
    | none => .error (.missingDataSet ds, st)
    | some attrs =>
      if hasD attrs attr then
        .ok { st with dsMeta := setA st.dsMeta ds (delD attrs attr) }
      else .error (.keyError attr, st)
  | .dsMigrateK l => migrateDatasetMetadata l st
  | .connDatasetsK =>
    migrateDatasetMetadata
      (["centres", "region_labels", "tract_lengths", "weights"] ++
        (["orientations", "areas", "cortical", "hemispheres", "orientations"].filter
          (fun ds => (lookupA st.dsMeta ds).isSome)))
      st
  | .dsStoreEmptyK ds => .ok (storeDsData st ds [])
  | .bytesToStrK ds =>
    match lookupA st.dsData ds with
    | none => .error (.missingDataSet ds, st)
    | some content =>
      if content.all (fun v => match v with | .str _ => true | _ => false) then
        .ok (storeDsData (removeDsData st ds) ds content)
      else .error (.typeError, st)
  | .dsCastFloatK ds =>
    match lookupA st.dsData ds with
    | none => .error (.missingDataSet ds, st)
    | some content => .ok (storeDsData (removeDsData st ds) ds content)
  | .equationFixK =>
    match lookupD st.memMeta "equation" with
    | none => .error (.keyError "equation", st)
    | some (.obj eq) =>
      match lookupD eq "__mapped_class" with
      | none => .error (.keyError "__mapped_class", st)
      | some cls =>
        match popD (setD eq "type" cls) "__mapped_class" with
        | none => .error (.keyError "__mapped_class", st)
        | some eq1 =>
          match popD eq1 "__mapped_module" with
          | none => .error (.keyError "__mapped_module", st)
          | some eq2 => .ok { st with memMeta := setD st.memMeta "equation" (.obj eq2) }
    | some _ => .error (.typeError, st)
  | .matrixDecodeK =>
    match lookupA st.dsMeta "matrix" with
    | none => .error (.missingDataSet "matrix", st)
    | some attrs =>
      match lookupD attrs "Shape", lookupD attrs "dtype", lookupD attrs "format" with
      | some (.str _), some (.str _), some (.str _) => .ok st
      | _, _, _ => .error (.keyError "Shape", st)
  | .stimParamFixK k =>
    match migrateOneStimuliParam st.memMeta k with
    | .error e => .error (e, st)
    | .ok m => .ok { st with memMeta := m }
  | .stimDsK ds =>
    match lookupD st.memMeta ds with
    | some (.arr content) =>
      match migrateDatasetMetadata [ds] (storeDsData st ds content) with
      | .error e => .error e
      | .ok st1 =>
        match popD st1.memMeta ds with
        | none => .error (.keyError ds, st1)
        | some m => .ok { st1 with memMeta := m }
    | some _ => .error (.typeError, st)
    | none => .error (.keyError ds, st)
  | .addParamArrK pk mk =>
    match lookupD st.memMeta mk with
    | some (.arr content) =>
      .ok { st with addParams := setD st.addParams pk (.arr content) }
    | some _ => .error (.typeError, st)
    | none => .error (.keyError mk, st)
  | .setWrittenByK v =>
    .ok { st with memMeta := setD st.memMeta keyWrittenBy (.str v) }
  | .setH5ClassK v => .ok { st with h5class := some v }
  | .algReplaceK a b =>
    .ok { st with algorithmStr := replaceAll st.algorithmStr a b }
  | .removeFileK => .ok { st with fileKind := FileKind.absent }

/-- Runs the steps of a branch in source order. -/
def runSteps (l : List Step) (st : MigState) : Except (PyErr × MigState) MigState :=
  match l with
  | [] => .ok st
  | s :: rest =>
    match runStep st s with
    | .error e => .error e
    | .ok st1 => runSteps rest st1

/-! ## The type-specific branches (lines 305-639), one step per source line -/

/-- `_pop_lengths` (lines 78-84). -/
def popLengthsSteps : List Step :=
  [.popMetaK "length_1d", .popMetaK "length_2d", .popMetaK "length_3d",
   .popMetaK "length_4d"]

/-- `_pop_common_metadata` (lines 87-92). -/
def popCommonSteps : List Step :=
  [.popMetaK "label_x", .popMetaK "label_y", .popMetaK "aggregation_functions",
   .popMetaK "dimensions_labels", .popMetaK "nr_dimensions"]

/-- Connectivity branch (lines 305-337).  The dataset list with its
optional extras is assembled inside `connDatasetsK`; the intermediate
attribute removals cannot change which datasets exist, so collecting the
extras at migration time is equivalent to collecting them at line 320. -/
def branchConnectivity : List Step :=
  [.intMetaK "number_of_connections", .intMetaK "number_of_regions",
   .bool01MetaK "undirected", .savedSelectionFix, .connNormalizationFix,
   .rmDsAttrK "Mean non zero" "tract_lengths",
   .rmDsAttrK "Min. non zero" "tract_lengths",
   .rmDsAttrK "Var. non zero" "tract_lengths",
   .rmDsAttrK "Mean non zero" "weights",
   .rmDsAttrK "Min. non zero" "weights",
   .rmDsAttrK "Var. non zero" "weights",
   .connDatasetsK]

/-- Surface-kind branch (lines 339-364). -/
def branchSurface : List Step :=
  [.floatMetaK "edge_max_length", .floatMetaK "edge_mean_length",
   .floatMetaK "edge_min_length", .intMetaK "number_of_split_slices",
   .intMetaK "number_of_triangles", .intMetaK "number_of_vertices",
   .boolCapMetaK "zero_based_triangles", .boolCapMetaK "bi_hemispheric",
   .boolCapMetaK "valid_for_simulations", .stripQuotesMetaK "surface_type",
   .zeroBasedParamFix, .dsStoreEmptyK "split_triangles",
   .dsMigrateK ["split_triangles", "triangle_normals", "triangles",
                "vertex_normals", "vertices"]]

/-- RegionMapping branch (lines 366-376). -/
def branchRegionMapping : List Step :=
  popLengthsSteps ++ popCommonSteps ++
  [.prefixGidK "surface", .prefixGidK "connectivity",
   .dsMigrateK ["array_data"], .depOfMetaK "connectivity", .depOfMetaK "surface",
   .algReplaceK "RegionMapping_Importer" "RegionMappingImporter"]

/-- RegionVolumeMapping branch (lines 378-387). -/
def branchRegionVolumeMapping : List Step :=
  popLengthsSteps ++ popCommonSteps ++
  [.prefixGidK "connectivity", .prefixGidK "volume",
   .dsMigrateK ["array_data"], .depOfMetaK "connectivity", .depOfMetaK "volume"]

/-- Sensors branch (lines 389-413); the dataset list and the sensors-type
parameter depend on the MEG/EEG/internal sub-kind. -/
def branchSensors (cn : String) : List Step :=
  [.intMetaK "number_of_sensors", .stripQuotesMetaK "sensors_type",
   .boolCapMetaK "has_orientation",
   .rmDsAttrK "Size" "labels", .rmDsAttrK "Size" "locations",
   .rmDsAttrK "Variance" "locations", .bytesToStrK "labels"] ++
  (if containsSub cn "MEG" then
    [.rmDsAttrK "Size" "orientations", .rmDsAttrK "Variance" "orientations",
     .setParamStr "sensors_type" sensorTypeMEG,
     .dsMigrateK ["labels", "locations", "orientations"]]
   else if containsSub cn "EEG" then
    [.setParamStr "sensors_type" sensorTypeEEG, .dsMigrateK ["labels", "locations"]]
   else
    [.setParamStr "sensors_type" sensorTypeInternal,
     .dsMigrateK ["labels", "locations"]]) ++
  [.algReplaceK "Sensors_Importer" "SensorsImporter"]

/-- Projection branch (lines 415-429). -/
def branchProjection : List Step :=
  [.prefixGidK "sensors", .prefixGidK "sources",
   .setWrittenByK "tvb.adapters.datatypes.h5.projections_h5.ProjectionMatrixH5",
   .stripQuotesMetaK "projection_type",
   .rmDsAttrK "Size" "projection_data", .rmDsAttrK "Variance" "projection_data",
   .setParamFileName "projection_file",
   .dsMigrateK ["projection_data"], .depOfMetaK "sensors", .depOfMetaK "sources",
   .algReplaceK "BrainstormGainMatrixImporter" "ProjectionMatrixSurfaceEEGImporter"]

/-- LocalConnectivity branch (lines 431-450). -/
def branchLocalConnectivity : List Step :=
  [.floatMetaK "cutoff", .prefixGidK "surface", .matrixDecodeK, .equationFixK,
   .setParamOfMetaK "surface" "surface", .depOfMetaK "surface"]

/-- ConnectivityAnnotations branch (lines 452-458). -/
def branchConnectivityAnnotations : List Step :=
  [.prefixGidK "connectivity",
   .setWrittenByK "tvb.adapters.datatypes.h5.annotation_h5.ConnectivityAnnotationsH5",
   .setH5ClassK "ConnectivityAnnotationsH5",
   .dsMigrateK ["region_annotations"], .depOfMetaK "connectivity"]

/-- TimeSeries branch: the three parameter fixes of lines 460-465 followed
by `_migrate_time_series` (lines 136-173). -/
def branchTimeSeries (cn : String) : List Step :=
  [.popBlankParam, .noneIfBlankParam "surface", .noneIfBlankParam "stimulus",
   .popMetaK "has_surface_mapping", .popMetaK "has_volume_mapping"] ++
  popLengthsSteps ++
  (if cn = "TimeSeriesVolume" then []
   else [.intMetaK "nr_dimensions", .floatMetaK "sample_rate"]) ++
  [.floatMetaK "sample_period", .floatMetaK "start_time",
   .stripQuotesMetaK "sample_period_unit", .stripQuotesMetaK keyTitle,
   .dsMigrateK (if cn = "TimeSeriesVolume" then ["data"] else ["data", "time"])] ++
  (if cn = "TimeSeriesRegion" then
    [.prefixGidK "region_mapping", .prefixGidK "connectivity",
     .depOfMetaK "connectivity", .depOfMetaK "region_mapping"]
   else if cn = "TimeSeriesSurface" then
    [.prefixGidK "surface", .depOfMetaK "surface"]
   else if cn = "TimeSeriesEEG" ∨ cn = "TimeSeriesMEG" ∨ cn = "TimeSeriesSEEG" then
    [.prefixGidK "sensors", .depOfMetaK "sensors"]
   else
    [.prefixGidK "volume", .depOfMetaK "volume",
     .popMetaK "nr_dimensions", .popMetaK "sample_rate"])

/-- Volume branch (lines 468-474). -/
def branchVolume : List Step :=
  [.stripQuotesMetaK "voxel_unit", .noneIfEmptyParamStrict "connectivity",
   .dsMigrateK ["origin", "voxel_size"]]

/-- StructuralMRI branch (lines 476-483). -/
def branchStructuralMRI : List Step :=
  popLengthsSteps ++ popCommonSteps ++
  [.prefixGidK "volume", .dsMigrateK ["array_data"], .depOfMetaK "volume"]

/-- ComplexCoherenceSpectrum branch (lines 485-497).  Note that the source
prepends the URN prefix to `source` twice (lines 492 and 494). -/
def branchComplexCoherence : List Step :=
  popLengthsSteps ++ popCommonSteps ++
  [.popMetaK keyTitle, .floatMetaK "epoch_length", .floatMetaK "segment_length",
   .prefixGidK "source", .stripQuotesMetaK "windowing_function",
   .prefixGidK "source",
   .dsMigrateK ["array_data", "cross_spectrum"], .depOfMetaK "source"]

/-- WaveletCoefficients branch (lines 499-513). -/
def branchWavelet : List Step :=
  popLengthsSteps ++ popCommonSteps ++
  [.popMetaK keyTitle, .floatMetaK "q_ratio", .floatMetaK "sample_period",
   .prefixGidK "source", .stripQuotesMetaK "mother",
   .stripQuotesMetaK "normalisation", .setParamOfMetaK "input_data" "source",
   .dsMigrateK ["amplitude", "array_data", "frequencies", "phase", "power"],
   .depOfMetaK "source"]

/-- CoherenceSpectrum branch (lines 515-528). -/
def branchCoherence : List Step :=
  popLengthsSteps ++ popCommonSteps ++
  [.popMetaK keyTitle, .intMetaK "nfft", .prefixGidK "source",
   .dsCastFloatK "array_data", .dsMigrateK ["array_data", "frequency"],
   .depOfMetaK "source"]

/-- CrossCorrelation branch (lines 530-535): the operation parameter takes
the raw gid before the prefix is applied. -/
def branchCrossCorrelation : List Step :=
  [.setParamOfMetaK "datatype" "source", .prefixGidK "source",
   .depOfMetaK "source", .dsMigrateK ["array_data", "time"]]

/-- Fcd branch (lines 537-547). -/
def branchFcd : List Step :=
  popLengthsSteps ++ popCommonSteps ++
  [.popMetaK keyTitle, .floatMetaK "sp", .floatMetaK "sw", .prefixGidK "source",
   .dsMigrateK ["array_data"], .depOfMetaK "source"]

/-- FourierSpectrum branch (lines 549-560). -/
def branchFourier : List Step :=
  popLengthsSteps ++ popCommonSteps ++
  [.popMetaK keyTitle, .floatMetaK "segment_length", .prefixGidK "source",
   .setParamOfMetaK "input_data" "source",
   .dsMigrateK ["amplitude", "array_data", "average_power",
                "normalised_average_power", "phase", "power"],
   .depOfMetaK "source"]

/-- IndependentComponents branch (lines 562-569). -/
def branchIndependent : List Step :=
  [.intMetaK "n_components", .prefixGidK "source",
   .dsMigrateK ["component_time_series", "mixing_matrix", "norm_source",
                "normalised_component_time_series", "prewhitening_matrix",
                "unmixing_matrix"],
   .depOfMetaK "source"]

/-- CorrelationCoefficients branch (lines 571-581). -/
def branchCorrelationCoeff : List Step :=
  popLengthsSteps ++ popCommonSteps ++
  [.popMetaK keyTitle, .prefixGidK "source", .setParamOfMetaK "datatype" "source",
   .dsMigrateK ["array_data"], .depOfMetaK "source"]

/-- PrincipalComponents branch (lines 583-589). -/
def branchPrincipal : List Step :=
  [.prefixGidK "source",
   .dsMigrateK ["component_time_series", "fractions", "norm_source",
                "normalised_component_time_series", "weights"],
   .depOfMetaK "source"]

/-- Covariance branch (lines 591-599): common metadata, then the title,
then the length scalars are popped. -/
def branchCovariance : List Step :=
  popCommonSteps ++ [.popMetaK keyTitle] ++ popLengthsSteps ++
  [.prefixGidK "source", .dsMigrateK ["array_data"], .depOfMetaK "source"]

/-- ConnectivityMeasure branch (lines 601-610). -/
def branchConnectivityMeasure : List Step :=
  popCommonSteps ++ popLengthsSteps ++
  [.prefixGidK "connectivity", .setParamFileName "data_file",
   .setParamOfMetaK "connectivity" "connectivity",
   .dsMigrateK ["array_data"], .depOfMetaK "connectivity"]

/-- DatatypeMeasure branch (lines 612-617): records its dependent attribute
without prefixing it, then returns before the metadata write-back. -/
def branchDatatypeMeasure : List Step :=
  [.setWrittenByK "tvb.core.entities.file.simulator.datatype_measure_h5.DatatypeMeasureH5",
   .setH5ClassK "DatatypeMeasureH5", .depOfMetaK "analyzed_datatype"]

/-- StimuliRegion branch (lines 619-623), inlining `_migrate_stimuli`. -/
def branchStimuliRegion : List Step :=
  [.prefixGidK "connectivity", .addParamArrK "weight" "weight",
   .stimParamFixK "spatial", .stimParamFixK "temporal", .stimDsK "weight",
   .depOfMetaK "connectivity"]

/-- StimuliSurface branch (lines 625-630), inlining `_migrate_stimuli`. -/
def branchStimuliSurface : List Step :=
  [.prefixGidK "surface",
   .addParamArrK "focal_points_triangles" "focal_points_triangles",
   .stimParamFixK "spatial", .stimParamFixK "temporal",
   .stimDsK "focal_points_surface", .stimDsK "focal_points_triangles",
   .depOfMetaK "surface"]

/-- ValueWrapper branch (lines 632-635). -/
def branchValueWrapper : List Step :=
  [.stripQuotesMetaK "data_type",
   .setWrittenByK "tvb.adapters.datatypes.h5.mapped_value_h5.ValueWrapperH5",
   .setH5ClassK "ValueWrapperH5"]

/-- The legacy surface kinds merged into `Surface` (line 339, duplicate
entry kept as in the source). -/
def surfaceKindList : List String :=
  ["BrainSkull", "CorticalSurface", "SkinAir", "BrainSkull", "SkullSkin",
   "EEGCap", "FaceSurface"]

/-- The dispatch table over `class_name` (lines 305-639), in source order:
which branch runs, and whether control continues to the write-back
(`false` exactly for the two kinds whose branch executes `return` before
it: `DatatypeMeasure` and `SimulationState`).  `none` models the
fall-through for unknown kinds. -/
def branchOf (cn : String) : Option (List Step × Bool) :=
  if cn = "Connectivity" then some (branchConnectivity, true)
  else if surfaceKindList.contains cn then some (branchSurface, true)
  else if cn = "RegionMapping" then some (branchRegionMapping, true)
  else if cn = "RegionVolumeMapping" then some (branchRegionVolumeMapping, true)
  else if containsSub cn "Sensors" then some (branchSensors cn, true)
  else if containsSub cn "Projection" then some (branchProjection, true)
  else if cn = "LocalConnectivity" then some (branchLocalConnectivity, true)
  else if cn = "ConnectivityAnnotations" then some (branchConnectivityAnnotations, true)
  else if containsSub cn "TimeSeries" then some (branchTimeSeries cn, true)
  else if containsSub cn "Volume" then some (branchVolume, true)
  else if cn = "StructuralMRI" then some (branchStructuralMRI, true)
  else if cn = "ComplexCoherenceSpectrum" then some (branchComplexCoherence, true)
  else if cn = "WaveletCoefficients" then some (branchWavelet, true)
  else if cn = "CoherenceSpectrum" then some (branchCoherence, true)
  else if cn = "CrossCorrelation" then some (branchCrossCorrelation, true)
  else if cn = "Fcd" then some (branchFcd, true)
  else if cn = "FourierSpectrum" then some (branchFourier, true)
  else if cn = "IndependentComponents" then some (branchIndependent, true)
  else if cn = "CorrelationCoefficients" then some (branchCorrelationCoeff, true)
  else if cn = "PrincipalComponents" then some (branchPrincipal, true)
  else if cn = "Covariance" then some (branchCovariance, true)
  else if cn = "ConnectivityMeasure" then some (branchConnectivityMeasure, true)
  else if cn = "DatatypeMeasure" then some (branchDatatypeMeasure, false)
  else if cn = "StimuliRegion" then some (branchStimuliRegion, true)
  else if cn = "StimuliSurface" then some (branchStimuliSurface, true)
  else if cn = "ValueWrapper" then some (branchValueWrapper, true)
  else if cn = "SimulationState" then some ([.removeFileK], false)
  else none

/-- The dispatch over `class_name`: run the selected branch's steps in
source order; unknown kinds fall through to the write-back untouched. -/
def dispatch (cn : String) (st : MigState) :
    Except (PyErr × MigState) (Bool × MigState) :=
  match branchOf cn with
  | some (l, c) =>
    match runSteps l st with
    | .error e => .error e
    | .ok s => .ok (c, s)
  | none => .ok (true, st)

/-! ## The phases of `update` (lines 196-713) -/

/-- The file renaming of lines 209-224 (fixed string substitutions, hyphens
stripped, applied in source order with the duplicated `BrainSkull` rule). -/
def renameBase (s : String) : String :=
  let s := replaceAll s "-" ""
  let s := replaceAll s "BrainSkull" "Surface"
  let s := replaceAll s "CorticalSurface" "Surface"
  let s := replaceAll s "SkinAir" "Surface"
  let s := replaceAll s "BrainSkull" "Surface"
  let s := replaceAll s "SkullSkin" "Surface"
  let s := replaceAll s "EEGCap" "Surface"
  let s := replaceAll s "FaceSurface" "Surface"
  let s := replaceAll s "SensorsEEG" "Sensors"
  let s := replaceAll s "SensorsMEG" "Sensors"
  let s := replaceAll s "SensorsInternal" "Sensors"
  let s := replaceAll s "ProjectionSurfaceEEG" "ProjectionMatrix"
  let s := replaceAll s "ProjectionSurfaceMEG" "ProjectionMatrix"
  replaceAll s "ProjectionSurfaceSEEG" "ProjectionMatrix"

/-- Lines 201-229: in storage-migration mode (the second-to-last path
element is an operation id) the container is renamed via `os.rename`,
which raises an `OSError` if the path does not exist at all. -/
def phaseRename (env : Env) (st : MigState) : Except (PyErr × MigState) MigState :=
  if env.storageMode then
    match st.fileKind with
    | FileKind.absent => .error (.osError, st)
    | _ => .ok { st with fileName := renameBase st.fileName }
  else .ok st

/-- Lines 231-241: the regular-file check, the metadata read, and the
class-name precondition, each failing with
`IncompatibleFileManagerException`. -/
def phaseCheck (st : MigState) : Except (PyErr × MigState) MigState :=
  if st.fileKind = FileKind.regular then
    if hasD st.storedRoot keyClassName then .ok { st with memMeta := st.storedRoot }
    else .error (.incompatible, { st with memMeta := st.storedRoot })
  else .error (.incompatible, st)

/-- Lines 243-251 and 252: decode every value, lowercase-first every key
(removing all stored attributes along the way) and stamp the new data
version. -/
def normStamp (st : MigState) : MigState :=
  { st with storedRoot := [],
            memMeta := setD (normalizeKeys st.memMeta) dataVersionAttr
              (.int dataVersionNew) }

/-- Line 253: read the class name. -/
def normReadClass (st : MigState) : Except (PyErr × MigState) (String × MigState) :=
  match lookupD st.memMeta "type" with
  | some (.str cn) => .ok (cn, { st with className := some cn })
  | some _ => .error (.typeError, st)
  | none => .error (.keyError "type", st)

/-- Lines 256-258: rewrite the creation date. -/
def normDate (st : MigState) : Except (PyErr × MigState) MigState :=
  match getMetaS st keyDate with
  | .error e => .error (e, st)
  | .ok dv =>
    .ok { st with memMeta := setD st.memMeta keyDate (.str (replaceAll (replaceAll (replaceAll dv "datetime:" "") ":" "-") " " ",")) }

/-- Lines 262-268: resolve the module against the registry; a `KeyError`
(unknown module, unregistered type, or missing `module` key) is caught and
leaves `h5_class = None`. -/
def normModule (env : Env) (st : MigState) : MigState :=
  if hasD st.memMeta "module" then
    match env.registryWrittenBy with
    | some w =>
      { st with memMeta := setD st.memMeta keyWrittenBy (.str w), h5class := some w }
    | none => st
  else st

/-- Lines 271-272: blank `user_tag_1` and prefix the gid. -/
def normGid (st : MigState) : Except (PyErr × MigState) MigState :=
  match getMetaS { st with memMeta := setD st.memMeta "user_tag_1" (.str "") } "gid" with
  | .error e => .error (e, { st with memMeta := setD st.memMeta "user_tag_1" (.str "") })
  | .ok g =>
    .ok { st with memMeta := setD (setD st.memMeta "user_tag_1" (.str "")) "gid" (.str (urnTag ++ g)) }

/-- Lines 273-275: pop `type`, `module` and `data_version`. -/
def normPops (st : MigState) : Except (PyErr × MigState) MigState :=
  match popD st.memMeta "type" with
  | none => .error (.keyError "type", st)
  | some ma =>
    match popD ma "module" with
    | none => .error (.keyError "module", { st with memMeta := ma })
    | some mb =>
      match popD mb "data_version" with
      | none => .error (.keyError "data_version", { st with memMeta := mb })
      | some mc => .ok { st with memMeta := mc }

/-- Lines 243-276 assembled in source order. -/
def phaseNormalize (env : Env) (st : MigState) :
    Except (PyErr × MigState) (String × MigState) :=
  if st.memMeta.all (fun p => decodableVal p.2) then
    match normReadClass (normStamp st) with
    | .error e => .error e
    | .ok (cn, stA) =>
      match normDate stA with
      | .error e => .error e
      | .ok stB =>
        match normGid (normModule env stB) with
        | .error e => .error e
        | .ok stD =>
          match normPops stD with
          | .error e => .error e
          | .ok stE => .ok (cn, stE)
  else .error (.typeError, st)

/-- Lines 280-301: when `Operation.xml` sits next to the container, the
operation, its parameters and its algorithm are rebuilt from it (an
external importer supplied by the environment); otherwise the view model is
taken to exist already (`has_vm = True`). -/
def phaseXml (env : Env) (st : MigState) : Except (PyErr × MigState) MigState :=
  if st.xmlExists then
    if env.buildOpOk then
      .ok { st with params := env.xmlParams, algorithmStr := env.algorithmStr,
                    opFound := env.operationFound, hasVm := false }
    else .error (.externalFailure, st)
  else .ok { st with hasVm := true }

/-- Lines 641-642: stamp `operation_tag` and write the whole in-memory
mapping back to the container (attribute-wise, hence a merge). -/
def phaseWriteback (st : MigState) : MigState :=
  { st with memMeta := setD st.memMeta "operation_tag" (.str ""),
            storedRoot := mergeD st.storedRoot
              (setD st.memMeta "operation_tag" (.str "")) }

/-- Lines 657-660, modelled from the spec: each dependent attribute is
resolved against the Relational Index after stripping dashes and the URN
prefix; an unindexed gid surfaces as a lookup failure
(`DependencyNotFoundError`). -/
def depResolve (env : Env) : Dict → Option PyErr
  | [] => none
  | (_, v) :: t =>
    match v with
    | .str s =>
      if env.indexGids.contains (stripUrn (.str s)) then depResolve env t
      else some (.lookupFailure (stripUrn (.str s)))
    | _ => some .typeError

/-- Lines 663-668: when a `time_series` operation parameter is present, the
parent burst gid is fetched through the index and written into the
metadata (and back to the container). -/
def tsParentFix (env : Env) (st : MigState) : Except (PyErr × MigState) MigState :=
  match lookupD st.params "time_series" with
  | none => .ok st
  | some (.str s) =>
    if env.indexGids.contains (stripUrn (.str s)) then
      match env.parentBurstFor (stripUrn (.str s)) with
      | some pb =>
        .ok { st with
          memMeta := setD st.memMeta "parent_burst" (.str (urnTag ++ pb)),
          storedRoot := mergeD st.storedRoot
            (setD st.memMeta "parent_burst" (.str (urnTag ++ pb))) }
      | none => .error (.typeError, st)
    else .error (.lookupFailure (stripUrn (.str s)), st)
  | some _ => .error (.typeError, st)

/-- Lines 681-703: the simulation-history/burst reconstruction for
time-series kinds (external adapters supplied by the environment); it may
store a history row and a burst-configuration row and update
`parent_burst`. -/
def simBlock (env : Env) (cn : String) (st : MigState) :
    Except (PyErr × MigState) MigState :=
  if containsSub cn "TimeSeries" then
    if env.simOk then
      match env.burstParams with
      | some bgid =>
        .ok { st with
          memMeta := setD st.memMeta "parent_burst" (.str (urnTag ++ bgid)),
          storedRoot := mergeD st.storedRoot
            (setD st.memMeta "parent_burst" (.str (urnTag ++ bgid))),
          storedRows := st.storedRows ++
            [{ kind := RowKind.historyIndex, fkFromOperation := none,
               createDate := none },
             { kind := RowKind.burstConfig, fkFromOperation := none,
               createDate := none }] }
      | none =>
        .ok { st with storedRows := st.storedRows ++
          [{ kind := RowKind.historyIndex, fkFromOperation := none,
             createDate := none }] }
    else .error (.externalFailure, st)
  else .ok st

/-- Lines 662-705: the `has_vm is False` block — parent-burst fix, algorithm
lookup, operation import, view-model creation, the time-series simulation
block, and the removal of `Operation.xml`. -/
def vmBlock (env : Env) (cn : String) (st : MigState) :
    Except (PyErr × MigState) MigState :=
  if st.hasVm then .ok st
  else
    match tsParentFix env st with
    | .error e => .error e
    | .ok st1 =>
      match env.algJson st1.algorithmStr with
      | none => .error (.valueError, st1)
      | some (md, cls) =>
        match env.getAlgorithm md cls with
        | none => .error (.typeError, st1)
        | some _ =>
          if st1.opFound then
            if env.importOk then
              match simBlock env cn st1 with
              | .error e => .error e
              | .ok st2 => .ok { st2 with xmlExists := false }
            else .error (.externalFailure, st1)
          else .error (.typeError, st1)

/-- Lines 647-713: open the container through the resolved H5 class (a
`None` class is a crash), build the index row, resolve every dependent
attribute, run the view-model block, and store the new datatype index row
with its foreign key to the originating operation. -/
def phasePostIndex (env : Env) (cn : String) (st : MigState) :
    Except (PyErr × MigState) MigState :=
  match st.h5class with
  | none => .error (.typeError, st)
  | some _ =>
    if env.registryIndexOk then
      match lookupD st.memMeta keyDate with
      | none => .error (.keyError keyDate, st)
      | some cd =>
        match depResolve env st.deps with
        | some e => .error (e, st)
        | none =>
          match vmBlock env cn st with
          | .error e => .error e
          | .ok st1 =>
            let row : IndexRow :=
              { kind := RowKind.datatypeIndex, fkFromOperation := some env.opId,
                createDate := some cd }
            .ok { st1 with storedRows := st1.storedRows ++ [row] }
    else .error (.externalFailure, st)

/-- Lines 277 and 282-287: the run-local bookkeeping initialized by
`update` itself. -/
def initRun (st : MigState) : MigState :=
  { st with memMeta := [], deps := [], params := [], addParams := [],
            hasVm := false, algorithmStr := "", opFound := false,
            h5class := none, className := none, storedRows := [] }

/-- The embedding of `update(input_file)` (lines 196-713): rename (storage
mode), precondition checks, identity normalization, operation-XML
processing, the type-specific dispatch, the metadata write-back, and — in
storage mode, for kinds that do not return early — the index
materialization. -/
def update (env : Env) (st0 : MigState) : Except (PyErr × MigState) MigState :=
  match phaseRename env (initRun st0) with
  | .error e => .error e
  | .ok st1 =>
    match phaseCheck st1 with
    | .error e => .error e
    | .ok st2 =>
      match phaseNormalize env st2 with
      | .error e => .error e
      | .ok (cn, st3) =>
        match phaseXml env st3 with
        | .error e => .error e
        | .ok st4 =>
          match dispatch cn st4 with
          | .error e => .error e
          | .ok (c, st5) =>
            if c then
              let st6 := phaseWriteback st5
              if env.storageMode then phasePostIndex env cn st6 else .ok st6
            else .ok st5

/-! ## Result accessors (used to state concrete theorems) -/

/-- Whether a run finished without raising. -/
def isOkRes (r : Except (PyErr × MigState) MigState) : Bool :=
  match r with
  | .ok _ => true
  | .error _ => false

/-- The stored root metadata of a finished run (`[]` for a raising run). -/
def okStored (r : Except (PyErr × MigState) MigState) : Dict :=
  match r with
  | .ok s => s.storedRoot
  | .error _ => []

/-- The dependent attributes of a finished run. -/
def okDeps (r : Except (PyErr × MigState) MigState) : Dict :=
  match r with
  | .ok s => s.deps
  | .error _ => []

/-- The database rows stored by a finished run. -/
def okRows (r : Except (PyErr × MigState) MigState) : List IndexRow :=
  match r with
  | .ok s => s.storedRows
  | .error _ => []

/-- What the container path resolves to after the run (also for raising
runs, whose error carries the state). -/
def resFile (r : Except (PyErr × MigState) MigState) : FileKind :=
  match r with
  | .ok s => s.fileKind
  | .error (_, s) => s.fileKind

/-- The exception of a raising run. -/
def resErr (r : Except (PyErr × MigState) MigState) : Option PyErr :=
  match r with
  | .ok _ => none
  | .error (e, _) => some e

/-- A string whose first character is not uppercase (the normalized key
casing demanded by the spec). -/
def firstCharLower (s : String) : Bool :=
  match s.data with
  | [] => true
  | c :: _ => !c.isUpper

/-! ## Dictionary lemmas -/

/-- Keys of a dict. -/
def keysD (d : Dict) : List String := d.map Prod.fst

/-- A dict with pairwise-distinct keys (the invariant of every Python
dict). -/
def nodupKeys (d : Dict) : Prop := (keysD d).Nodup

theorem lookupD_setD (d : Dict) (k k' : String) (v : MVal) :
    lookupD (setD d k v) k' = if k' = k then some v else lookupD d k' := by
  induction d with
  | nil =>
    by_cases h : k' = k
    · subst h; simp [setD, lookupD]
    · simp [setD, lookupD, h, Ne.symm h]
  | cons p t ih =>
    obtain ⟨k1, v1⟩ := p
    by_cases h1 : k1 = k
    · subst h1
      by_cases h2 : k' = k1
      · subst h2; simp [setD, lookupD]
      · simp [setD, lookupD, h2, Ne.symm h2]
    · by_cases h2 : k' = k1
      · subst h2
        simp [setD, lookupD, h1]
      · simp [setD, lookupD, h1, Ne.symm h2, ih]

theorem lookupD_delD_ne (d : Dict) (k k' : String) (h : k' ≠ k) :
    lookupD (delD d k) k' = lookupD d k' := by
  induction d with
  | nil => simp [delD]
  | cons p t ih =>
    obtain ⟨k1, v1⟩ := p
    by_cases h1 : k1 = k
    · subst h1
      simp [delD, lookupD, Ne.symm h]
    · by_cases h2 : k1 = k'
      · subst h2
        simp [delD, lookupD, h1]
      · simp [delD, lookupD, h1, h2, ih]

theorem popD_eq (d : Dict) (k : String) :
    popD d k = if hasD d k then some (delD d k) else none := by
  induction d with
  | nil => simp [popD, hasD, lookupD]
  | cons p t ih =>
    obtain ⟨k1, v1⟩ := p
    by_cases h1 : k1 = k
    · subst h1
      simp [popD, hasD, lookupD, delD]
    · simp only [popD, hasD, lookupD, delD, h1, if_neg h1, ih]
      by_cases h2 : (lookupD t k).isSome
      · simp [hasD, h2]
      · simp [hasD, h2]

theorem popD_some_lookup_ne (d m : Dict) (k k' : String) (h : popD d k = some m)
    (hne : k' ≠ k) : lookupD m k' = lookupD d k' := by
  rw [popD_eq] at h
  split at h
  · cases h
    exact lookupD_delD_ne d k k' hne
  · cases h

theorem mem_keysD_iff_lookup_isSome (d : Dict) (k : String) :
    k ∈ keysD d ↔ (lookupD d k).isSome := by
  induction d with
  | nil => simp [keysD, lookupD]
  | cons p t ih =>
    obtain ⟨k1, v1⟩ := p
    by_cases h1 : k1 = k
    · subst h1
      simp [keysD, lookupD]
    · rw [show keysD ((k1, v1) :: t) = k1 :: keysD t from rfl]
      rw [show lookupD ((k1, v1) :: t) k = lookupD t k from by simp [lookupD, h1]]
      simp only [List.mem_cons]
      constructor
      · rintro (h | h)
        · exact absurd h.symm h1
        · exact ih.mp h
      · intro h
        exact Or.inr (ih.mpr h)

theorem keysD_setD (d : Dict) (k : String) (v : MVal) :
    keysD (setD d k v) = if hasD d k then keysD d else keysD d ++ [k] := by
  induction d with
  | nil => simp [setD, keysD, hasD, lookupD]
  | cons p t ih =>
    obtain ⟨k1, v1⟩ := p
    by_cases h1 : k1 = k
    · subst h1
      simp [setD, keysD, hasD, lookupD]
    · simp only [setD, keysD, hasD, lookupD, if_neg h1, List.map_cons]
      simp only [keysD, hasD] at ih
      rw [ih]
      by_cases h2 : (lookupD t k).isSome
      · simp [h2]
      · simp [h2]

theorem nodupKeys_setD (d : Dict) (k : String) (v : MVal) (h : nodupKeys d) :
    nodupKeys (setD d k v) := by
  unfold nodupKeys
  rw [keysD_setD]
  by_cases hk : hasD d k
  · simpa [hk] using h
  · have hmem : k ∉ keysD d := by
      rw [mem_keysD_iff_lookup_isSome]
      simpa [hasD] using hk
    simp only [hk, if_false, Bool.false_eq_true]
    rw [List.nodup_append]
    exact ⟨h, by simp, by simpa using hmem⟩

theorem keysD_delD_sub (d : Dict) (k k1 : String) (h : k1 ∈ keysD (delD d k)) :
    k1 ∈ keysD d := by
  induction d with
  | nil => simpa [delD] using h
  | cons p t ih =>
    by_cases hp : p.1 = k
    · simp only [delD, if_pos hp] at h
      simp [keysD]
      right
      simpa [keysD] using h
    · simp only [delD, if_neg hp] at h
      simp only [keysD, List.map_cons, List.mem_cons] at h ⊢
      rcases h with h | h
      · exact Or.inl h
      · exact Or.inr (ih (by simpa [keysD] using h))

theorem nodupKeys_delD (d : Dict) (k : String) (h : nodupKeys d) :
    nodupKeys (delD d k) := by
  induction d with
  | nil => simpa [delD] using h
  | cons p t ih =>
    obtain ⟨k1, v1⟩ := p
    simp only [nodupKeys, keysD, List.map_cons, List.nodup_cons] at h
    by_cases h1 : k1 = k
    · subst h1
      simpa [delD, nodupKeys, keysD] using h.2
    · have ht := ih h.2
      have hk1 : k1 ∉ keysD (delD t k) := fun hmem => h.1 (keysD_delD_sub t k k1 hmem)
      simp only [delD, if_neg h1, nodupKeys, keysD, List.map_cons, List.nodup_cons]
      exact ⟨by simpa [keysD] using hk1, ht⟩

theorem lookupD_none_of_not_mem_keys (d : Dict) (k : String)
    (h : k ∉ keysD d) : lookupD d k = none := by
  rw [mem_keysD_iff_lookup_isSome] at h
  cases hl : lookupD d k
  · rfl
  · simp [hl] at h

theorem lookupD_mergeD (d m : Dict) (k : String) (hm : nodupKeys m) :
    lookupD (mergeD d m) k =
      match lookupD m k with
      | some v => some v
      | none => lookupD d k := by
  induction m generalizing d with
  | nil => simp [mergeD, lookupD]
  | cons p t ih =>
    obtain ⟨k1, v1⟩ := p
    simp only [nodupKeys, keysD, List.map_cons, List.nodup_cons] at hm
    have step : mergeD d ((k1, v1) :: t) = mergeD (setD d k1 v1) t := by
      simp [mergeD]
    rw [step, ih _ hm.2]
    by_cases hk : k = k1
    · subst hk
      have : lookupD t k = none :=
        lookupD_none_of_not_mem_keys t k (by simpa [keysD] using hm.1)
      simp [lookupD, this, lookupD_setD]
    · simp [lookupD, Ne.symm hk, lookupD_setD, hk]

theorem nodupKeys_mergeD (d m : Dict) (h : nodupKeys d) :
    nodupKeys (mergeD d m) := by
  induction m generalizing d with
  | nil => simpa [mergeD] using h
  | cons p t ih =>
    have step : mergeD d (p :: t) = mergeD (setD d p.1 p.2) t := by
      simp [mergeD]
    rw [step]
    exact ih _ (nodupKeys_setD d p.1 p.2 h)

theorem nodupKeys_dictOfPairs (l : Dict) : nodupKeys (dictOfPairs l) :=
  nodupKeys_mergeD [] l (by simp [nodupKeys, keysD])

theorem nodupKeys_normalizeKeys (d : Dict) : nodupKeys (normalizeKeys d) :=
  nodupKeys_dictOfPairs _

theorem lookupD_mergeD_nil (m : Dict) (k : String) (hm : nodupKeys m) :
    lookupD (mergeD [] m) k = lookupD m k := by
  rw [lookupD_mergeD [] m k hm]
  cases lookupD m k <;> simp [lookupD]

/-- `popD` read back through `popD_eq`: a successful pop implies presence
and yields the deletion. -/
theorem popD_some_delD (d m : Dict) (k : String) (h : popD d k = some m) :
    m = delD d k := by
  rw [popD_eq] at h
  split at h
  · cases h; rfl
  · cases h

theorem nodupKeys_popD (d m : Dict) (k : String) (h : popD d k = some m)
    (hd : nodupKeys d) : nodupKeys m := by
  rw [popD_some_delD d m k h]
  exact nodupKeys_delD d k hd

/-! ## Step lemmas -/

/-- The root-metadata keys a step can modify. -/
def stepMetaKeys : Step → List String
  | .setMetaS k _ => [k]
  | .prefixGidK k => [k]
  | .popMetaK k => [k]
  | .intMetaK k => [k]
  | .floatMetaK k => [k]
  | .stripQuotesMetaK k => [k]
  | .bool01MetaK k => [k]
  | .boolCapMetaK k => [k]
  | .savedSelectionFix => ["saved_selection"]
  | .equationFixK => ["equation"]
  | .stimParamFixK k => [k]
  | .stimDsK ds => [ds]
  | .setWrittenByK _ => [keyWrittenBy]
  | _ => []

theorem migrateDatasetMetadata_shape (l : List String) (st st' : MigState)
    (h : migrateDatasetMetadata l st = .ok st') :
    st' = { st with dsMeta := st'.dsMeta } := by
  induction l generalizing st with
  | nil =>
    simp only [migrateDatasetMetadata] at h
    cases h
    rfl
  | cons ds rest ih =>
    simp only [migrateDatasetMetadata] at h
    split at h
    · cases h
    · split at h
      · cases h
      · have := ih _ h
        rw [this]

theorem migrateOneStimuliParam_ok (m m' : Dict) (p : String)
    (h : migrateOneStimuliParam m p = .ok m') :
    ∃ w, m' = setD m p w := by
  unfold migrateOneStimuliParam at h
  split at h
  · split at h
    · cases h
    · split at h
      · cases h
      · cases h
        exact ⟨_, rfl⟩
  · cases h
  · cases h

/-- The per-step frame facts every universal claim needs: steps never touch
the stored root attributes, the stored rows, or the recorded class name;
they only modify the in-memory metadata at their declared keys; they keep
the key set duplicate-free; and only `depOfMetaK k` can change the
dependent attribute recorded under `k`. -/
theorem runStep_ok_frame (st st' : MigState) (s : Step) (h : runStep st s = .ok st') :
    st'.storedRoot = st.storedRoot ∧ st'.storedRows = st.storedRows ∧
    st'.className = st.className ∧
    (∀ k, k ∉ stepMetaKeys s → lookupD st'.memMeta k = lookupD st.memMeta k) ∧
    (nodupKeys st.memMeta → nodupKeys st'.memMeta) ∧
    (∀ k, s ≠ .depOfMetaK k → lookupD st'.deps k = lookupD st.deps k) := by
  cases s with
  | setMetaS k v =>
    simp only [runStep] at h
    cases h
    refine ⟨rfl, rfl, rfl, ?_, ?_, fun _ _ => rfl⟩
    · intro k' hk'
      simp [stepMetaKeys] at hk'
      simp [lookupD_setD, hk']
    · intro hn
      exact nodupKeys_setD _ _ _ hn
  | prefixGidK k =>
    simp only [runStep] at h
    split at h
    · cases h
    · cases h
      refine ⟨rfl, rfl, rfl, ?_, ?_, fun _ _ => rfl⟩
      · intro k' hk'
        simp [stepMetaKeys] at hk'
        simp [lookupD_setD, hk']
      · intro hn
        exact nodupKeys_setD _ _ _ hn
  | popMetaK k =>
    simp only [runStep] at h
    split at h
    · cases h
    · rename_i m hm
      cases h
      refine ⟨rfl, rfl, rfl, ?_, ?_, fun _ _ => rfl⟩
      · intro k' hk'
        simp [stepMetaKeys] at hk'
        exact popD_some_lookup_ne _ _ _ _ hm hk'
      · intro hn
        exact nodupKeys_popD _ _ _ hm hn
  | intMetaK k =>
    simp only [runStep] at h
    split at h
    · cases h
    · split at h
      · cases h
      · cases h
        refine ⟨rfl, rfl, rfl, ?_, ?_, fun _ _ => rfl⟩
        · intro k' hk'
          simp [stepMetaKeys] at hk'
          simp [lookupD_setD, hk']
        · intro hn
          exact nodupKeys_setD _ _ _ hn
  | floatMetaK k =>
    simp only [runStep] at h
    split at h
    · cases h
    · split at h
      · cases h
        refine ⟨rfl, rfl, rfl, ?_, ?_, fun _ _ => rfl⟩
        · intro k' hk'
          simp [stepMetaKeys] at hk'
          simp [lookupD_setD, hk']
        · intro hn
          exact nodupKeys_setD _ _ _ hn
      · cases h
  | stripQuotesMetaK k =>
    simp only [runStep] at h
    split at h
    · cases h
    · cases h
      refine ⟨rfl, rfl, rfl, ?_, ?_, fun _ _ => rfl⟩
      · intro k' hk'
        simp [stepMetaKeys] at hk'
        simp [lookupD_setD, hk']
      · intro hn
        exact nodupKeys_setD _ _ _ hn
  | bool01MetaK k =>
    simp only [runStep] at h
    split at h
    · cases h
    · cases h
      refine ⟨rfl, rfl, rfl, ?_, ?_, fun _ _ => rfl⟩
      · intro k' hk'
        simp [stepMetaKeys] at hk'
        simp [lookupD_setD, hk']
      · intro hn
        exact nodupKeys_setD _ _ _ hn
  | boolCapMetaK k =>
    simp only [runStep] at h
    split at h
    · cases h
    · cases h
      refine ⟨rfl, rfl, rfl, ?_, ?_, fun _ _ => rfl⟩
      · intro k' hk'
        simp [stepMetaKeys] at hk'
        simp [lookupD_setD, hk']
      · intro hn
        exact nodupKeys_setD _ _ _ hn
  | savedSelectionFix =>
    simp only [runStep] at h
    split at h
    · cases h
    · split at h
      · cases h
        refine ⟨rfl, rfl, rfl, ?_, ?_, fun _ _ => rfl⟩
        · intro k' hk'
          simp [stepMetaKeys] at hk'
          simp [lookupD_setD, hk']
        · intro hn
          exact nodupKeys_setD _ _ _ hn
      · cases h
        exact ⟨rfl, rfl, rfl, fun _ _ => rfl, fun hn => hn, fun _ _ => rfl⟩
  | depOfMetaK k =>
    simp only [runStep] at h
    split at h
    · cases h
    · rename_i v hv
      cases h
      refine ⟨rfl, rfl, rfl, fun _ _ => rfl, fun hn => hn, ?_⟩
      intro k' hk'
      have hne : k' ≠ k := by
        intro hh
        exact hk' (by rw [hh])
      simp [lookupD_setD, hne]
  | setParamOfMetaK pk mk =>
    simp only [runStep] at h
    split at h
    · cases h
    · cases h
      exact ⟨rfl, rfl, rfl, fun _ _ => rfl, fun hn => hn, fun _ _ => rfl⟩
  | setParamStr pk v =>
    simp only [runStep] at h
    cases h
    exact ⟨rfl, rfl, rfl, fun _ _ => rfl, fun hn => hn, fun _ _ => rfl⟩
  | setParamFileName pk =>
    simp only [runStep] at h
    cases h
    exact ⟨rfl, rfl, rfl, fun _ _ => rfl, fun hn => hn, fun _ _ => rfl⟩
  | popBlankParam =>
    simp only [runStep] at h
    cases h
    exact ⟨rfl, rfl, rfl, fun _ _ => rfl, fun hn => hn, fun _ _ => rfl⟩
  | noneIfBlankParam k =>
    simp only [runStep] at h
    split at h <;> cases h <;>
      exact ⟨rfl, rfl, rfl, fun _ _ => rfl, fun hn => hn, fun _ _ => rfl⟩
  | noneIfEmptyParamStrict k =>
    simp only [runStep] at h
    split at h
    · cases h
    · cases h
      exact ⟨rfl, rfl, rfl, fun _ _ => rfl, fun hn => hn, fun _ _ => rfl⟩
    · cases h
      exact ⟨rfl, rfl, rfl, fun _ _ => rfl, fun hn => hn, fun _ _ => rfl⟩
  | connNormalizationFix =>
    simp only [runStep] at h
    split at h
    · cases h
    · cases h
      exact ⟨rfl, rfl, rfl, fun _ _ => rfl, fun hn => hn, fun _ _ => rfl⟩
    · cases h
      exact ⟨rfl, rfl, rfl, fun _ _ => rfl, fun hn => hn, fun _ _ => rfl⟩
  | zeroBasedParamFix =>
    simp only [runStep] at h
    split at h
    · cases h
    · cases h
      exact ⟨rfl, rfl, rfl, fun _ _ => rfl, fun hn => hn, fun _ _ => rfl⟩
  | rmDsAttrK attr ds =>
    simp only [runStep] at h
    split at h
    · cases h
    · split at h
      · cases h
        exact ⟨rfl, rfl, rfl, fun _ _ => rfl, fun hn => hn, fun _ _ => rfl⟩
      · cases h
  | dsMigrateK l =>
    simp only [runStep] at h
    have hs := migrateDatasetMetadata_shape l st st' h
    have hmm : st'.memMeta = st.memMeta := by rw [hs]
    have hdp : st'.deps = st.deps := by rw [hs]
    refine ⟨by rw [hs], by rw [hs], by rw [hs], ?_, ?_, ?_⟩
    · intro k' _
      rw [hmm]
    · intro hn
      rw [hmm]
      exact hn
    · intro k' _
      rw [hdp]
  | connDatasetsK =>
    simp only [runStep] at h
    have hs := migrateDatasetMetadata_shape _ st st' h
    have hmm : st'.memMeta = st.memMeta := by rw [hs]
    have hdp : st'.deps = st.deps := by rw [hs]
    refine ⟨by rw [hs], by rw [hs], by rw [hs], ?_, ?_, ?_⟩
    · intro k' _
      rw [hmm]
    · intro hn
      rw [hmm]
      exact hn
    · intro k' _
      rw [hdp]
  | dsStoreEmptyK ds =>
    simp only [runStep, storeDsData] at h
    cases h
    exact ⟨rfl, rfl, rfl, fun _ _ => rfl, fun hn => hn, fun _ _ => rfl⟩
  | bytesToStrK ds =>
    simp only [runStep] at h
    split at h
    · cases h
    · split at h
      · cases h
        exact ⟨rfl, rfl, rfl, fun _ _ => rfl, fun hn => hn, fun _ _ => rfl⟩
      · cases h
  | dsCastFloatK ds =>
    simp only [runStep] at h
    split at h
    · cases h
    · cases h
      exact ⟨rfl, rfl, rfl, fun _ _ => rfl, fun hn => hn, fun _ _ => rfl⟩
  | equationFixK =>
    simp only [runStep] at h
    split at h
    · cases h
    · split at h
      · cases h
      · split at h
        · cases h
        · split at h
          · cases h
          · cases h
            refine ⟨rfl, rfl, rfl, ?_, ?_, fun _ _ => rfl⟩
            · intro k' hk'
              simp [stepMetaKeys] at hk'
              simp [lookupD_setD, hk']
            · intro hn
              exact nodupKeys_setD _ _ _ hn
    · cases h
  | matrixDecodeK =>
    simp only [runStep] at h
    split at h
    · cases h
    · split at h
      · cases h
        exact ⟨rfl, rfl, rfl, fun _ _ => rfl, fun hn => hn, fun _ _ => rfl⟩
      · cases h
  | stimParamFixK k =>
    simp only [runStep] at h
    split at h
    · cases h
    · rename_i m hm
      cases h
      obtain ⟨w, hw⟩ := migrateOneStimuliParam_ok _ _ _ hm
      refine ⟨rfl, rfl, rfl, ?_, ?_, fun _ _ => rfl⟩
      · intro k' hk'
        simp [stepMetaKeys] at hk'
        simp [hw, lookupD_setD, hk']
      · intro hn
        rw [hw]
        exact nodupKeys_setD _ _ _ hn
  | stimDsK ds =>
    simp only [runStep] at h
    split at h
    · rename_i content hcontent
      split at h
      · cases h
      · rename_i st1 hst1
        split at h
        · cases h
        · rename_i m hm
          cases h
          have hshape := migrateDatasetMetadata_shape _ _ _ hst1
          have hmem1 : st1.memMeta = st.memMeta := by rw [hshape]; simp [storeDsData]
          have hdp1 : st1.deps = st.deps := by rw [hshape]; simp [storeDsData]
          refine ⟨by rw [hshape]; simp [storeDsData],
            by rw [hshape]; simp [storeDsData],
            by rw [hshape]; simp [storeDsData], ?_, ?_, ?_⟩
          · intro k' hk'
            simp [stepMetaKeys] at hk'
            rw [show ({ st1 with memMeta := m } : MigState).memMeta = m from rfl]
            rw [popD_some_lookup_ne _ _ _ _ hm hk', hmem1]
          · intro hn
            rw [show ({ st1 with memMeta := m } : MigState).memMeta = m from rfl]
            exact nodupKeys_popD _ _ _ hm (by rwa [hmem1])
          · intro k' _
            rw [show ({ st1 with memMeta := m } : MigState).deps = st1.deps from rfl]
            rw [hdp1]
    · cases h
    · cases h
  | addParamArrK pk mk =>
    simp only [runStep] at h
    split at h
    · cases h
      exact ⟨rfl, rfl, rfl, fun _ _ => rfl, fun hn => hn, fun _ _ => rfl⟩
    · cases h
    · cases h
  | setWrittenByK v =>
    simp only [runStep] at h
    cases h
    refine ⟨rfl, rfl, rfl, ?_, ?_, fun _ _ => rfl⟩
    · intro k' hk'
      simp [stepMetaKeys] at hk'
      simp [lookupD_setD, hk']
    · intro hn
      exact nodupKeys_setD _ _ _ hn
  | setH5ClassK v =>
    simp only [runStep] at h
    cases h
    exact ⟨rfl, rfl, rfl, fun _ _ => rfl, fun hn => hn, fun _ _ => rfl⟩
  | algReplaceK a b =>
    simp only [runStep] at h
    cases h
    exact ⟨rfl, rfl, rfl, fun _ _ => rfl, fun hn => hn, fun _ _ => rfl⟩
  | removeFileK =>
    simp only [runStep] at h
    cases h
    exact ⟨rfl, rfl, rfl, fun _ _ => rfl, fun hn => hn, fun _ _ => rfl⟩

/-- The effect of `depOfMetaK`: the dependent attribute takes the current
in-memory metadata value. -/
theorem runStep_dep_add (st st' : MigState) (k : String)
    (h : runStep st (.depOfMetaK k) = .ok st') :
    ∃ v, lookupD st.memMeta k = some v ∧ st'.deps = setD st.deps k v := by
  simp only [runStep] at h
  split at h
  · cases h
  · rename_i v hv
    cases h
    exact ⟨v, hv, rfl⟩

theorem getMetaS_ok (st : MigState) (k g : String) :
    getMetaS st k = .ok g ↔ lookupD st.memMeta k = some (.str g) := by
  unfold getMetaS
  constructor
  · intro h
    split at h
    · rename_i v hv
      cases h
      exact hv
    · cases h
    · cases h
  · intro h
    rw [h]

/-- The effect of `prefixGidK`: the metadata value (necessarily text) gets
the URN prefix prepended once. -/
theorem runStep_prefix_effect (st st' : MigState) (k : String)
    (h : runStep st (.prefixGidK k) = .ok st') :
    ∃ g, lookupD st.memMeta k = some (.str g) ∧
         lookupD st'.memMeta k = some (.str (urnTag ++ g)) := by
  simp only [runStep] at h
  split at h
  · cases h
  · rename_i g hg
    cases h
    refine ⟨g, (getMetaS_ok st k g).mp hg, ?_⟩
    simp [lookupD_setD]

theorem runSteps_ok_cons (s : Step) (l : List Step) (st st' : MigState) :
    runSteps (s :: l) st = .ok st' ↔
      ∃ stm, runStep st s = .ok stm ∧ runSteps l stm = .ok st' := by
  simp only [runSteps]
  cases hs : runStep st s
  · simp
  · simp

theorem runSteps_ok_append (l1 l2 : List Step) (st st' : MigState) :
    runSteps (l1 ++ l2) st = .ok st' ↔
      ∃ stm, runSteps l1 st = .ok stm ∧ runSteps l2 stm = .ok st' := by
  induction l1 generalizing st with
  | nil => simp [runSteps]
  | cons s t ih =>
    rw [List.cons_append]
    constructor
    · intro h
      obtain ⟨stm, hstep, hrest⟩ := (runSteps_ok_cons _ _ _ _).mp h
      obtain ⟨stm2, h1, h2⟩ := (ih stm).mp hrest
      exact ⟨stm2, (runSteps_ok_cons _ _ _ _).mpr ⟨stm, hstep, h1⟩, h2⟩
    · rintro ⟨stm2, hfirst, h2⟩
      obtain ⟨stm, hstep, h1⟩ := (runSteps_ok_cons _ _ _ _).mp hfirst
      exact (runSteps_ok_cons _ _ _ _).mpr ⟨stm, hstep, (ih stm).mpr ⟨stm2, h1, h2⟩⟩

/-- Frame facts lifted to step lists. -/
theorem runSteps_ok_frame (l : List Step) (st st' : MigState)
    (h : runSteps l st = .ok st') :
    st'.storedRoot = st.storedRoot ∧ st'.storedRows = st.storedRows ∧
    st'.className = st.className ∧
    (∀ k, (∀ s ∈ l, k ∉ stepMetaKeys s) → lookupD st'.memMeta k = lookupD st.memMeta k) ∧
    (nodupKeys st.memMeta → nodupKeys st'.memMeta) ∧
    (∀ k, (Step.depOfMetaK k) ∉ l → lookupD st'.deps k = lookupD st.deps k) := by
  induction l generalizing st with
  | nil =>
    simp only [runSteps] at h
    cases h
    exact ⟨rfl, rfl, rfl, fun _ _ => rfl, fun hn => hn, fun _ _ => rfl⟩
  | cons s t ih =>
    obtain ⟨stm, hstep, hrest⟩ := (runSteps_ok_cons s t st st').mp h
    obtain ⟨r1, r2, r3, r4, r5, r6⟩ := runStep_ok_frame st stm s hstep
    obtain ⟨i1, i2, i3, i4, i5, i6⟩ := ih stm hrest
    refine ⟨i1.trans r1, i2.trans r2, i3.trans r3, ?_, fun hn => i5 (r5 hn), ?_⟩
    · intro k hk
      have h1 := r4 k (hk s (by simp))
      have h2 := i4 k (fun s' hs' => hk s' (by simp [hs']))
      exact h2.trans h1
    · intro k hk
      have hns : Step.depOfMetaK k ≠ s := by
        intro hh
        exact hk (by simp [hh])
      have h1 := r6 k (Ne.symm hns)
      have h2 := i6 k (fun hh => hk (by simp [hh]))
      exact h2.trans h1

/-- The prefix-then-record pattern every dependency-bearing branch follows:
if a branch is `A ++ [prefix k] ++ B ++ [record dep k] ++ C` and neither
`A`, `B` nor `C` touches the metadata entry `k` (and `C` does not record
`k` again), then a successful run prepends the URN prefix to the original
value exactly once, both in the final metadata and in the recorded
dependent attribute. -/
theorem runSteps_prefix_dep (A B C : List Step) (k : String)
    (hA : ∀ s ∈ A, k ∉ stepMetaKeys s) (hB : ∀ s ∈ B, k ∉ stepMetaKeys s)
    (hC : ∀ s ∈ C, k ∉ stepMetaKeys s) (hCd : Step.depOfMetaK k ∉ C)
    (st st' : MigState)
    (h : runSteps (A ++ Step.prefixGidK k :: (B ++ Step.depOfMetaK k :: C)) st = .ok st') :
    ∃ g, lookupD st.memMeta k = some (.str g) ∧
         lookupD st'.memMeta k = some (.str (urnTag ++ g)) ∧
         lookupD st'.deps k = some (.str (urnTag ++ g)) := by
  obtain ⟨stA, hA1, hA2⟩ := (runSteps_ok_append A _ st st').mp h
  obtain ⟨stP, hP1, hP2⟩ := (runSteps_ok_cons _ _ stA st').mp hA2
  obtain ⟨stB, hB1, hB2⟩ := (runSteps_ok_append B _ stP st').mp hP2
  obtain ⟨stD, hD1, hD2⟩ := (runSteps_ok_cons _ _ stB st').mp hB2
  have hAframe := (runSteps_ok_frame A st stA hA1).2.2.2.1 k hA
  obtain ⟨g, hg1, hg2⟩ := runStep_prefix_effect stA stP k hP1
  have hBframe := (runSteps_ok_frame B stP stB hB1).2.2.2.1 k hB
  obtain ⟨v, hv1, hv2⟩ := runStep_dep_add stB stD k hD1
  have hveq : v = .str (urnTag ++ g) := by
    rw [hBframe, hg2] at hv1
    cases hv1
    rfl
  have hCframeM := (runSteps_ok_frame C stD st' hD2).2.2.2.1 k hC
  have hCframeD := (runSteps_ok_frame C stD st' hD2).2.2.2.2.2 k hCd
  have hDmem : lookupD stD.memMeta k = lookupD stB.memMeta k :=
    (runStep_ok_frame stB stD _ hD1).2.2.2.1 k (by simp [stepMetaKeys])
  refine ⟨g, hAframe ▸ hg1, ?_, ?_⟩
  · rw [hCframeM, hDmem, hBframe, hg2]
  · rw [hCframeD, hv2, hveq]
    simp [lookupD_setD]

/-! ## Phase lemmas -/

theorem phaseRename_ok (env : Env) (st st' : MigState)
    (h : phaseRename env st = .ok st') :
    st' = { st with fileName := st'.fileName } := by
  unfold phaseRename at h
  by_cases hm : env.storageMode
  · simp only [hm, if_true] at h
    cases hfk : st.fileKind <;> rw [hfk] at h
    · cases h
    · simp only [Except.ok.injEq] at h
      rw [← h]
    · simp only [Except.ok.injEq] at h
      rw [← h]
  · simp only [hm, if_false] at h
    simp only [Bool.false_eq_true, if_false, Except.ok.injEq] at h
    rw [← h]

theorem phaseCheck_ok (st st' : MigState) (h : phaseCheck st = .ok st') :
    st.fileKind = FileKind.regular ∧ hasD st.storedRoot keyClassName = true ∧
    st' = { st with memMeta := st.storedRoot } := by
  unfold phaseCheck at h
  split at h
  · split at h
    · cases h
      exact ⟨by assumption, by assumption, rfl⟩
    · cases h
  · cases h

/-- The state components that the normalization sub-steps leave untouched. -/
def SameShape (a b : MigState) : Prop :=
  a.storedRoot = b.storedRoot ∧ a.deps = b.deps ∧ a.storedRows = b.storedRows ∧
  a.fileKind = b.fileKind ∧ a.dsMeta = b.dsMeta ∧ a.dsData = b.dsData ∧
  a.params = b.params ∧ a.xmlExists = b.xmlExists

theorem SameShape.rfl (a : MigState) : SameShape a a :=
  ⟨Eq.refl _, Eq.refl _, Eq.refl _, Eq.refl _, Eq.refl _, Eq.refl _, Eq.refl _, Eq.refl _⟩

theorem SameShape.trans (a b c : MigState) (h1 : SameShape a b)
    (h2 : SameShape b c) : SameShape a c := by
  obtain ⟨x1, x2, x3, x4, x5, x6, x7, x8⟩ := h1
  obtain ⟨y1, y2, y3, y4, y5, y6, y7, y8⟩ := h2
  exact ⟨x1.trans y1, x2.trans y2, x3.trans y3, x4.trans y4, x5.trans y5,
    x6.trans y6, x7.trans y7, x8.trans y8⟩

theorem normReadClass_ok (st : MigState) (cn : String) (st' : MigState)
    (h : normReadClass st = .ok (cn, st')) :
    lookupD st.memMeta "type" = some (.str cn) ∧
    st'.memMeta = st.memMeta ∧ st'.className = some cn ∧ SameShape st' st := by
  unfold normReadClass at h
  split at h
  · rename_i cn0 hcn0
    cases h
    exact ⟨hcn0, rfl, rfl, SameShape.rfl _⟩
  · cases h
  · cases h

theorem normDate_ok (st st' : MigState) (h : normDate st = .ok st') :
    (∃ dv, st'.memMeta = setD st.memMeta keyDate (.str dv)) ∧
    st'.className = st.className ∧ SameShape st' st := by
  unfold normDate at h
  split at h
  · cases h
  · cases h
    exact ⟨⟨_, rfl⟩, rfl, SameShape.rfl _⟩

theorem normModule_frame (env : Env) (st : MigState) :
    (∀ k, k ≠ keyWrittenBy → lookupD (normModule env st).memMeta k = lookupD st.memMeta k) ∧
    (nodupKeys st.memMeta → nodupKeys (normModule env st).memMeta) ∧
    (normModule env st).className = st.className ∧
    SameShape (normModule env st) st := by
  unfold normModule
  by_cases hm : hasD st.memMeta "module"
  · rw [if_pos hm]
    cases hr : env.registryWrittenBy with
    | none =>
      exact ⟨fun _ _ => Eq.refl _, fun hn => hn, Eq.refl _, SameShape.rfl _⟩
    | some w =>
      refine ⟨?_, ?_, Eq.refl _, SameShape.rfl _⟩
      · intro k hk
        simp [lookupD_setD, hk]
      · intro hn
        exact nodupKeys_setD _ _ _ hn
  · rw [if_neg hm]
    exact ⟨fun _ _ => Eq.refl _, fun hn => hn, Eq.refl _, SameShape.rfl _⟩

theorem normGid_ok (st st' : MigState) (h : normGid st = .ok st') :
    (∃ g, lookupD st.memMeta "gid" = some (.str g) ∧
      st'.memMeta = setD (setD st.memMeta "user_tag_1" (.str "")) "gid" (.str (urnTag ++ g))) ∧
    st'.className = st.className ∧ SameShape st' st := by
  unfold normGid at h
  split at h
  · cases h
  · rename_i g hg
    cases h
    rw [getMetaS_ok] at hg
    have heq : lookupD (setD st.memMeta "user_tag_1" (.str "")) "gid" = lookupD st.memMeta "gid" := by
      rw [lookupD_setD]
      simp
    rw [show ({ st with memMeta := setD st.memMeta "user_tag_1" (.str "") } : MigState).memMeta = setD st.memMeta "user_tag_1" (.str "") from Eq.refl _] at hg
    rw [heq] at hg
    exact ⟨⟨g, hg, Eq.refl _⟩, Eq.refl _, SameShape.rfl _⟩

theorem normPops_ok (st st' : MigState) (h : normPops st = .ok st') :
    st'.memMeta = delD (delD (delD st.memMeta "type") "module") "data_version" ∧
    st'.className = st.className ∧ SameShape st' st := by
  unfold normPops at h
  split at h
  · cases h
  · rename_i ma hma
    split at h
    · cases h
    · rename_i mb hmb
      split at h
      · cases h
      · rename_i mc hmc
        cases h
        rw [popD_some_delD _ _ _ hma] at hmb
        rw [popD_some_delD _ _ _ hmb] at hmc
        rw [popD_some_delD _ _ _ hmc]
        exact ⟨Eq.refl _, Eq.refl _, SameShape.rfl _⟩

/-- Everything a later phase needs to know about a successful
normalization phase. -/
theorem phaseNormalize_ok (env : Env) (st : MigState) (cn : String)
    (st' : MigState) (h : phaseNormalize env st = .ok (cn, st')) :
    st'.storedRoot = [] ∧ st'.className = some cn ∧ st'.deps = st.deps ∧
    st'.storedRows = st.storedRows ∧ st'.fileKind = st.fileKind ∧
    st'.dsMeta = st.dsMeta ∧ st'.dsData = st.dsData ∧ st'.params = st.params ∧
    st'.xmlExists = st.xmlExists ∧
    lookupD (normalizeKeys st.memMeta) "type" = some (.str cn) ∧
    nodupKeys st'.memMeta ∧
    (∃ g, lookupD (normalizeKeys st.memMeta) "gid" = some (.str g) ∧
          lookupD st'.memMeta "gid" = some (.str (urnTag ++ g))) ∧
    (∀ k, k ≠ dataVersionAttr → k ≠ keyDate → k ≠ keyWrittenBy →
      k ≠ "user_tag_1" → k ≠ "gid" → k ≠ "type" → k ≠ "module" →
      k ≠ "data_version" →
      lookupD st'.memMeta k = lookupD (normalizeKeys st.memMeta) k) := by
  unfold phaseNormalize at h
  split at h
  case isFalse => cases h
  case isTrue hdec =>
  split at h
  case h_1 => cases h
  case h_2 pr cn0 stA hA =>
  split at h
  case h_1 => cases h
  case h_2 stB hB =>
  split at h
  case h_1 => cases h
  case h_2 stD hD =>
  split at h
  case h_1 => cases h
  case h_2 stE hE =>
  cases h
  obtain ⟨hAty, hAmem, hAcn, hAshape⟩ := normReadClass_ok _ _ _ hA
  obtain ⟨⟨dv, hBmem⟩, hBcn, hBshape⟩ := normDate_ok _ _ hB
  obtain ⟨mmFrame, mmNodup, mmCn, mmShape⟩ := normModule_frame env stB
  obtain ⟨⟨g, hGg, hDmem⟩, hDcn, hDshape⟩ := normGid_ok _ _ hD
  obtain ⟨hEmem, hEcn, hEshape⟩ := normPops_ok _ _ hE
  -- abbreviations for the stamped metadata
  have hStampMem : (normStamp st).memMeta = setD (normalizeKeys st.memMeta) dataVersionAttr (.int dataVersionNew) := Eq.refl _
  have hStampRoot : (normStamp st).storedRoot = [] := Eq.refl _
  -- the class name and its position in the normalized mapping
  have hty : lookupD (normalizeKeys st.memMeta) "type" = some (.str cn) := by
    rw [hStampMem] at hAty
    rw [lookupD_setD, if_neg (by decide : ("type" : String) ≠ dataVersionAttr)] at hAty
    exact hAty
  -- shape chaining down to `normStamp st`
  have hShapeBN : SameShape (normModule env stB) stA :=
    SameShape.trans _ _ _ mmShape hBshape
  have hShapeE : SameShape st' (normStamp st) :=
    SameShape.trans _ _ _ hEshape (SameShape.trans _ _ _ hDshape (SameShape.trans _ _ _ hShapeBN hAshape))
  obtain ⟨s1, s2, s3, s4, s5, s6, s7, s8⟩ := hShapeE
  -- className chaining
  have hcls : st'.className = some cn := by
    rw [hEcn, hDcn, mmCn, hBcn, hAcn]
  -- memMeta of stB in terms of the normalized mapping
  have hBmem2 : stB.memMeta = setD (setD (normalizeKeys st.memMeta) dataVersionAttr (.int dataVersionNew)) keyDate (.str dv) := by
    rw [hBmem, hAmem, hStampMem]
  refine ⟨by rw [s1, hStampRoot], hcls, by rw [s2]; rfl, by rw [s3]; rfl,
    by rw [s4]; rfl, by rw [s5]; rfl, by rw [s6]; rfl, by rw [s7]; rfl,
    by rw [s8]; rfl, hty, ?_, ?_, ?_⟩
  · -- duplicate-free keys through the whole chain
    have h0 : nodupKeys (normalizeKeys st.memMeta) := nodupKeys_normalizeKeys _
    have h1 := nodupKeys_setD _ dataVersionAttr (MVal.int dataVersionNew) h0
    have h2 : nodupKeys stB.memMeta := by
      rw [hBmem2]
      exact nodupKeys_setD _ keyDate (MVal.str dv) h1
    have h3 := mmNodup h2
    have h4 : nodupKeys stD.memMeta := by
      rw [hDmem]
      exact nodupKeys_setD _ "gid" _ (nodupKeys_setD _ "user_tag_1" _ h3)
    rw [hEmem]
    exact nodupKeys_delD _ _ (nodupKeys_delD _ _ (nodupKeys_delD _ _ h4))
  · -- the gid is prefixed exactly once
    refine ⟨g, ?_, ?_⟩
    · rw [mmFrame "gid" (by decide), hBmem2,
        lookupD_setD, if_neg (by decide : ("gid" : String) ≠ keyDate),
        lookupD_setD, if_neg (by decide : ("gid" : String) ≠ dataVersionAttr)] at hGg
      exact hGg
    · rw [hEmem, hDmem,
        lookupD_delD_ne _ _ _ (by decide : ("gid" : String) ≠ "data_version"),
        lookupD_delD_ne _ _ _ (by decide : ("gid" : String) ≠ "module"),
        lookupD_delD_ne _ _ _ (by decide : ("gid" : String) ≠ "type"),
        lookupD_setD]
      simp
  · -- untouched keys read through to the normalized mapping
    intro k hDV hDate hWB hUT hGid hTy hMod hDaV
    rw [hEmem, hDmem,
        lookupD_delD_ne _ _ _ hDaV, lookupD_delD_ne _ _ _ hMod,
        lookupD_delD_ne _ _ _ hTy, lookupD_setD, if_neg hGid,
        lookupD_setD, if_neg hUT, mmFrame k hWB, hBmem2,
        lookupD_setD, if_neg hDate, lookupD_setD, if_neg hDV]

theorem phaseXml_ok (env : Env) (st st' : MigState)
    (h : phaseXml env st = .ok st') :
    st'.memMeta = st.memMeta ∧ st'.deps = st.deps ∧
    st'.storedRoot = st.storedRoot ∧ st'.storedRows = st.storedRows ∧
    st'.className = st.className ∧ st'.fileKind = st.fileKind ∧
    st'.dsMeta = st.dsMeta ∧ st'.dsData = st.dsData := by
  unfold phaseXml at h
  split at h
  · split at h
    · cases h
      exact ⟨rfl, rfl, rfl, rfl, rfl, rfl, rfl, rfl⟩
    · cases h
  · cases h
    exact ⟨rfl, rfl, rfl, rfl, rfl, rfl, rfl, rfl⟩

/-- The stored root attributes agree with the in-memory mapping (the
situation right after a metadata write-back). -/
def StoredAgrees (st : MigState) : Prop :=
  ∀ k v, lookupD st.memMeta k = some v → lookupD st.storedRoot k = some v

theorem phaseWriteback_memMeta (st : MigState) :
    (phaseWriteback st).memMeta = setD st.memMeta "operation_tag" (.str "") := Eq.refl _

theorem phaseWriteback_deps (st : MigState) :
    (phaseWriteback st).deps = st.deps := Eq.refl _

theorem phaseWriteback_rows (st : MigState) :
    (phaseWriteback st).storedRows = st.storedRows := Eq.refl _

theorem phaseWriteback_className (st : MigState) :
    (phaseWriteback st).className = st.className := Eq.refl _

theorem phaseWriteback_stored_lookup (st : MigState) (h0 : st.storedRoot = [])
    (hn : nodupKeys st.memMeta) (k : String) (hk : k ≠ "operation_tag") :
    lookupD (phaseWriteback st).storedRoot k = lookupD st.memMeta k := by
  show lookupD (mergeD st.storedRoot (setD st.memMeta "operation_tag" (.str ""))) k = _
  rw [h0, lookupD_mergeD_nil _ _ (nodupKeys_setD _ _ _ hn), lookupD_setD, if_neg hk]

theorem phaseWriteback_agrees (st : MigState) (h0 : st.storedRoot = [])
    (hn : nodupKeys st.memMeta) : StoredAgrees (phaseWriteback st) := by
  intro k v hv
  rw [phaseWriteback_memMeta] at hv
  show lookupD (mergeD st.storedRoot (setD st.memMeta "operation_tag" (.str ""))) k = some v
  rw [h0, lookupD_mergeD_nil _ _ (nodupKeys_setD _ _ _ hn)]
  exact hv

theorem phaseWriteback_nodup (st : MigState) (hn : nodupKeys st.memMeta) :
    nodupKeys (phaseWriteback st).memMeta := by
  rw [phaseWriteback_memMeta]
  exact nodupKeys_setD _ _ _ hn

theorem tsParentFix_ok (env : Env) (st st' : MigState)
    (h : tsParentFix env st = .ok st') (hn : nodupKeys st.memMeta)
    (hagree : StoredAgrees st) :
    st'.deps = st.deps ∧ st'.className = st.className ∧
    (∀ k, k ≠ "parent_burst" → lookupD st'.storedRoot k = lookupD st.storedRoot k) ∧
    (∀ k, k ≠ "parent_burst" → lookupD st'.memMeta k = lookupD st.memMeta k) ∧
    nodupKeys st'.memMeta ∧ StoredAgrees st' ∧
    st'.storedRows = st.storedRows := by
  unfold tsParentFix at h
  split at h
  · cases h
    exact ⟨rfl, rfl, fun _ _ => rfl, fun _ _ => rfl, hn, hagree, rfl⟩
  · split at h
    · split at h
      · rename_i s hs hcont pb hpb
        cases h
        have hnod : nodupKeys (setD st.memMeta "parent_burst" (.str (urnTag ++ pb))) :=
          nodupKeys_setD _ _ _ hn
        refine ⟨rfl, rfl, ?_, ?_, hnod, ?_, rfl⟩
        · intro k hk
          show lookupD (mergeD st.storedRoot (setD st.memMeta "parent_burst" (.str (urnTag ++ pb)))) k = _
          rw [lookupD_mergeD _ _ _ hnod, lookupD_setD, if_neg hk]
          cases hv : lookupD st.memMeta k
          · rfl
          · rw [hagree k _ hv]
        · intro k hk
          show lookupD (setD st.memMeta "parent_burst" (.str (urnTag ++ pb))) k = _
          rw [lookupD_setD, if_neg hk]
        · intro k v hv
          show lookupD (mergeD st.storedRoot (setD st.memMeta "parent_burst" (.str (urnTag ++ pb)))) k = some v
          rw [lookupD_mergeD _ _ _ hnod]
          rw [show ({ st with memMeta := setD st.memMeta "parent_burst" (.str (urnTag ++ pb)), storedRoot := mergeD st.storedRoot (setD st.memMeta "parent_burst" (.str (urnTag ++ pb))) } : MigState).memMeta = setD st.memMeta "parent_burst" (.str (urnTag ++ pb)) from Eq.refl _] at hv
          rw [hv]
      · cases h
    · cases h
  · cases h

theorem simBlock_ok (env : Env) (cn : String) (st st' : MigState)
    (h : simBlock env cn st = .ok st') (hn : nodupKeys st.memMeta)
    (hagree : StoredAgrees st) :
    st'.deps = st.deps ∧ st'.className = st.className ∧
    (∀ k, k ≠ "parent_burst" → lookupD st'.storedRoot k = lookupD st.storedRoot k) ∧
    (∀ k, k ≠ "parent_burst" → lookupD st'.memMeta k = lookupD st.memMeta k) ∧
    nodupKeys st'.memMeta ∧ StoredAgrees st' ∧
    (∃ extra, st'.storedRows = st.storedRows ++ extra) := by
  unfold simBlock at h
  split at h
  · split at h
    · split at h
      · rename_i bgid hbg
        cases h
        have hnod : nodupKeys (setD st.memMeta "parent_burst" (.str (urnTag ++ bgid))) :=
          nodupKeys_setD _ _ _ hn
        refine ⟨rfl, rfl, ?_, ?_, hnod, ?_, ⟨_, rfl⟩⟩
        · intro k hk
          show lookupD (mergeD st.storedRoot (setD st.memMeta "parent_burst" (.str (urnTag ++ bgid)))) k = _
          rw [lookupD_mergeD _ _ _ hnod, lookupD_setD, if_neg hk]
          cases hv : lookupD st.memMeta k
          · rfl
          · rw [hagree k _ hv]
        · intro k hk
          show lookupD (setD st.memMeta "parent_burst" (.str (urnTag ++ bgid))) k = _
          rw [lookupD_setD, if_neg hk]
        · intro k v hv
          show lookupD (mergeD st.storedRoot (setD st.memMeta "parent_burst" (.str (urnTag ++ bgid)))) k = some v
          rw [lookupD_mergeD _ _ _ hnod]
          rw [show (setD st.memMeta "parent_burst" (MVal.str (urnTag ++ bgid))) = (setD st.memMeta "parent_burst" (MVal.str (urnTag ++ bgid))) from Eq.refl _]
          rw [hv]
      · cases h
        exact ⟨rfl, rfl, fun _ _ => rfl, fun _ _ => rfl, hn, hagree, ⟨_, rfl⟩⟩
    · cases h
  · cases h
    exact ⟨rfl, rfl, fun _ _ => rfl, fun _ _ => rfl, hn, hagree, ⟨[], by simp⟩⟩

theorem vmBlock_ok (env : Env) (cn : String) (st st' : MigState)
    (h : vmBlock env cn st = .ok st') (hn : nodupKeys st.memMeta)
    (hagree : StoredAgrees st) :
    st'.deps = st.deps ∧ st'.className = st.className ∧
    (∀ k, k ≠ "parent_burst" → lookupD st'.storedRoot k = lookupD st.storedRoot k) ∧
    (∃ extra, st'.storedRows = st.storedRows ++ extra) := by
  unfold vmBlock at h
  split at h
  · cases h
    exact ⟨rfl, rfl, fun _ _ => rfl, ⟨[], by simp⟩⟩
  · split at h
    · cases h
    · rename_i st1 h1
      split at h
      · cases h
      · split at h
        · cases h
        · split at h
          · split at h
            · split at h
              · cases h
              · rename_i st2 h2
                cases h
                obtain ⟨t1, t2, t3, t4, t5, t6, t7⟩ := tsParentFix_ok env st st1 h1 hn hagree
                obtain ⟨u1, u2, u3, u4, u5, u6, u7⟩ := simBlock_ok env cn st1 st2 h2 t5 t6
                refine ⟨?_, ?_, ?_, ?_⟩
                · show st2.deps = st.deps
                  rw [u1, t1]
                · show st2.className = st.className
                  rw [u2, t2]
                · intro k hk
                  show lookupD st2.storedRoot k = _
                  rw [u3 k hk, t3 k hk]
                · obtain ⟨extra, hex⟩ := u7
                  refine ⟨extra, ?_⟩
                  show st2.storedRows = _
                  rw [hex, t7]
            · cases h
          · cases h

theorem phasePostIndex_ok (env : Env) (cn : String) (st st' : MigState)
    (h : phasePostIndex env cn st = .ok st') (hn : nodupKeys st.memMeta)
    (hagree : StoredAgrees st) :
    st'.deps = st.deps ∧ depResolve env st.deps = none ∧
    st'.className = st.className ∧
    (∀ k, k ≠ "parent_burst" → lookupD st'.storedRoot k = lookupD st.storedRoot k) ∧
    (∃ extra, st'.storedRows = st.storedRows ++ extra) := by
  unfold phasePostIndex at h
  split at h
  · cases h
  · split at h
    · split at h
      · cases h
      · rename_i cd hcd
        split at h
        · cases h
        · rename_i hdep
          split at h
          · cases h
          · rename_i st1 h1
            cases h
            obtain ⟨v1, v2, v3, v4⟩ := vmBlock_ok env cn st st1 h1 hn hagree
            refine ⟨by rw [v1], hdep, by rw [v2], ?_, ?_⟩
            · intro k hk
              exact v3 k hk
            · obtain ⟨extra, hex⟩ := v4
              exact ⟨extra ++ [{ kind := RowKind.datatypeIndex, fkFromOperation := some env.opId, createDate := some cd }], by rw [show ({ st1 with storedRows := st1.storedRows ++ [{ kind := RowKind.datatypeIndex, fkFromOperation := some env.opId, createDate := some cd }] } : MigState).storedRows = st1.storedRows ++ [{ kind := RowKind.datatypeIndex, fkFromOperation := some env.opId, createDate := some cd }] from Eq.refl _, hex, List.append_assoc]⟩
    · cases h

theorem depResolve_none_mem (env : Env) (l : Dict)
    (h : depResolve env l = none) :
    ∀ p ∈ l, env.indexGids.contains (stripUrn p.2) = true := by
  induction l with
  | nil => intro p hp; cases hp
  | cons q t ih =>
    intro p hp
    rw [List.mem_cons] at hp
    obtain ⟨k0, v0⟩ := q
    cases v0 with
    | str s =>
      unfold depResolve at h
      dsimp only at h
      by_cases hc : env.indexGids.contains (stripUrn (MVal.str s)) = true
      · rw [if_pos hc] at h
        rcases hp with hq | hp2
        · rw [hq]
          exact hc
        · exact ih h p hp2
      · rw [if_neg hc] at h
        simp at h
    | int v => unfold depResolve at h; simp at h
    | flt v => unfold depResolve at h; simp at h
    | rat v => unfold depResolve at h; simp at h
    | boolv v => unfold depResolve at h; simp at h
    | pynull => unfold depResolve at h; simp at h
    | obj v => unfold depResolve at h; simp at h
    | arr v => unfold depResolve at h; simp at h

/-- Every successful dispatch ran the selected branch (or fell through). -/
theorem dispatch_ok_elim (cn : String) (st : MigState) (c : Bool) (st' : MigState)
    (h : dispatch cn st = .ok (c, st')) :
    (∃ l, branchOf cn = some (l, c) ∧ runSteps l st = .ok st') ∨
    (branchOf cn = none ∧ c = true ∧ st' = st) := by
  unfold dispatch at h
  split at h
  · rename_i l c0 hb
    split at h
    · cases h
    · rename_i s hs
      cases h
      exact Or.inl ⟨l, hb, hs⟩
  · rename_i hb
    cases h
    exact Or.inr ⟨hb, rfl, rfl⟩

/-- The dispatch never touches the stored root attributes, the stored rows
or the recorded class name, and keeps the metadata keys duplicate-free. -/
theorem dispatch_frame (cn : String) (st : MigState) (c : Bool) (st' : MigState)
    (h : dispatch cn st = .ok (c, st')) :
    st'.storedRoot = st.storedRoot ∧ st'.storedRows = st.storedRows ∧
    st'.className = st.className ∧
    (nodupKeys st.memMeta → nodupKeys st'.memMeta) := by
  rcases dispatch_ok_elim cn st c st' h with ⟨l, _, hr⟩ | ⟨_, _, hst⟩
  · obtain ⟨f1, f2, f3, f4, f5, f6⟩ := runSteps_ok_frame _ _ _ hr
    exact ⟨f1, f2, f3, f5⟩
  · rw [hst]
    exact ⟨rfl, rfl, rfl, fun hn => hn⟩

/-- Decomposition of a successful `update` run: the class name, the state
entering the dispatch (with the normalized-mapping facts), the dispatch
itself, and the relation between the dispatch output and the final state
through the write-back and index phases. -/
theorem update_ok_elim (env : Env) (st0 st' : MigState)
    (h : update env st0 = .ok st') :
    ∃ cn st4 c st5,
      dispatch cn st4 = .ok (c, st5) ∧
      st4.className = some cn ∧ st'.className = some cn ∧
      st4.deps = [] ∧ st4.storedRoot = [] ∧ st4.storedRows = [] ∧
      nodupKeys st4.memMeta ∧
      lookupD (normalizeKeys st0.storedRoot) "type" = some (.str cn) ∧
      (∃ g, lookupD (normalizeKeys st0.storedRoot) "gid" = some (.str g) ∧
            lookupD st4.memMeta "gid" = some (.str (urnTag ++ g))) ∧
      (∀ k, k ≠ dataVersionAttr → k ≠ keyDate → k ≠ keyWrittenBy →
        k ≠ "user_tag_1" → k ≠ "gid" → k ≠ "type" → k ≠ "module" →
        k ≠ "data_version" →
        lookupD st4.memMeta k = lookupD (normalizeKeys st0.storedRoot) k) ∧
      ((c = false ∧ st' = st5 ∧ st5.storedRoot = [] ∧ st5.storedRows = []) ∨
       (c = true ∧ st'.deps = st5.deps ∧
        (env.storageMode = true → depResolve env st5.deps = none) ∧
        (∀ k, k ≠ "operation_tag" → k ≠ "parent_burst" →
          lookupD st'.storedRoot k = lookupD st5.memMeta k) ∧
        (∃ extra, st'.storedRows = st5.storedRows ++ extra))) := by
  unfold update at h
  split at h
  case h_1 => cases h
  case h_2 st1 hRen =>
  split at h
  case h_1 => cases h
  case h_2 st2 hChk =>
  split at h
  case h_1 => cases h
  case h_2 pr cn st3 hNorm =>
  split at h
  case h_1 => cases h
  case h_2 st4 hXml =>
  split at h
  case h_1 => cases h
  case h_2 pr2 c st5 hDisp =>
  -- facts from the early phases
  have hRenEq := phaseRename_ok env _ st1 hRen
  obtain ⟨hChkReg, hChkHas, hChkEq⟩ := phaseCheck_ok st1 st2 hChk
  obtain ⟨n1, n2, n3, n4, n5, n6, n7, n8, n9, n10, n11, n12, n13⟩ :=
    phaseNormalize_ok env st2 cn st3 hNorm
  obtain ⟨x1, x2, x3, x4, x5, x6, x7, x8⟩ := phaseXml_ok env st3 st4 hXml
  -- the raw metadata entering normalization is the input stored root
  have hmem2 : st2.memMeta = st0.storedRoot := by
    rw [hChkEq]
    show st1.storedRoot = st0.storedRoot
    rw [hRenEq]
    show (initRun st0).storedRoot = st0.storedRoot
    rfl
  rw [hmem2] at n10 n12 n13
  -- the state entering the dispatch
  have hcn4 : st4.className = some cn := by rw [x5, n2]
  have hdeps4 : st4.deps = [] := by
    rw [x2, n3, hChkEq]
    show st1.deps = []
    rw [hRenEq]
    rfl
  have hroot4 : st4.storedRoot = [] := by rw [x3, n1]
  have hrows4 : st4.storedRows = [] := by
    rw [x4, n4, hChkEq]
    show st1.storedRows = []
    rw [hRenEq]
    rfl
  have hnodup4 : nodupKeys st4.memMeta := by
    rw [x1]
    exact n11
  have hgid4 : ∃ g, lookupD (normalizeKeys st0.storedRoot) "gid" = some (.str g) ∧
      lookupD st4.memMeta "gid" = some (.str (urnTag ++ g)) := by
    obtain ⟨g, hg1, hg2⟩ := n12
    exact ⟨g, hg1, by rw [x1]; exact hg2⟩
  have hframe4 : ∀ k, k ≠ dataVersionAttr → k ≠ keyDate → k ≠ keyWrittenBy →
      k ≠ "user_tag_1" → k ≠ "gid" → k ≠ "type" → k ≠ "module" →
      k ≠ "data_version" →
      lookupD st4.memMeta k = lookupD (normalizeKeys st0.storedRoot) k := by
    intro k a1 a2 a3 a4 a5 a6 a7 a8
    rw [x1]
    exact n13 k a1 a2 a3 a4 a5 a6 a7 a8
  -- dispatch frame
  obtain ⟨d1, d2, d3, d4⟩ := dispatch_frame cn st4 c st5 hDisp
  have hnodup5 : nodupKeys st5.memMeta := d4 hnodup4
  have hroot5 : st5.storedRoot = [] := by rw [d1, hroot4]
  -- split on the continue flag and the storage mode
  by_cases hc : c = true
  · rw [hc] at h
    simp only [if_true] at h
    by_cases hsm : env.storageMode = true
    · rw [hsm] at h
      simp only [if_true] at h
      have hwbAgree := phaseWriteback_agrees st5 hroot5 hnodup5
      have hwbNodup := phaseWriteback_nodup st5 hnodup5
      obtain ⟨p1, p2, p3, p4, p5⟩ :=
        phasePostIndex_ok env cn (phaseWriteback st5) st' h hwbNodup hwbAgree
      refine ⟨cn, st4, c, st5, hDisp, hcn4, ?_, hdeps4, hroot4, hrows4,
        hnodup4, n10, hgid4, hframe4, Or.inr ⟨hc, ?_, ?_, ?_, ?_⟩⟩
      · rw [p3, phaseWriteback_className, d3, hcn4]
      · rw [p1, phaseWriteback_deps]
      · intro _
        rw [phaseWriteback_deps] at p2
        exact p2
      · intro k hk1 hk2
        rw [p4 k hk2, phaseWriteback_stored_lookup st5 hroot5 hnodup5 k hk1]
      · obtain ⟨extra, hex⟩ := p5
        rw [phaseWriteback_rows] at hex
        exact ⟨extra, hex⟩
    · simp only [Bool.not_eq_true] at hsm
      rw [hsm] at h
      simp only [Bool.false_eq_true, if_false] at h
      cases h
      refine ⟨cn, st4, c, st5, hDisp, hcn4, ?_, hdeps4, hroot4, hrows4,
        hnodup4, n10, hgid4, hframe4, Or.inr ⟨hc, ?_, ?_, ?_, ?_⟩⟩
      · rw [phaseWriteback_className, d3, hcn4]
      · rw [phaseWriteback_deps]
      · intro hfalse
        rw [hfalse] at hsm
        cases hsm
      · intro k hk1 hk2
        exact phaseWriteback_stored_lookup st5 hroot5 hnodup5 k hk1
      · exact ⟨[], by rw [phaseWriteback_rows]; simp⟩
  · simp only [Bool.not_eq_true] at hc
    rw [hc] at h
    simp only [Bool.false_eq_true, if_false] at h
    cases h
    refine ⟨cn, st4, c, st', hDisp, hcn4, ?_, hdeps4, hroot4, hrows4,
      hnodup4, n10, hgid4, hframe4, Or.inl ⟨hc, rfl, hroot5, by rw [d2, hrows4]⟩⟩
    rw [d3, hcn4]

/-! ## The dependency-prefix pattern, checked syntactically per branch -/

/-- The keys a branch records as dependent attributes. -/
def depKeys (l : List Step) : List String :=
  l.filterMap (fun s =>
    match s with
    | .depOfMetaK k => some k
    | _ => none)

theorem mem_depKeys (l : List Step) (k : String) :
    k ∈ depKeys l ↔ Step.depOfMetaK k ∈ l := by
  unfold depKeys
  rw [List.mem_filterMap]
  constructor
  · rintro ⟨s, hs, hmatch⟩
    cases s <;> simp_all
  · intro h
    exact ⟨_, h, by simp⟩

/-- Scanner phase after the dependency record: the key may not be touched
or recorded again. -/
def depScan2 (k : String) : List Step → Bool
  | [] => true
  | s :: t =>
    if k ∈ stepMetaKeys s ∨ s = Step.depOfMetaK k then false else depScan2 k t

/-- Scanner phase between the prefix and the dependency record. -/
def depScan1 (k : String) : List Step → Bool
  | [] => false
  | s :: t =>
    if s = Step.depOfMetaK k then depScan2 k t
    else if k ∈ stepMetaKeys s then false
    else depScan1 k t

/-- Scanner phase before the prefix is applied. -/
def depScan0 (k : String) : List Step → Bool
  | [] => false
  | s :: t =>
    if s = Step.prefixGidK k then depScan1 k t
    else if k ∈ stepMetaKeys s ∨ s = Step.depOfMetaK k then false
    else depScan0 k t

theorem depScan2_spec (k : String) (l : List Step) (h : depScan2 k l = true) :
    (∀ s ∈ l, k ∉ stepMetaKeys s) ∧ Step.depOfMetaK k ∉ l := by
  induction l with
  | nil => simp
  | cons s t ih =>
    unfold depScan2 at h
    split at h
    · cases h
    · rename_i hcond
      push_neg at hcond
      obtain ⟨ih1, ih2⟩ := ih h
      refine ⟨?_, ?_⟩
      · intro s' hs'
        rcases List.mem_cons.mp hs' with hh | hh
        · rw [hh]
          exact hcond.1
        · exact ih1 s' hh
      · intro hmem
        rcases List.mem_cons.mp hmem with hh | hh
        · exact hcond.2 hh.symm
        · exact ih2 hh

theorem depScan1_spec (k : String) (l : List Step) (h : depScan1 k l = true) :
    ∃ B C, l = B ++ Step.depOfMetaK k :: C ∧
      (∀ s ∈ B, k ∉ stepMetaKeys s) ∧ depScan2 k C = true := by
  induction l with
  | nil => simp [depScan1] at h
  | cons s t ih =>
    unfold depScan1 at h
    split at h
    · rename_i hdep
      exact ⟨[], t, by rw [hdep]; simp, by simp, h⟩
    · split at h
      · cases h
      · rename_i hdep htouch
        obtain ⟨B, C, hBC, hBfr, hC⟩ := ih h
        refine ⟨s :: B, C, by rw [hBC]; simp, ?_, hC⟩
        intro s' hs'
        rcases List.mem_cons.mp hs' with hh | hh
        · rw [hh]
          exact htouch
        · exact hBfr s' hh

theorem depScan0_spec (k : String) (l : List Step) (h : depScan0 k l = true) :
    ∃ A rest, l = A ++ Step.prefixGidK k :: rest ∧
      (∀ s ∈ A, k ∉ stepMetaKeys s) ∧ depScan1 k rest = true := by
  induction l with
  | nil => simp [depScan0] at h
  | cons s t ih =>
    unfold depScan0 at h
    split at h
    · rename_i hpre
      exact ⟨[], t, by rw [hpre]; simp, by simp, h⟩
    · split at h
      · cases h
      · rename_i hpre hcond
        push_neg at hcond
        obtain ⟨A, rest, hAr, hAfr, hrest⟩ := ih h
        refine ⟨s :: A, rest, by rw [hAr]; simp, ?_, hrest⟩
        intro s' hs'
        rcases List.mem_cons.mp hs' with hh | hh
        · rw [hh]
          exact hcond.1
        · exact hAfr s' hh

/-- Soundness of the scanner: a checked branch prepends the URN prefix to
the original metadata value exactly once and records exactly that value as
the dependent attribute. -/
theorem depScan0_sound (k : String) (l : List Step) (hok : depScan0 k l = true)
    (st st' : MigState) (h : runSteps l st = .ok st') :
    ∃ g, lookupD st.memMeta k = some (.str g) ∧
         lookupD st'.memMeta k = some (.str (urnTag ++ g)) ∧
         lookupD st'.deps k = some (.str (urnTag ++ g)) := by
  obtain ⟨A, rest, hAr, hAfr, hrest⟩ := depScan0_spec k l hok
  obtain ⟨B, C, hBC, hBfr, hC⟩ := depScan1_spec k rest hrest
  obtain ⟨hCfr, hCd⟩ := depScan2_spec k C hC
  subst hBC
  subst hAr
  exact runSteps_prefix_dep A B C k hAfr hBfr hCfr hCd st st' h

/-- The metadata keys written by the surrounding phases; a dependent key
must be distinct from all of them for its branch-local value to survive to
the stored container unchanged. -/
def urnReservedKeys : List String :=
  ["operation_tag", "parent_burst", "gid", dataVersionAttr, keyDate,
   keyWrittenBy, "user_tag_1", "type", "module", "data_version"]

/-- The per-branch syntactic check backing the URN-canonicalization claim:
every recorded dependent key follows the prefix-then-record pattern, is
distinct from the keys the surrounding phases write, and the branch never
touches or records `gid`. -/
def branchGoodUrn (l : List Step) : Bool :=
  (depKeys l).all (fun k =>
    depScan0 k l && urnReservedKeys.all (fun bad => k != bad)) &&
  l.all (fun s => !(decide ("gid" ∈ stepMetaKeys s)))

/-- A checked branch leaves `gid` alone and yields only dependent
attributes of the shape `urn:uuid: ++ original value`. -/
theorem branchGoodUrn_sound (l : List Step) (hgood : branchGoodUrn l = true)
    (st st' : MigState) (h : runSteps l st = .ok st') (hdeps0 : st.deps = []) :
    lookupD st'.memMeta "gid" = lookupD st.memMeta "gid" ∧
    (∀ k v, lookupD st'.deps k = some v →
      (∀ bad ∈ urnReservedKeys, k ≠ bad) ∧
      ∃ g, lookupD st.memMeta k = some (.str g) ∧
        v = .str (urnTag ++ g) ∧
        lookupD st'.memMeta k = some (.str (urnTag ++ g))) := by
  unfold branchGoodUrn at hgood
  rw [Bool.and_eq_true] at hgood
  obtain ⟨hkeys, hgid⟩ := hgood
  rw [List.all_eq_true] at hkeys hgid
  constructor
  · refine (runSteps_ok_frame l st st' h).2.2.2.1 "gid" ?_
    intro s hs hmem
    have := hgid s hs
    simp at this
    exact this hmem
  · intro k v hv
    by_cases hmem : k ∈ depKeys l
    · have hk := hkeys k hmem
      rw [Bool.and_eq_true] at hk
      obtain ⟨hscan, hbad⟩ := hk
      rw [List.all_eq_true] at hbad
      obtain ⟨g, hg1, hg2, hg3⟩ := depScan0_sound k l hscan st st' h
      rw [hv] at hg3
      cases hg3
      refine ⟨?_, g, hg1, rfl, hg2⟩
      intro bad hbadmem
      have := hbad bad hbadmem
      simpa using this
    · exfalso
      rw [mem_depKeys] at hmem
      have := (runSteps_ok_frame l st st' h).2.2.2.2.2 k hmem
      rw [hdeps0] at this
      rw [this] at hv
      cases hv

/-- Every branch the dispatch can select with the continue flag, except the
ComplexCoherenceSpectrum one, passes the URN-pattern check. -/
theorem branchOf_goodUrn (cn : String) (l : List Step) (c : Bool)
    (hb : branchOf cn = some (l, c)) (hc : c = true)
    (hccs : cn ≠ "ComplexCoherenceSpectrum") :
    branchGoodUrn l = true := by
  unfold branchOf at hb
  by_cases hb0 : cn = "Connectivity"
  · rw [if_pos hb0] at hb
    cases hb
    decide
  · rw [if_neg hb0] at hb
    by_cases hb1 : surfaceKindList.contains cn = true
    · rw [if_pos hb1] at hb
      cases hb
      decide
    · rw [if_neg hb1] at hb
      by_cases hb2 : cn = "RegionMapping"
      · rw [if_pos hb2] at hb
        cases hb
        decide
      · rw [if_neg hb2] at hb
        by_cases hb3 : cn = "RegionVolumeMapping"
        · rw [if_pos hb3] at hb
          cases hb
          decide
        · rw [if_neg hb3] at hb
          by_cases hb4 : containsSub cn "Sensors" = true
          · rw [if_pos hb4] at hb
            cases hb
            unfold branchSensors
            by_cases hm1 : containsSub cn "MEG" = true
            · rw [if_pos hm1]
              decide
            · rw [if_neg hm1]
              by_cases hm2 : containsSub cn "EEG" = true
              · rw [if_pos hm2]
                decide
              · rw [if_neg hm2]
                decide
          · rw [if_neg hb4] at hb
            by_cases hb5 : containsSub cn "Projection" = true
            · rw [if_pos hb5] at hb
              cases hb
              decide
            · rw [if_neg hb5] at hb
              by_cases hb6 : cn = "LocalConnectivity"
              · rw [if_pos hb6] at hb
                cases hb
                decide
              · rw [if_neg hb6] at hb
                by_cases hb7 : cn = "ConnectivityAnnotations"
                · rw [if_pos hb7] at hb
                  cases hb
                  decide
                · rw [if_neg hb7] at hb
                  by_cases hb8 : containsSub cn "TimeSeries" = true
                  · rw [if_pos hb8] at hb
                    cases hb
                    unfold branchTimeSeries
                    by_cases ht1 : cn = "TimeSeriesVolume"
                    · subst ht1
                      decide
                    · simp only [if_neg ht1]
                      by_cases ht2 : cn = "TimeSeriesRegion"
                      · subst ht2
                        decide
                      · rw [if_neg ht2]
                        by_cases ht3 : cn = "TimeSeriesSurface"
                        · subst ht3
                          decide
                        · rw [if_neg ht3]
                          by_cases ht4 : cn = "TimeSeriesEEG" ∨ cn = "TimeSeriesMEG" ∨ cn = "TimeSeriesSEEG"
                          · rw [if_pos ht4]
                            decide
                          · rw [if_neg ht4]
                            decide
                  · rw [if_neg hb8] at hb
                    by_cases hb9 : containsSub cn "Volume" = true
                    · rw [if_pos hb9] at hb
                      cases hb
                      decide
                    · rw [if_neg hb9] at hb
                      by_cases hb10 : cn = "StructuralMRI"
                      · rw [if_pos hb10] at hb
                        cases hb
                        decide
                      · rw [if_neg hb10] at hb
                        by_cases hb11 : cn = "ComplexCoherenceSpectrum"
                        · rw [if_pos hb11] at hb
                          cases hb
                          exact absurd hb11 hccs
                        · rw [if_neg hb11] at hb
                          by_cases hb12 : cn = "WaveletCoefficients"
                          · rw [if_pos hb12] at hb
                            cases hb
                            decide
                          · rw [if_neg hb12] at hb
                            by_cases hb13 : cn = "CoherenceSpectrum"
                            · rw [if_pos hb13] at hb
                              cases hb
                              decide
                            · rw [if_neg hb13] at hb
                              by_cases hb14 : cn = "CrossCorrelation"
                              · rw [if_pos hb14] at hb
                                cases hb
                                decide
                              · rw [if_neg hb14] at hb
                                by_cases hb15 : cn = "Fcd"
                                · rw [if_pos hb15] at hb
                                  cases hb
                                  decide
                                · rw [if_neg hb15] at hb
                                  by_cases hb16 : cn = "FourierSpectrum"
                                  · rw [if_pos hb16] at hb
                                    cases hb
                                    decide
                                  · rw [if_neg hb16] at hb
                                    by_cases hb17 : cn = "IndependentComponents"
                                    · rw [if_pos hb17] at hb
                                      cases hb
                                      decide
                                    · rw [if_neg hb17] at hb
                                      by_cases hb18 : cn = "CorrelationCoefficients"
                                      · rw [if_pos hb18] at hb
                                        cases hb
                                        decide
                                      · rw [if_neg hb18] at hb
                                        by_cases hb19 : cn = "PrincipalComponents"
                                        · rw [if_pos hb19] at hb
                                          cases hb
                                          decide
                                        · rw [if_neg hb19] at hb
                                          by_cases hb20 : cn = "Covariance"
                                          · rw [if_pos hb20] at hb
                                            cases hb
                                            decide
                                          · rw [if_neg hb20] at hb
                                            by_cases hb21 : cn = "ConnectivityMeasure"
                                            · rw [if_pos hb21] at hb
                                              cases hb
                                              decide
                                            · rw [if_neg hb21] at hb
                                              by_cases hb22 : cn = "DatatypeMeasure"
                                              · rw [if_pos hb22] at hb
                                                cases hb
                                                exact absurd hc (by decide)
                                              · rw [if_neg hb22] at hb
                                                by_cases hb23 : cn = "StimuliRegion"
                                                · rw [if_pos hb23] at hb
                                                  cases hb
                                                  decide
                                                · rw [if_neg hb23] at hb
                                                  by_cases hb24 : cn = "StimuliSurface"
                                                  · rw [if_pos hb24] at hb
                                                    cases hb
                                                    decide
                                                  · rw [if_neg hb24] at hb
                                                    by_cases hb25 : cn = "ValueWrapper"
                                                    · rw [if_pos hb25] at hb
                                                      cases hb
                                                      decide
                                                    · rw [if_neg hb25] at hb
                                                      by_cases hb26 : cn = "SimulationState"
                                                      · rw [if_pos hb26] at hb
                                                        cases hb
                                                        exact absurd hc (by decide)
                                                      · rw [if_neg hb26] at hb
                                                        cases hb

/-- The only kinds whose branch returns before the write-back. -/
theorem branchOf_cont_false (cn : String) (l : List Step) (c : Bool)
    (hb : branchOf cn = some (l, c)) (hc : c = false) :
    (cn = "DatatypeMeasure" ∧ l = branchDatatypeMeasure) ∨
    (cn = "SimulationState" ∧ l = [Step.removeFileK]) := by
  unfold branchOf at hb
  by_cases hb0 : cn = "Connectivity"
  · rw [if_pos hb0] at hb
    cases hb
    exact absurd hc (by decide)
  · rw [if_neg hb0] at hb
    by_cases hb1 : surfaceKindList.contains cn = true
    · rw [if_pos hb1] at hb
      cases hb
      exact absurd hc (by decide)
    · rw [if_neg hb1] at hb
      by_cases hb2 : cn = "RegionMapping"
      · rw [if_pos hb2] at hb
        cases hb
        exact absurd hc (by decide)
      · rw [if_neg hb2] at hb
        by_cases hb3 : cn = "RegionVolumeMapping"
        · rw [if_pos hb3] at hb
          cases hb
          exact absurd hc (by decide)
        · rw [if_neg hb3] at hb
          by_cases hb4 : containsSub cn "Sensors" = true
          · rw [if_pos hb4] at hb
            cases hb
            exact absurd hc (by decide)
          · rw [if_neg hb4] at hb
            by_cases hb5 : containsSub cn "Projection" = true
            · rw [if_pos hb5] at hb
              cases hb
              exact absurd hc (by decide)
            · rw [if_neg hb5] at hb
              by_cases hb6 : cn = "LocalConnectivity"
              · rw [if_pos hb6] at hb
                cases hb
                exact absurd hc (by decide)
              · rw [if_neg hb6] at hb
                by_cases hb7 : cn = "ConnectivityAnnotations"
                · rw [if_pos hb7] at hb
                  cases hb
                  exact absurd hc (by decide)
                · rw [if_neg hb7] at hb
                  by_cases hb8 : containsSub cn "TimeSeries" = true
                  · rw [if_pos hb8] at hb
                    cases hb
                    exact absurd hc (by decide)
                  · rw [if_neg hb8] at hb
                    by_cases hb9 : containsSub cn "Volume" = true
                    · rw [if_pos hb9] at hb
                      cases hb
                      exact absurd hc (by decide)
                    · rw [if_neg hb9] at hb
                      by_cases hb10 : cn = "StructuralMRI"
                      · rw [if_pos hb10] at hb
                        cases hb
                        exact absurd hc (by decide)
                      · rw [if_neg hb10] at hb
                        by_cases hb11 : cn = "ComplexCoherenceSpectrum"
                        · rw [if_pos hb11] at hb
                          cases hb
                          exact absurd hc (by decide)
                        · rw [if_neg hb11] at hb
                          by_cases hb12 : cn = "WaveletCoefficients"
                          · rw [if_pos hb12] at hb
                            cases hb
                            exact absurd hc (by decide)
                          · rw [if_neg hb12] at hb
                            by_cases hb13 : cn = "CoherenceSpectrum"
                            · rw [if_pos hb13] at hb
                              cases hb
                              exact absurd hc (by decide)
                            · rw [if_neg hb13] at hb
                              by_cases hb14 : cn = "CrossCorrelation"
                              · rw [if_pos hb14] at hb
                                cases hb
                                exact absurd hc (by decide)
                              · rw [if_neg hb14] at hb
                                by_cases hb15 : cn = "Fcd"
                                · rw [if_pos hb15] at hb
                                  cases hb
                                  exact absurd hc (by decide)
                                · rw [if_neg hb15] at hb
                                  by_cases hb16 : cn = "FourierSpectrum"
                                  · rw [if_pos hb16] at hb
                                    cases hb
                                    exact absurd hc (by decide)
                                  · rw [if_neg hb16] at hb
                                    by_cases hb17 : cn = "IndependentComponents"
                                    · rw [if_pos hb17] at hb
                                      cases hb
                                      exact absurd hc (by decide)
                                    · rw [if_neg hb17] at hb
                                      by_cases hb18 : cn = "CorrelationCoefficients"
                                      · rw [if_pos hb18] at hb
                                        cases hb
                                        exact absurd hc (by decide)
                                      · rw [if_neg hb18] at hb
                                        by_cases hb19 : cn = "PrincipalComponents"
                                        · rw [if_pos hb19] at hb
                                          cases hb
                                          exact absurd hc (by decide)
                                        · rw [if_neg hb19] at hb
                                          by_cases hb20 : cn = "Covariance"
                                          · rw [if_pos hb20] at hb
                                            cases hb
                                            exact absurd hc (by decide)
                                          · rw [if_neg hb20] at hb
                                            by_cases hb21 : cn = "ConnectivityMeasure"
                                            · rw [if_pos hb21] at hb
                                              cases hb
                                              exact absurd hc (by decide)
                                            · rw [if_neg hb21] at hb
                                              by_cases hb22 : cn = "DatatypeMeasure"
                                              · rw [if_pos hb22] at hb
                                                cases hb
                                                exact Or.inl ⟨hb22, rfl⟩
                                              · rw [if_neg hb22] at hb
                                                by_cases hb23 : cn = "StimuliRegion"
                                                · rw [if_pos hb23] at hb
                                                  cases hb
                                                  exact absurd hc (by decide)
                                                · rw [if_neg hb23] at hb
                                                  by_cases hb24 : cn = "StimuliSurface"
                                                  · rw [if_pos hb24] at hb
                                                    cases hb
                                                    exact absurd hc (by decide)
                                                  · rw [if_neg hb24] at hb
                                                    by_cases hb25 : cn = "ValueWrapper"
                                                    · rw [if_pos hb25] at hb
                                                      cases hb
                                                      exact absurd hc (by decide)
                                                    · rw [if_neg hb25] at hb
                                                      by_cases hb26 : cn = "SimulationState"
                                                      · rw [if_pos hb26] at hb
                                                        cases hb
                                                        exact Or.inr ⟨hb26, rfl⟩
                                                      · rw [if_neg hb26] at hb
                                                        cases hb

/-- Prepending the URN tag yields the canonical pattern exactly when the
payload is 32 hex characters. -/
theorem isCanonicalUrn_append (g : String) :
    isCanonicalUrn (urnTag ++ g) = isHex32 g := by
  unfold isCanonicalUrn
  rw [String.data_append]
  have h1 : "urn:uuid:".data.isPrefixOf ("urn:uuid:".data ++ g.data) = true := by
    rw [List.isPrefixOf_iff_prefix]
    exact List.prefix_append _ _
  have hu : urnTag.data = "urn:uuid:".data := rfl
  rw [hu, h1]
  have h2 : ("urn:uuid:".data ++ g.data).drop 9 = g.data := by
    have h9 : ("urn:uuid:".data).length = 9 := by decide
    rw [← h9, List.drop_left]
  rw [h2]
  have h3 : String.mk g.data = g := rfl
  rw [h3]
  simp

/-! ## Claim C2 -/

/-- C2 (amended).  The migration prepends `urn:uuid:` to each
identifier-bearing root-metadata field (the gid and every recorded
dependent attribute) without validating the payload: for every container
whose migration completes, other than a `ComplexCoherenceSpectrum` (whose
`source` field receives the prefix twice, see C1), the post-migration
stored value of such a field is exactly `urn:uuid:` followed by the
pre-migration (key-normalized) value, and therefore matches the canonical
`urn:uuid:<32 hex>` pattern precisely when the pre-migration value was 32
hexadecimal characters with no dashes. -/
theorem c2_theorem (env : Env) (st0 st' : MigState)
    (h : update env st0 = .ok st')
    (hccs : st'.className ≠ some "ComplexCoherenceSpectrum")
    (k v : String)
    (hk : k = "gid" ∨ (lookupD st'.deps k).isSome = true)
    (hv : lookupD st'.storedRoot k = some (.str v)) :
    ∃ g, lookupD (normalizeKeys st0.storedRoot) k = some (.str g) ∧
      v = urnTag ++ g ∧ isCanonicalUrn v = isHex32 g := by
  obtain ⟨cn, st4, c, st5, hDisp, hcn4, hcn', hdeps4, hroot4, hrows4, hnodup4,
    hty, ⟨g0, hg0a, hg0b⟩, hframe4, hflow⟩ := update_ok_elim env st0 st' h
  have hccs' : cn ≠ "ComplexCoherenceSpectrum" := by
    intro hh
    exact hccs (by rw [hcn', hh])
  rcases hflow with ⟨hcf, hst, hroot5, hrows5⟩ | ⟨hct, hdeps', hresolve, hstored, hrows⟩
  · rw [hst, hroot5] at hv
    cases hv
  · rcases dispatch_ok_elim cn st4 c st5 hDisp with ⟨l, hbl, hrun⟩ | ⟨hbn, _, hid⟩
    · have hgood := branchOf_goodUrn cn l c hbl hct hccs'
      obtain ⟨hgidframe, hdepchar⟩ := branchGoodUrn_sound l hgood st4 st5 hrun hdeps4
      rcases hk with hkgid | hkdep
      · subst hkgid
        rw [hstored "gid" (by decide) (by decide), hgidframe, hg0b] at hv
        have hv1 := Option.some.inj hv
        injection hv1 with hv2
        refine ⟨g0, hg0a, hv2.symm, ?_⟩
        rw [← hv2]
        exact isCanonicalUrn_append g0
      · rw [hdeps'] at hkdep
        obtain ⟨v0, hv0⟩ := Option.isSome_iff_exists.mp hkdep
        obtain ⟨hbadall, g, hg1, hveq, hg2⟩ := hdepchar k v0 hv0
        have hkop : k ≠ "operation_tag" := hbadall _ (by decide)
        have hkpb : k ≠ "parent_burst" := hbadall _ (by decide)
        rw [hstored k hkop hkpb, hg2] at hv
        have hv1 := Option.some.inj hv
        injection hv1 with hv2
        have hkn : lookupD st4.memMeta k = lookupD (normalizeKeys st0.storedRoot) k :=
          hframe4 k (hbadall _ (by decide)) (hbadall _ (by decide))
            (hbadall _ (by decide)) (hbadall _ (by decide)) (hbadall _ (by decide))
            (hbadall _ (by decide)) (hbadall _ (by decide)) (hbadall _ (by decide))
        rw [hkn] at hg1
        refine ⟨g, hg1, hv2.symm, ?_⟩
        rw [← hv2]
        exact isCanonicalUrn_append g
    · rcases hk with hkgid | hkdep
      · subst hkgid
        rw [hstored "gid" (by decide) (by decide), hid, hg0b] at hv
        have hv1 := Option.some.inj hv
        injection hv1 with hv2
        refine ⟨g0, hg0a, hv2.symm, ?_⟩
        rw [← hv2]
        exact isCanonicalUrn_append g0
      · rw [hdeps', hid, hdeps4] at hkdep
        cases hkdep

theorem lookupD_isSome_of_mem (d : Dict) (p : String × MVal) (h : p ∈ d) :
    (lookupD d p.1).isSome = true := by
  rw [← mem_keysD_iff_lookup_isSome]
  exact List.mem_map.mpr ⟨p, h, rfl⟩

/-! ## Claim C3 -/

/-- C3 (amended).  In a whole-storage migration, for every container whose
kind reaches the index-materialization phase (every kind except
`DatatypeMeasure`, which returns early with its dependent attribute
unresolved, and `SimulationState`, which records none), a completed run
implies every recorded dependent identifier resolved against the
Relational Index; a missing row makes the run fail with a lookup error
instead of completing. -/
theorem c3_theorem (env : Env) (st0 st' : MigState)
    (h : update env st0 = .ok st') (hsm : env.storageMode = true)
    (hdm : st'.className ≠ some "DatatypeMeasure") :
    ∀ p ∈ st'.deps, env.indexGids.contains (stripUrn p.2) = true := by
  obtain ⟨cn, st4, c, st5, hDisp, hcn4, hcn', hdeps4, hroot4, hrows4, hnodup4,
    hty, hgid, hframe4, hflow⟩ := update_ok_elim env st0 st' h
  rcases hflow with ⟨hcf, hst, hroot5, hrows5⟩ | ⟨hct, hdeps', hresolve, hstored, hrows⟩
  · rcases dispatch_ok_elim cn st4 c st5 hDisp with ⟨l, hbl, hrun⟩ | ⟨hbn, hc1, hid⟩
    · rcases branchOf_cont_false cn l c hbl hcf with ⟨hdmcn, _⟩ | ⟨hsim, hl⟩
      · exact absurd (by rw [hcn', hdmcn]) hdm
      · subst hl
        intro p hp
        exfalso
        have hmem := lookupD_isSome_of_mem st'.deps p hp
        have hfr := (runSteps_ok_frame _ _ _ hrun).2.2.2.2.2 p.1 (by simp)
        rw [hst] at hmem
        rw [hfr, hdeps4] at hmem
        simp [lookupD] at hmem
    · rw [hc1] at hcf
      cases hcf
  · intro p hp
    rw [hdeps'] at hp
    exact depResolve_none_mem env st5.deps (hresolve hsm) p hp

/-! ## Claim C9 -/

/-- C9.  A container whose declared kind is `SimulationState` is deleted
and the run returns early: no metadata is written back and no Relational
Index row is stored. -/
theorem c9_theorem (env : Env) (st0 st' : MigState)
    (h : update env st0 = .ok st')
    (hcls : st'.className = some "SimulationState") :
    st'.fileKind = FileKind.absent ∧ st'.storedRows = [] ∧
    st'.storedRoot = [] := by
  obtain ⟨cn, st4, c, st5, hDisp, hcn4, hcn', hdeps4, hroot4, hrows4, hnodup4,
    hty, hgid, hframe4, hflow⟩ := update_ok_elim env st0 st' h
  have hcnn : cn = "SimulationState" := by
    have := hcn'.symm.trans hcls
    injection this
  subst hcnn
  rcases dispatch_ok_elim _ st4 c st5 hDisp with ⟨l, hbl, hrun⟩ | ⟨hbn, _, _⟩
  · rw [show branchOf "SimulationState" = some ([Step.removeFileK], false) from by decide] at hbl
    cases hbl
    simp only [runSteps, runStep] at hrun
    rcases hflow with ⟨hcf, hst, hroot5, hrows5⟩ | ⟨hct, _⟩
    · cases hrun
      rw [hst]
      exact ⟨rfl, hrows5, hroot5⟩
    · cases hct
  · rw [show branchOf "SimulationState" = some ([Step.removeFileK], false) from by decide] at hbn
    cases hbn

/-! ## Claim C10 -/

/-- C10.  A container whose declared kind is `DatatypeMeasure` loses every
stored root-metadata attribute: the lowercasing loop removed them all, and
the branch returns before the write-back, so the container keeps no
persisted root metadata and no index row is stored. -/
theorem c10_theorem (env : Env) (st0 st' : MigState)
    (h : update env st0 = .ok st')
    (hcls : st'.className = some "DatatypeMeasure") :
    st'.storedRoot = [] ∧ st'.storedRows = [] := by
  obtain ⟨cn, st4, c, st5, hDisp, hcn4, hcn', hdeps4, hroot4, hrows4, hnodup4,
    hty, hgid, hframe4, hflow⟩ := update_ok_elim env st0 st' h
  have hcnn : cn = "DatatypeMeasure" := by
    have := hcn'.symm.trans hcls
    injection this
  subst hcnn
  rcases dispatch_ok_elim _ st4 c st5 hDisp with ⟨l, hbl, hrun⟩ | ⟨hbn, _, _⟩
  · rw [show branchOf "DatatypeMeasure" = some (branchDatatypeMeasure, false) from by decide] at hbl
    cases hbl
    rcases hflow with ⟨hcf, hst, hroot5, hrows5⟩ | ⟨hct, _⟩
    · rw [hst]
      exact ⟨hroot5, hrows5⟩
    · cases hct
  · rw [show branchOf "DatatypeMeasure" = some (branchDatatypeMeasure, false) from by decide] at hbn
    cases hbn

/-! ## Concrete fixtures

One environment/state pair per container kind exercised by a claim.  The
environments model the orchestrator (storage-migration mode with an
operation id), the registries and the data-access facade. -/

/-- A default environment: storage mode, no sidecar XML data, everything
external healthy. -/
def baseEnv : Env :=
  { storageMode := true, opId := 42, buildOpOk := true, xmlParams := [],
    algorithmStr := "", operationFound := false, registryWrittenBy := none,
    registryIndexOk := true, indexGids := [], parentBurstFor := fun _ => none,
    algJson := fun _ => none, getAlgorithm := fun _ _ => none,
    importOk := true, simOk := true, burstParams := none }

/-- A container state carrying only the given stored metadata, datasets
and sidecar flag. -/
def mkContainer (name : String) (root : Dict) (meta : List (String × Dict))
    (data : List (String × List MVal)) (xml : Bool) : MigState :=
  { fileName := name, fileKind := FileKind.regular, storedRoot := root,
    dsMeta := meta, dsData := data, xmlExists := xml,
    memMeta := [], deps := [], params := [], addParams := [], hasVm := false,
    algorithmStr := "", opFound := false, h5class := none, className := none,
    storedRows := [] }

/-- A ValueWrapper container whose gid is only four characters long. -/
def stVW : MigState :=
  mkContainer "ValueWrapper_x.h5"
    [("Type", .str "ValueWrapper"),
     ("Module", .str "tvb.datatypes.mapped_values"),
     ("Gid", .str "abcd"),
     ("Create_date", .str "datetime:2014-10-29 09:55:01.123"),
     ("Data_version", .str "4"),
     ("Data_type", .str "\"float\"")]
    [] [] false

/-- The result state of the ValueWrapper run. -/
def resVW : MigState :=
  match update baseEnv stVW with
  | .ok s => s
  | .error (_, s) => s

/-- A ComplexCoherenceSpectrum container with a well-formed 32-hex source
gid whose referenced datatype is indexed. -/
def envCCS : Env :=
  { baseEnv with
    opId := 7
    registryWrittenBy := some "tvb.adapters.datatypes.h5.spectral_h5.ComplexCoherenceSpectrumH5"
    indexGids := ["11112222333344445555666677778888"] }

/-- The stored state of the ComplexCoherenceSpectrum container. -/
def stCCS : MigState :=
  mkContainer "ComplexCoherenceSpectrum_y.h5"
    [("Type", .str "ComplexCoherenceSpectrum"),
     ("Module", .str "tvb.datatypes.spectral"),
     ("Gid", .str "aabbccddeeff00112233445566778899"),
     ("Create_date", .str "datetime:2015-01-01 10:00:00.000"),
     ("Data_version", .str "4"),
     ("Source", .str "11112222333344445555666677778888"),
     ("Epoch_length", .str "1.0"),
     ("Segment_length", .str "0.5"),
     ("Windowing_function", .str "\"hamming\""),
     ("Length_1d", .str "0"), ("Length_2d", .str "0"),
     ("Length_3d", .str "0"), ("Length_4d", .str "0"),
     ("Label_x", .str ""), ("Label_y", .str ""),
     ("Aggregation_functions", .str "null"),
     ("Dimensions_labels", .str "null"),
     ("Nr_dimensions", .str "4"),
     ("Title", .str "spectrum")]
    [("array_data", []), ("cross_spectrum", [])]
    [("array_data", [.rat 1]), ("cross_spectrum", [.rat 2])]
    false

/-- The result state of the ComplexCoherenceSpectrum run. -/
def resCCS : MigState :=
  match update envCCS stCCS with
  | .ok s => s
  | .error (_, s) => s

/-- A DatatypeMeasure container whose analyzed datatype is not indexed. -/
def stDTM : MigState :=
  mkContainer "DatatypeMeasure_z.h5"
    [("Type", .str "DatatypeMeasure"),
     ("Module", .str "tvb.core.entities.model"),
     ("Gid", .str "00112233445566778899aabbccddeeff"),
     ("Create_date", .str "datetime:2016-02-02 11:00:00.000"),
     ("Data_version", .str "4"),
     ("Analyzed_datatype", .str "deadbeefdeadbeefdeadbeefdeadbeef")]
    [] [] false

/-- The result state of the DatatypeMeasure run. -/
def resDTM : MigState :=
  match update baseEnv stDTM with
  | .ok s => s
  | .error (_, s) => s

/-- A SimulationState container (the deprecated transient-snapshot kind). -/
def stSS : MigState :=
  mkContainer "SimulationState_w.h5"
    [("Type", .str "SimulationState"),
     ("Module", .str "tvb.adapters.datatypes.simulation_state"),
     ("Gid", .str "ffeeddccbbaa99887766554433221100"),
     ("Create_date", .str "datetime:2016-03-03 12:00:00.000"),
     ("Data_version", .str "4")]
    [] [] false

/-- The result state of the SimulationState run. -/
def resSS : MigState :=
  match update baseEnv stSS with
  | .ok s => s
  | .error (_, s) => s

/-- A CorticalSurface container whose zero-based flag uses the `"0"`
legacy token. -/
def envSurf : Env :=
  { baseEnv with
    registryWrittenBy := some "tvb.adapters.datatypes.h5.surface_h5.SurfaceH5" }

/-- The stored state of the surface container. -/
def stSurf : MigState :=
  mkContainer "CorticalSurface_v.h5"
    [("Type", .str "CorticalSurface"),
     ("Module", .str "tvb.datatypes.surfaces"),
     ("Gid", .str "0123456789abcdef0123456789abcdef"),
     ("Create_date", .str "datetime:2016-04-04 13:00:00.000"),
     ("Data_version", .str "4"),
     ("Edge_max_length", .str "2.0"),
     ("Edge_mean_length", .str "1.0"),
     ("Edge_min_length", .str "0.5"),
     ("Number_of_split_slices", .str "1"),
     ("Number_of_triangles", .str "3"),
     ("Number_of_vertices", .str "3"),
     ("Zero_based_triangles", .str "0"),
     ("Bi_hemispheric", .str "false"),
     ("Valid_for_simulations", .str "true"),
     ("Surface_type", .str "\"CORTICAL\"")]
    [("triangle_normals", []), ("triangles", []), ("vertex_normals", []),
     ("vertices", [])]
    [("triangle_normals", [.rat 1]), ("triangles", [.int 0]),
     ("vertex_normals", [.rat 1]), ("vertices", [.rat 0])]
    false

/-- The result state of the surface run. -/
def resSurf : MigState :=
  match update envSurf stSurf with
  | .ok s => s
  | .error (_, s) => s

/-- The environment of the end-to-end Connectivity scenario: storage mode,
an `Operation.xml` sidecar whose parameters carry `normalization = none`,
and healthy import machinery. -/
def envConn : Env :=
  { baseEnv with
    xmlParams := [("normalization", .str "none")]
    algorithmStr := "alg"
    operationFound := true
    registryWrittenBy := some "tvb.adapters.datatypes.h5.connectivity_h5.ConnectivityH5"
    algJson := fun s => if s = "alg" then some ("tvb.adapters.uploaders.zip_connectivity_importer", "ZIPConnectivityImporter") else none
    getAlgorithm := fun _ _ => some 3 }

/-- The minimal Connectivity container of the end-to-end scenario. -/
def stConn : MigState :=
  mkContainer "Connectivity_s.h5"
    [("Type", .str "Connectivity"),
     ("Module", .str "tvb.datatypes.connectivity"),
     ("Gid", .str "abcd0123abcd0123abcd0123abcd0123"),
     ("Create_date", .str "datetime:2014-10-29 09:55:01.000"),
     ("Data_version", .str "4"),
     ("Number_of_regions", .str "5"),
     ("Number_of_connections", .str "10"),
     ("Undirected", .str "1"),
     ("Saved_selection", .str "null")]
    [("centres", []), ("region_labels", []),
     ("tract_lengths",
       [("Mean non zero", .rat 1), ("Min. non zero", .rat 1),
        ("Var. non zero", .rat 1)]),
     ("weights",
       [("Mean non zero", .rat 1), ("Min. non zero", .rat 1),
        ("Var. non zero", .rat 1)])]
    [("centres", [.rat 0]), ("region_labels", [.str "r0"]),
     ("tract_lengths", [.rat 2]), ("weights", [.rat 1])]
    true

/-- The result state of the Connectivity run. -/
def resConn : MigState :=
  match update envConn stConn with
  | .ok s => s
  | .error (_, s) => s

/-! ## Concrete claim artifacts -/

/-- C1.  The claim says every foreign-identifier field gets the
`urn:uuid:` prefix exactly once.  The source contradicts it: in the
ComplexCoherenceSpectrum branch line 492 prefixes `source` and line 494
prefixes it again, so a successful run stores a doubly-prefixed
identifier.  This theorem exhibits a complete successful run in which the
stored `source` value contains the prefix twice. -/
theorem c1_theorem :
    isOkRes (update envCCS stCCS) = true ∧
    lookupD stCCS.storedRoot "Source" =
      some (MVal.str "11112222333344445555666677778888") ∧
    lookupD resCCS.storedRoot "source" =
      some (MVal.str "urn:uuid:urn:uuid:11112222333344445555666677778888") ∧
    countOccur "urn:uuid:urn:uuid:11112222333344445555666677778888"
      "urn:uuid:" = 2 ∧
    isCanonicalUrn "urn:uuid:urn:uuid:11112222333344445555666677778888"
      = false :=
  ⟨rfl, rfl, rfl, by decide, by decide⟩

/-- C2 counterexample.  A ValueWrapper container whose legacy gid is the
four-character string `abcd` migrates successfully, and the stored gid is
`urn:uuid:abcd`, which does not match `urn:uuid:` + 32 hex characters:
the code prefixes whatever value was stored without validating it. -/
theorem c2_counterexample :
    isOkRes (update baseEnv stVW) = true ∧
    lookupD stVW.storedRoot "Gid" = some (MVal.str "abcd") ∧
    lookupD resVW.storedRoot "gid" = some (MVal.str "urn:uuid:abcd") ∧
    isCanonicalUrn "urn:uuid:abcd" = false :=
  ⟨rfl, rfl, rfl, by decide⟩

/-- C2 witness: the amended theorem applied to the ValueWrapper run at
the `gid` field. -/
theorem c2_witness :
    ∃ g, lookupD (normalizeKeys stVW.storedRoot) "gid" =
        some (MVal.str g) ∧
      "urn:uuid:abcd" = urnTag ++ g ∧
      isCanonicalUrn "urn:uuid:abcd" = isHex32 g :=
  c2_theorem baseEnv stVW resVW rfl (by decide) "gid" "urn:uuid:abcd"
    (Or.inl rfl) rfl

/-- C3 counterexample.  A DatatypeMeasure container whose
`analyzed_datatype` dependency has no row in the (empty) index migrates
successfully in storage mode: the branch returns before the dependency
look-up, so the run completes with the reference unresolved instead of
failing with a lookup error. -/
theorem c3_counterexample :
    baseEnv.storageMode = true ∧
    isOkRes (update baseEnv stDTM) = true ∧
    resDTM.deps =
      [("analyzed_datatype", MVal.str "deadbeefdeadbeefdeadbeefdeadbeef")] ∧
    baseEnv.indexGids.contains
      (stripUrn (MVal.str "deadbeefdeadbeefdeadbeefdeadbeef")) = false :=
  ⟨rfl, rfl, rfl, rfl⟩

/-- C3 witness: the amended theorem applied to the successful
ComplexCoherenceSpectrum run, whose one recorded dependency resolved
against the index. -/
theorem c3_witness :
    envCCS.indexGids.contains
      (stripUrn
        (MVal.str "urn:uuid:urn:uuid:11112222333344445555666677778888"))
      = true :=
  c3_theorem envCCS stCCS resCCS rfl rfl (by decide)
    ("source",
      MVal.str "urn:uuid:urn:uuid:11112222333344445555666677778888")
    (by rw [show resCCS.deps = [("source", MVal.str "urn:uuid:urn:uuid:11112222333344445555666677778888")] from rfl]; exact List.mem_singleton.mpr rfl)

/-- C5.  The end-to-end Connectivity scenario: a container with
number_of_regions `"5"`, number_of_connections `"10"`, undirected `"1"`,
saved_selection `"null"` and a 32-hex gid completes, and afterwards
number_of_regions is the integer 5, undirected is `bool:True`,
saved_selection is `[]`, the gid is the old gid with `urn:uuid:`
prepended, and exactly one Relational Index row is stored whose
foreign key references the originating operation. -/
theorem c5_theorem :
    update envConn stConn = .ok resConn ∧
    lookupD stConn.storedRoot "Gid" =
      some (MVal.str "abcd0123abcd0123abcd0123abcd0123") ∧
    lookupD resConn.storedRoot "number_of_regions" = some (MVal.int 5) ∧
    lookupD resConn.storedRoot "undirected" =
      some (MVal.str "bool:True") ∧
    lookupD resConn.storedRoot "saved_selection" =
      some (MVal.str "[]") ∧
    lookupD resConn.storedRoot "gid" =
      some (MVal.str "urn:uuid:abcd0123abcd0123abcd0123abcd0123") ∧
    resConn.storedRows =
      [{ kind := RowKind.datatypeIndex, fkFromOperation := some envConn.opId, createDate := some (MVal.str "2014-10-29,09-55-01.000") }] :=
  ⟨rfl, rfl, rfl, rfl, rfl, rfl, rfl⟩

/-- C6 counterexample.  A CorticalSurface container whose legacy
`Zero_based_triangles` flag is the token `"0"` migrates successfully, and
the stored value is `bool:0` — neither `bool:False` nor `bool:True`: the
surface branch capitalizes the first character instead of testing the
`"0"`/`"1"` encoding. -/
theorem c6_counterexample :
    lookupD stSurf.storedRoot "Zero_based_triangles" =
      some (MVal.str "0") ∧
    isOkRes (update envSurf stSurf) = true ∧
    lookupD resSurf.storedRoot "zero_based_triangles" =
      some (MVal.str "bool:0") ∧
    ("bool:0" ≠ "bool:False" ∧ "bool:0" ≠ "bool:True") :=
  ⟨rfl, rfl, rfl, by decide, by decide⟩

/-- C9 witness: the theorem applied to a concrete SimulationState run. -/
theorem c9_witness :
    resSS.fileKind = FileKind.absent ∧ resSS.storedRows = [] ∧
    resSS.storedRoot = [] :=
  c9_theorem baseEnv stSS resSS rfl rfl

/-- C10 witness: the theorem applied to a concrete DatatypeMeasure
run. -/
theorem c10_witness :
    resDTM.storedRoot = [] ∧ resDTM.storedRows = [] :=
  c10_theorem baseEnv stDTM resDTM rfl rfl

/-! ## Character-case and boolean re-encoding lemmas -/

theorem char_toNat_ofNat (n : Nat) (h : n.isValidChar) :
    (Char.ofNat n).toNat = n := by
  unfold Char.ofNat
  rw [dif_pos h]
  rfl

theorem toLower_not_isUpper (c : Char) : (c.toLower).isUpper = false := by
  unfold Char.toLower
  by_cases h : c.toNat ≥ 65 ∧ c.toNat ≤ 90
  · show (if c.toNat ≥ 65 ∧ c.toNat ≤ 90 then Char.ofNat (c.toNat + 32) else c).isUpper = false
    rw [if_pos h]
    have hval : (Char.ofNat (c.toNat + 32)).toNat = c.toNat + 32 :=
      char_toNat_ofNat _ (Or.inl (by omega))
    unfold Char.isUpper
    have h1 : ¬ ((Char.ofNat (c.toNat + 32)).val ≤ 90) := by
      intro hle
      have h2 : (Char.ofNat (c.toNat + 32)).toNat ≤ (90 : UInt32).toNat := hle
      have h90 : (90 : UInt32).toNat = 90 := rfl
      omega
    simp [h1]
  · show (if c.toNat ≥ 65 ∧ c.toNat ≤ 90 then Char.ofNat (c.toNat + 32) else c).isUpper = false
    rw [if_neg h]
    unfold Char.isUpper
    rw [Bool.and_eq_false_iff]
    by_cases h65 : c.toNat ≥ 65
    · have h90 : ¬ c.toNat ≤ 90 := fun hh => h ⟨h65, hh⟩
      right
      simp only [decide_eq_false_iff_not]
      intro hle
      have h2 : c.toNat ≤ (90 : UInt32).toNat := hle
      have h90n : (90 : UInt32).toNat = 90 := rfl
      omega
    · left
      simp only [decide_eq_false_iff_not]
      intro hge
      have h2 : (65 : UInt32).toNat ≤ c.toNat := hge
      have h65n : (65 : UInt32).toNat = 65 := rfl
      omega

theorem string_append_left_cancel (a b c : String) (h : a ++ b = a ++ c) :
    b = c := by
  have hd : (a ++ b).data = (a ++ c).data := by rw [h]
  rw [String.data_append, String.data_append] at hd
  have h2 := List.append_cancel_left hd
  cases b
  cases c
  exact congrArg String.mk h2

theorem firstCharLower_lowerFirstChar (s : String) :
    firstCharLower (lowerFirstChar s) = true := by
  cases s with
  | mk data =>
    cases data with
    | nil => rfl
    | cons c rest =>
      show (!(c.toLower.isUpper)) = true
      rw [toLower_not_isUpper]
      rfl

/-- C6 (amended).  The `"0"`-test re-encoding (Connectivity `undirected`,
line 306) always yields one of exactly `bool:False` / `bool:True`, with
`"0"` mapped to `bool:False` and every other legacy token to `bool:True`.
The capitalization re-encoding used for the surface and sensor flags
(lines 347-352, 392-393) yields `bool:` + the input with its first
character uppercased, which is one of the two claimed literals precisely
when that capitalized input is literally `False` or `True`; other legacy
tokens (such as `"0"`) escape the claimed two-value range. -/
theorem c6_theorem :
    (∀ v, reencodeBool01 v = "bool:False" ∨ reencodeBool01 v = "bool:True") ∧
    reencodeBool01 "0" = "bool:False" ∧
    (∀ v, v ≠ "0" → reencodeBool01 v = "bool:True") ∧
    reencodeBoolCap "false" = "bool:False" ∧
    reencodeBoolCap "true" = "bool:True" ∧
    (∀ v, (reencodeBoolCap v = "bool:False" ∨ reencodeBoolCap v = "bool:True")
      ↔ (upperFirstChar v = "False" ∨ upperFirstChar v = "True")) := by
  refine ⟨?_, by decide, ?_, by decide, by decide, ?_⟩
  · intro v
    unfold reencodeBool01
    split
    · exact Or.inl rfl
    · exact Or.inr rfl
  · intro v h
    unfold reencodeBool01
    rw [if_neg h]
  · intro v
    constructor
    · intro h
      rcases h with h | h
      · left
        have h0 : "bool:" ++ upperFirstChar v = "bool:False" := h
        have h1 : "bool:" ++ upperFirstChar v = "bool:" ++ "False" :=
          h0.trans (by decide)
        exact string_append_left_cancel _ _ _ h1
      · right
        have h0 : "bool:" ++ upperFirstChar v = "bool:True" := h
        have h1 : "bool:" ++ upperFirstChar v = "bool:" ++ "True" :=
          h0.trans (by decide)
        exact string_append_left_cancel _ _ _ h1
    · intro h
      rcases h with h | h
      · left
        show "bool:" ++ upperFirstChar v = "bool:False"
        calc "bool:" ++ upperFirstChar v = "bool:" ++ "False" := by rw [h]
          _ = "bool:False" := by decide
      · right
        show "bool:" ++ upperFirstChar v = "bool:True"
        calc "bool:" ++ upperFirstChar v = "bool:" ++ "True" := by rw [h]
          _ = "bool:True" := by decide

/-- C6 witness: the amended theorem applied at the tokens `"1"` and
`"true"`. -/
theorem c6_witness :
    reencodeBool01 "1" = "bool:True" ∧
    (reencodeBoolCap "true" = "bool:False" ∨
      reencodeBoolCap "true" = "bool:True") :=
  by
  have h := c6_theorem
  exact ⟨h.2.2.1 "1" (by decide), (h.2.2.2.2.2 "true").mpr (Or.inr (by decide))⟩

/-! ## Key-normalization lemmas for distinct lowercased keys -/

theorem lookupD_append_none (d e : Dict) (k : String)
    (h : lookupD d k = none) : lookupD (d ++ e) k = lookupD e k := by
  induction d with
  | nil => rfl
  | cons q t ih =>
    obtain ⟨k1, v1⟩ := q
    have h2 : (if k1 = k then some v1 else lookupD t k) = none := h
    rw [List.cons_append]
    show (if k1 = k then some v1 else lookupD (t ++ e) k) = lookupD e k
    by_cases hk : k1 = k
    · rw [if_pos hk] at h2
      cases h2
    · rw [if_neg hk] at h2
      rw [if_neg hk]
      exact ih h2

theorem setD_append_of_not_has (d : Dict) (k : String) (v : MVal)
    (h : hasD d k = false) : setD d k v = d ++ [(k, v)] := by
  induction d with
  | nil => rfl
  | cons q t ih =>
    obtain ⟨k1, v1⟩ := q
    have h2 : (if k1 = k then some v1 else lookupD t k).isSome = false := h
    show (if k1 = k then (k, v) :: t else (k1, v1) :: setD t k v)
      = (k1, v1) :: t ++ [(k, v)]
    by_cases hk : k1 = k
    · rw [if_pos hk] at h2
      simp at h2
    · rw [if_neg hk] at h2
      rw [if_neg hk, ih h2]
      rfl

theorem mergeD_append_of_disjoint (t : Dict) :
    ∀ d : Dict, (keysD t).Nodup → (∀ k ∈ keysD t, hasD d k = false) →
    mergeD d t = d ++ t := by
  induction t with
  | nil =>
    intro d _ _
    show d = d ++ []
    rw [List.append_nil]
  | cons q t ih =>
    intro d hnd hdisj
    obtain ⟨k, v⟩ := q
    have hk : hasD d k = false := hdisj k (by
      show k ∈ k :: keysD t
      exact List.mem_cons_self k _)
    have hstep : mergeD d ((k, v) :: t) = mergeD (setD d k v) t := rfl
    have hnd' : (keysD t).Nodup := (List.nodup_cons.mp hnd).2
    have hknot : k ∉ keysD t := (List.nodup_cons.mp hnd).1
    rw [hstep, setD_append_of_not_has d k v hk, ih (d ++ [(k, v)]) hnd' ?_]
    · rw [List.append_assoc]
      rfl
    · intro k1 hk1
      have hne : k ≠ k1 := fun he => hknot (he ▸ hk1)
      have hd1 : hasD d k1 = false := hdisj k1 (by
        show k1 ∈ k :: keysD t
        exact List.mem_cons_of_mem k hk1)
      have hdn : lookupD d k1 = none := by
        cases hl : lookupD d k1 with
        | none => rfl
        | some w =>
          unfold hasD at hd1
          rw [hl] at hd1
          cases hd1
      show (lookupD (d ++ [(k, v)]) k1).isSome = false
      rw [lookupD_append_none d [(k, v)] k1 hdn]
      show (if k = k1 then some v else none).isSome = false
      rw [if_neg hne]
      rfl

theorem dictOfPairs_nodup_eq (l : Dict) (h : nodupKeys l) :
    dictOfPairs l = l := by
  unfold dictOfPairs
  rw [mergeD_append_of_disjoint l [] h (fun k _ => rfl)]
  rfl

theorem normalizeKeys_eq_map (d : Dict)
    (h : (d.map (fun p => lowerFirstChar p.1)).Nodup) :
    normalizeKeys d = d.map (fun p => (lowerFirstChar p.1, p.2)) := by
  unfold normalizeKeys
  apply dictOfPairs_nodup_eq
  unfold nodupKeys keysD
  rw [List.map_map]
  exact h

theorem lookupD_map_lower (d : Dict)
    (h : (d.map (fun p => lowerFirstChar p.1)).Nodup) :
    ∀ p ∈ d,
      lookupD (d.map (fun q => (lowerFirstChar q.1, q.2)))
        (lowerFirstChar p.1) = some p.2 := by
  induction d with
  | nil =>
    intro p hp
    cases hp
  | cons a t ih =>
    intro p hp
    rw [List.mem_cons] at hp
    rw [List.map_cons] at h
    rw [List.map_cons]
    rcases hp with rfl | hp
    · show (if lowerFirstChar p.1 = lowerFirstChar p.1 then some p.2
        else lookupD (t.map fun q => (lowerFirstChar q.1, q.2))
          (lowerFirstChar p.1)) = some p.2
      rw [if_pos rfl]
    · have hne : lowerFirstChar a.1 ≠ lowerFirstChar p.1 := by
        intro he
        exact (List.nodup_cons.mp h).1
          (he ▸ List.mem_map_of_mem (fun r => lowerFirstChar r.1) hp)
      show (if lowerFirstChar a.1 = lowerFirstChar p.1 then some a.2
        else lookupD (t.map fun q => (lowerFirstChar q.1, q.2))
          (lowerFirstChar p.1)) = some p.2
      rw [if_neg hne]
      exact ih (List.nodup_cons.mp h).2 p hp

/-- C7 (amended).  When the lowercased first characters leave the keys
pairwise distinct, one pass of the identity normalization maps each key to
its first-character-lowercased form keeping order and pairings, every key
of the result has a lowercase first character, and the key-normalization
phase leaves no stored root attribute behind (the loop removed every
original key from the container, the rewritten mapping living in memory
until write-back).  When two distinct keys lowercase to the same key the
pairing clause fails (see the counterexample). -/
theorem c7_theorem (d : Dict)
    (hnd : (d.map (fun p => lowerFirstChar p.1)).Nodup) :
    normalizeKeys d = d.map (fun p => (lowerFirstChar p.1, p.2)) ∧
    (∀ p ∈ d, lookupD (normalizeKeys d) (lowerFirstChar p.1) = some p.2) ∧
    (∀ q ∈ normalizeKeys d, firstCharLower q.1 = true) ∧
    (∀ env st cn st', phaseNormalize env st = .ok (cn, st') →
      st'.storedRoot = []) := by
  refine ⟨normalizeKeys_eq_map d hnd, ?_, ?_, ?_⟩
  · intro p hp
    rw [normalizeKeys_eq_map d hnd]
    exact lookupD_map_lower d hnd p hp
  · intro q hq
    rw [normalizeKeys_eq_map d hnd] at hq
    rcases List.mem_map.mp hq with ⟨p, _, rfl⟩
    exact firstCharLower_lowerFirstChar p.1
  · intro env st cn st' h
    exact (phaseNormalize_ok env st cn st' h).1

/-- C7 counterexample.  The distinct keys `Type` and `type` lowercase to
the same key, so the rebuilt mapping keeps a single binding: the value
paired with `Type` is lost, falsifying "each value keeps its pairing with
its (renamed) key". -/
theorem c7_counterexample :
    normalizeKeys [("Type", MVal.str "a"), ("type", MVal.str "b")] =
      [("type", MVal.str "b")] ∧
    lookupD (normalizeKeys [("Type", MVal.str "a"), ("type", MVal.str "b")])
      (lowerFirstChar "Type") ≠ some (MVal.str "a") := by
  refine ⟨rfl, ?_⟩
  intro hh
  have hh2 : some (MVal.str "b") = some (MVal.str "a") := hh
  injection hh2 with hv
  injection hv with hs
  exact absurd hs (by decide)

/-- C7 witness: the amended theorem applied to a two-key mapping whose
lowercased keys stay distinct. -/
theorem c7_witness :
    normalizeKeys [("Type", MVal.str "a"), ("Gid", MVal.str "g")] =
      [("type", MVal.str "a"), ("gid", MVal.str "g")] := by
  have h := c7_theorem [("Type", MVal.str "a"), ("Gid", MVal.str "g")]
    (by decide)
  rw [h.1]
  rfl

/-! ## Association-table and statistics-block lemmas -/

theorem lookupA_setA_self {β : Type} (d : List (String × β)) (k : String)
    (v : β) : lookupA (setA d k v) k = some v := by
  induction d with
  | nil =>
    show (if k = k then some v else none) = some v
    rw [if_pos rfl]
  | cons a t ih =>
    obtain ⟨k1, v1⟩ := a
    show lookupA (if k1 = k then (k, v) :: t else (k1, v1) :: setA t k v) k
      = some v
    by_cases hk : k1 = k
    · rw [if_pos hk]
      show (if k = k then some v else lookupA t k) = some v
      rw [if_pos rfl]
    · rw [if_neg hk]
      show (if k1 = k then some v1 else lookupA (setA t k v) k) = some v
      rw [if_neg hk]
      exact ih

theorem lookupA_setA_ne {β : Type} (d : List (String × β)) (k k' : String)
    (v : β) (h : k ≠ k') : lookupA (setA d k v) k' = lookupA d k' := by
  induction d with
  | nil =>
    show (if k = k' then some v else none) = none
    rw [if_neg h]
  | cons a t ih =>
    obtain ⟨k1, v1⟩ := a
    show lookupA (if k1 = k then (k, v) :: t else (k1, v1) :: setA t k v) k'
      = (if k1 = k' then some v1 else lookupA t k')
    by_cases hk : k1 = k
    · subst hk
      rw [if_pos rfl]
      show (if k1 = k' then some v else lookupA t k')
        = (if k1 = k' then some v1 else lookupA t k')
      rw [if_neg h, if_neg h]
    · rw [if_neg hk]
      show (if k1 = k' then some v1 else lookupA (setA t k v) k')
        = (if k1 = k' then some v1 else lookupA t k')
      by_cases hk' : k1 = k'
      · rw [if_pos hk', if_pos hk']
      · rw [if_neg hk', if_neg hk']
        exact ih

theorem lookupD_eq_none_of_hasD_false (d : Dict) (k : String)
    (h : hasD d k = false) : lookupD d k = none := by
  unfold hasD at h
  cases hl : lookupD d k with
  | none => rfl
  | some v =>
    rw [hl] at h
    cases h

theorem lookupD_delD_self_nodup (d : Dict) (k : String) :
    nodupKeys d → lookupD (delD d k) k = none := by
  induction d with
  | nil =>
    intro _
    rfl
  | cons a t ih =>
    intro hn
    obtain ⟨k1, v1⟩ := a
    obtain ⟨hnotin, hnd⟩ := List.nodup_cons.mp hn
    show lookupD (if k1 = k then t else (k1, v1) :: delD t k) k = none
    by_cases hk : k1 = k
    · rw [if_pos hk]
      subst hk
      exact lookupD_none_of_not_mem_keys t k1 hnotin
    · rw [if_neg hk]
      show (if k1 = k then some v1 else lookupD (delD t k) k) = none
      rw [if_neg hk]
      exact ih hnd

theorem lookupD_of_mem_nodup (d : Dict) :
    nodupKeys d → ∀ p ∈ d, lookupD d p.1 = some p.2 := by
  induction d with
  | nil =>
    intro _ p hp
    cases hp
  | cons a t ih =>
    intro hn p hp
    obtain ⟨hnotin, hnd⟩ := List.nodup_cons.mp hn
    rw [List.mem_cons] at hp
    rcases hp with rfl | hp
    · show (if p.1 = p.1 then some p.2 else lookupD t p.1) = some p.2
      rw [if_pos rfl]
    · have hne : a.1 ≠ p.1 := by
        intro he
        apply hnotin
        rw [he]
        exact List.mem_map_of_mem Prod.fst hp
      show (if a.1 = p.1 then some a.2 else lookupD t p.1) = some p.2
      rw [if_neg hne]
      exact ih hnd p hp

/-- `new_metadata.pop(key, False)`-style removal (lines 111-114): delete
the key when present. -/
def dropKeyD (d : Dict) (k : String) : Dict :=
  if hasD d k then delD d k else d

theorem lookupD_dropKeyD_self (d : Dict) (k : String) (hn : nodupKeys d) :
    lookupD (dropKeyD d k) k = none := by
  unfold dropKeyD
  cases hb : hasD d k with
  | true =>
    rw [if_pos rfl]
    exact lookupD_delD_self_nodup d k hn
  | false =>
    rw [if_neg (by decide)]
    exact lookupD_eq_none_of_hasD_false d k hb

theorem lookupD_dropKeyD_ne (d : Dict) (k k' : String) (h : k' ≠ k) :
    lookupD (dropKeyD d k) k' = lookupD d k' := by
  unfold dropKeyD
  cases hb : hasD d k with
  | true =>
    rw [if_pos rfl]
    exact lookupD_delD_ne d k k' h
  | false => rw [if_neg (by decide)]

theorem nodupKeys_dropKeyD (d : Dict) (k : String) (hn : nodupKeys d) :
    nodupKeys (dropKeyD d k) := by
  unfold dropKeyD
  cases hb : hasD d k with
  | true =>
    rw [if_pos rfl]
    exact nodupKeys_delD d k hn
  | false =>
    rw [if_neg (by decide)]
    exact hn

theorem nodupKeys_dsStats (c : List MVal) : nodupKeys (dsStats c) := by
  show (keysD (dsStats c)).Nodup
  rw [show keysD (dsStats c) = ["Minimum", "Maximum", "Mean"] from rfl]
  decide

theorem mem_dsStats_key (c : List MVal) (p : String × MVal)
    (hp : p ∈ dsStats c) :
    p.1 = "Minimum" ∨ p.1 = "Maximum" ∨ p.1 = "Mean" := by
  have h1 : p.1 ∈ keysD (dsStats c) := List.mem_map_of_mem Prod.fst hp
  rw [show keysD (dsStats c) = ["Minimum", "Maximum", "Mean"] from rfl] at h1
  simp only [List.mem_cons, List.not_mem_nil, or_false] at h1
  exact h1

/-- The attribute block the helper leaves on one dataset: recomputed
statistics merged over the old attributes, minus `Variance` and `Size`. -/
def rebuiltAttrs (attrs : Dict) (content : List MVal) : Dict :=
  dropKeyD (dropKeyD (mergeD attrs (dsStats content)) "Variance") "Size"

theorem migrateDatasetMetadata_cons (ds : String) (rest : List String)
    (st : MigState) :
    migrateDatasetMetadata (ds :: rest) st =
      match lookupA st.dsData ds with
      | none => .error (.missingDataSet ds, st)
      | some content =>
        match lookupA st.dsMeta ds with
        | none => .error (.missingDataSet ds, st)
        | some attrs =>
          migrateDatasetMetadata rest
            { st with dsMeta := setA st.dsMeta ds (rebuiltAttrs attrs content) } := rfl

theorem migrateDatasetMetadata_spec (l : List String) (st' : MigState) :
    ∀ st : MigState, migrateDatasetMetadata l st = .ok st' →
    (∀ ds attrs, lookupA st.dsMeta ds = some attrs → nodupKeys attrs) →
    ((∀ ds ∈ l, ∃ attrs content,
        lookupA st'.dsMeta ds = some attrs ∧
        lookupA st.dsData ds = some content ∧
        lookupD attrs "Variance" = none ∧
        lookupD attrs "Size" = none ∧
        (∀ p ∈ dsStats content, lookupD attrs p.1 = some p.2)) ∧
      (∀ ds, ds ∉ l → lookupA st'.dsMeta ds = lookupA st.dsMeta ds) ∧
      st'.dsData = st.dsData ∧ st'.storedRoot = st.storedRoot ∧
      st'.memMeta = st.memMeta ∧ st'.storedRows = st.storedRows) := by
  induction l with
  | nil =>
    intro st h _
    have h2 : Except.ok st = (.ok st' : Except (PyErr × MigState) MigState) :=
      h
    injection h2 with h3
    subst h3
    exact ⟨fun ds hds => absurd hds (List.not_mem_nil ds),
      fun ds _ => rfl, rfl, rfl, rfl, rfl⟩
  | cons ds rest ih =>
    intro st h hn
    rw [migrateDatasetMetadata_cons] at h
    split at h
    case h_1 => cases h
    case h_2 content hcontent =>
    split at h
    case h_1 => cases h
    case h_2 attrs hattrs =>
    have hnA : nodupKeys attrs := hn ds attrs hattrs
    have hn1 : nodupKeys (mergeD attrs (dsStats content)) :=
      nodupKeys_mergeD attrs _ hnA
    have hn2 : nodupKeys (dropKeyD (mergeD attrs (dsStats content))
        "Variance") := nodupKeys_dropKeyD _ _ hn1
    have hst1 : ∀ ds0 attrs0,
        lookupA (setA st.dsMeta ds (rebuiltAttrs attrs content)) ds0
          = some attrs0 → nodupKeys attrs0 := by
      intro ds0 attrs0 h0
      by_cases hds0 : ds = ds0
      · subst hds0
        rw [lookupA_setA_self] at h0
        injection h0 with h0e
        rw [← h0e]
        unfold rebuiltAttrs
        exact nodupKeys_dropKeyD _ _ hn2
      · rw [lookupA_setA_ne _ _ _ _ hds0] at h0
        exact hn ds0 attrs0 h0
    obtain ⟨IH1, IH2, IHd, IHr, IHm, IHw⟩ := ih _ h hst1
    refine ⟨?_, ?_, IHd, IHr, IHm, IHw⟩
    · intro ds0 hds0
      rw [List.mem_cons] at hds0
      by_cases hmem : ds0 ∈ rest
      · exact IH1 ds0 hmem
      · rcases hds0 with rfl | hds0'
        · refine ⟨rebuiltAttrs attrs content, content, ?_, hcontent,
            ?_, ?_, ?_⟩
          · rw [IH2 ds0 hmem]
            exact lookupA_setA_self _ _ _
          · unfold rebuiltAttrs
            rw [lookupD_dropKeyD_ne _ _ _ (by decide)]
            exact lookupD_dropKeyD_self _ _ hn1
          · unfold rebuiltAttrs
            exact lookupD_dropKeyD_self _ _ hn2
          · unfold rebuiltAttrs
            intro p hp
            have hkey := mem_dsStats_key content p hp
            have hne1 : p.1 ≠ "Variance" := by
              rcases hkey with h1 | h1 | h1 <;> rw [h1] <;> decide
            have hne2 : p.1 ≠ "Size" := by
              rcases hkey with h1 | h1 | h1 <;> rw [h1] <;> decide
            rw [lookupD_dropKeyD_ne _ _ _ hne2,
              lookupD_dropKeyD_ne _ _ _ hne1,
              lookupD_mergeD attrs _ p.1 (nodupKeys_dsStats content),
              lookupD_of_mem_nodup _ (nodupKeys_dsStats content) p hp]
        · exact absurd hds0' hmem
    · intro ds0 hds0
      rw [List.mem_cons, not_or] at hds0
      rw [IH2 ds0 hds0.2]
      exact lookupA_setA_ne st.dsMeta ds ds0 _
        (fun he => hds0.1 he.symm)

/-- C8.  For each dataset in the list handed to the rebuild helper
(`_migrate_dataset_metadata`), afterwards `Variance` and `Size` are absent
from that dataset's attribute block, the statistic attributes equal the
values recomputed from the dataset's current content, and datasets outside
the list — as well as the rest of the state — are untouched.  The
duplicate-free-keys hypothesis is the Python dict invariant of every
attribute block. -/
theorem c8_theorem (l : List String) (st st' : MigState)
    (h : migrateDatasetMetadata l st = .ok st')
    (hn : ∀ ds attrs, lookupA st.dsMeta ds = some attrs → nodupKeys attrs) :
    (∀ ds ∈ l, ∃ attrs content,
      lookupA st'.dsMeta ds = some attrs ∧
      lookupA st.dsData ds = some content ∧
      lookupD attrs "Variance" = none ∧
      lookupD attrs "Size" = none ∧
      (∀ p ∈ dsStats content, lookupD attrs p.1 = some p.2)) ∧
    (∀ ds, ds ∉ l → lookupA st'.dsMeta ds = lookupA st.dsMeta ds) ∧
    st'.dsData = st.dsData ∧ st'.storedRoot = st.storedRoot ∧
    st'.memMeta = st.memMeta ∧ st'.storedRows = st.storedRows :=
  migrateDatasetMetadata_spec l st' st h hn

/-- A one-dataset fixture for the rebuild helper: the dataset carries a
stale `Variance`/`Size` pair and one unrelated attribute. -/
def stC8 : MigState :=
  mkContainer "ds.h5" []
    [("d1", [("Variance", MVal.rat 9), ("Size", MVal.int 2),
      ("Other", MVal.str "x")])]
    [("d1", [MVal.rat 3, MVal.rat 1])] false

/-- The result of rebuilding the fixture's dataset metadata. -/
def resC8 : MigState :=
  match migrateDatasetMetadata ["d1"] stC8 with
  | .ok s => s
  | .error (_, s) => s

/-- C8 witness: the theorem applied to the concrete one-dataset run. -/
theorem c8_witness :
    ∃ attrs content,
      lookupA resC8.dsMeta "d1" = some attrs ∧
      lookupA stC8.dsData "d1" = some content ∧
      lookupD attrs "Variance" = none ∧
      lookupD attrs "Size" = none ∧
      (∀ p ∈ dsStats content, lookupD attrs p.1 = some p.2) :=
  by
  have hnod : ∀ ds attrs, lookupA stC8.dsMeta ds = some attrs →
      nodupKeys attrs := by
    intro ds attrs h0
    have h1 : (if ("d1" : String) = ds then
        some [("Variance", MVal.rat 9), ("Size", MVal.int 2),
          ("Other", MVal.str "x")]
      else (none : Option Dict)) = some attrs := h0
    by_cases hds : ("d1" : String) = ds
    · rw [if_pos hds] at h1
      injection h1 with h2
      rw [← h2]
      show (["Variance", "Size", "Other"] : List String).Nodup
      decide
    · rw [if_neg hds] at h1
      cases h1
  have h := c8_theorem ["d1"] stC8 resC8 rfl hnod
  exact h.1 "d1" (List.mem_singleton.mpr rfl)

/-! ## Error-kind analysis: `IncompatibleFileManagerException` can only
come from the precondition check -/

theorem getMetaS_nincomp (st : MigState) (k : String)
    (h : getMetaS st k = .error PyErr.incompatible) : False := by
  unfold getMetaS at h
  repeat' split at h
  all_goals first
    | exact Except.noConfusion h
    | exact PyErr.noConfusion (Except.error.inj h)

theorem migrateDatasetMetadata_nincomp (l : List String) :
    ∀ st stE : MigState,
      migrateDatasetMetadata l st = .error (PyErr.incompatible, stE) →
      False := by
  induction l with
  | nil =>
    intro st stE h
    exact Except.noConfusion h
  | cons ds rest ih =>
    intro st stE h
    rw [migrateDatasetMetadata_cons] at h
    split at h
    · exact PyErr.noConfusion (congrArg Prod.fst (Except.error.inj h))
    · split at h
      · exact PyErr.noConfusion (congrArg Prod.fst (Except.error.inj h))
      · exact ih _ _ h

theorem migrateOneStimuliParam_nincomp (m : Dict) (p : String)
    (h : migrateOneStimuliParam m p = .error PyErr.incompatible) : False := by
  unfold migrateOneStimuliParam at h
  repeat' split at h
  all_goals first
    | exact Except.noConfusion h
    | exact PyErr.noConfusion (Except.error.inj h)

theorem runStep_nincomp (st stE : MigState) (s : Step)
    (h : runStep st s = .error (PyErr.incompatible, stE)) : False := by
  cases s <;>
    (simp only [runStep] at h
     repeat' split at h
     all_goals
       first
         | exact Except.noConfusion h
         | exact PyErr.noConfusion (congrArg Prod.fst (Except.error.inj h))
         | exact migrateDatasetMetadata_nincomp _ _ _ h
         | (rename_i e heq
            have h2 : e = PyErr.incompatible :=
              congrArg Prod.fst (Except.error.inj h)
            rw [h2] at heq
            first
              | exact getMetaS_nincomp _ _ heq
              | exact migrateOneStimuliParam_nincomp _ _ heq)
         | (rename_i e heq
            have h2 := Except.error.inj h
            rw [h2] at heq
            exact migrateDatasetMetadata_nincomp _ _ _ heq))

theorem runSteps_nincomp (l : List Step) :
    ∀ st stE : MigState,
      runSteps l st = .error (PyErr.incompatible, stE) → False := by
  induction l with
  | nil =>
    intro st stE h
    exact Except.noConfusion h
  | cons s rest ih =>
    intro st stE h
    simp only [runSteps] at h
    split at h
    next e heq =>
      have h2 := Except.error.inj h
      rw [h2] at heq
      exact runStep_nincomp st stE s heq
    next st1 heq => exact ih st1 stE h

theorem dispatch_nincomp (cn : String) (st stE : MigState)
    (h : dispatch cn st = .error (PyErr.incompatible, stE)) : False := by
  unfold dispatch at h
  repeat' split at h
  all_goals first
    | exact Except.noConfusion h
    | (rename_i e heq
       have h2 := Except.error.inj h
       rw [h2] at heq
       exact runSteps_nincomp _ _ _ heq)

theorem normReadClass_nincomp (st : MigState) (pe : PyErr × MigState)
    (h : normReadClass st = .error pe) (hk : pe.1 = PyErr.incompatible) :
    False := by
  unfold normReadClass at h
  repeat' split at h
  all_goals first
    | exact Except.noConfusion h
    | (have h2 := congrArg Prod.fst (Except.error.inj h)
       rw [hk] at h2
       exact PyErr.noConfusion h2)

theorem normDate_nincomp (st stE : MigState)
    (h : normDate st = .error (PyErr.incompatible, stE)) : False := by
  unfold normDate at h
  split at h
  next e heq =>
    have h2 : e = PyErr.incompatible :=
      congrArg Prod.fst (Except.error.inj h)
    rw [h2] at heq
    exact getMetaS_nincomp _ _ heq
  next v heq => exact Except.noConfusion h

theorem normGid_nincomp (st stE : MigState)
    (h : normGid st = .error (PyErr.incompatible, stE)) : False := by
  unfold normGid at h
  split at h
  next e heq =>
    have h2 : e = PyErr.incompatible :=
      congrArg Prod.fst (Except.error.inj h)
    rw [h2] at heq
    exact getMetaS_nincomp _ _ heq
  next v heq => exact Except.noConfusion h

theorem normPops_nincomp (st stE : MigState)
    (h : normPops st = .error (PyErr.incompatible, stE)) : False := by
  unfold normPops at h
  repeat' split at h
  all_goals first
    | exact Except.noConfusion h
    | exact PyErr.noConfusion (congrArg Prod.fst (Except.error.inj h))

theorem phaseNormalize_nincomp (env : Env) (st stE : MigState)
    (h : phaseNormalize env st = .error (PyErr.incompatible, stE)) :
    False := by
  unfold phaseNormalize at h
  repeat' split at h
  all_goals first
    | exact Except.noConfusion h
    | exact PyErr.noConfusion (congrArg Prod.fst (Except.error.inj h))
    | (rename_i e heq
       have h2 := Except.error.inj h
       rw [h2] at heq
       first
         | exact normReadClass_nincomp _ _ heq rfl
         | exact normDate_nincomp _ _ heq
         | exact normGid_nincomp _ _ heq
         | exact normPops_nincomp _ _ heq)

theorem phaseXml_nincomp (env : Env) (st stE : MigState)
    (h : phaseXml env st = .error (PyErr.incompatible, stE)) : False := by
  unfold phaseXml at h
  repeat' split at h
  all_goals first
    | exact Except.noConfusion h
    | exact PyErr.noConfusion (congrArg Prod.fst (Except.error.inj h))

theorem tsParentFix_nincomp (env : Env) (st stE : MigState)
    (h : tsParentFix env st = .error (PyErr.incompatible, stE)) : False := by
  unfold tsParentFix at h
  repeat' split at h
  all_goals first
    | exact Except.noConfusion h
    | exact PyErr.noConfusion (congrArg Prod.fst (Except.error.inj h))

theorem simBlock_nincomp (env : Env) (cn : String) (st stE : MigState)
    (h : simBlock env cn st = .error (PyErr.incompatible, stE)) : False := by
  unfold simBlock at h
  repeat' split at h
  all_goals first
    | exact Except.noConfusion h
    | exact PyErr.noConfusion (congrArg Prod.fst (Except.error.inj h))

theorem vmBlock_nincomp (env : Env) (cn : String) (st stE : MigState)
    (h : vmBlock env cn st = .error (PyErr.incompatible, stE)) : False := by
  unfold vmBlock at h
  repeat' split at h
  all_goals first
    | exact Except.noConfusion h
    | exact PyErr.noConfusion (congrArg Prod.fst (Except.error.inj h))
    | (rename_i e heq
       have h2 := Except.error.inj h
       rw [h2] at heq
       first
         | exact tsParentFix_nincomp _ _ _ heq
         | exact simBlock_nincomp _ _ _ _ heq)

theorem depResolve_nincomp (env : Env) :
    ∀ l : Dict, depResolve env l = some PyErr.incompatible → False := by
  intro l
  induction l with
  | nil =>
    intro h
    exact Option.noConfusion h
  | cons p t ih =>
    intro h
    simp only [depResolve] at h
    repeat' split at h
    all_goals first
      | exact Option.noConfusion h
      | exact PyErr.noConfusion (Option.some.inj h)
      | exact ih h

theorem phasePostIndex_nincomp (env : Env) (cn : String) (st stE : MigState)
    (h : phasePostIndex env cn st = .error (PyErr.incompatible, stE)) :
    False := by
  unfold phasePostIndex at h
  repeat' split at h
  all_goals first
    | exact Except.noConfusion h
    | exact PyErr.noConfusion (congrArg Prod.fst (Except.error.inj h))
    | (rename_i e heq
       have h2 : e = PyErr.incompatible :=
         congrArg Prod.fst (Except.error.inj h)
       rw [h2] at heq
       exact depResolve_nincomp env _ heq)
    | (rename_i e heq
       have h2 := Except.error.inj h
       rw [h2] at heq
       exact vmBlock_nincomp _ _ _ _ heq)

theorem phaseRename_err_kind (env : Env) (st stE : MigState) (e : PyErr)
    (h : phaseRename env st = .error (e, stE)) : e = PyErr.osError := by
  unfold phaseRename at h
  split at h
  · repeat' split at h
    all_goals first
      | exact Except.noConfusion h
      | exact (congrArg Prod.fst (Except.error.inj h)).symm
  · exact Except.noConfusion h

theorem phaseRename_ok_not_absent (env : Env) (st st1 : MigState)
    (h : phaseRename env st = .ok st1) (hsm : env.storageMode = true) :
    st.fileKind ≠ FileKind.absent := by
  intro habs
  unfold phaseRename at h
  rw [hsm] at h
  rw [if_pos rfl, habs] at h
  exact Except.noConfusion h

theorem phaseRename_ok_of_not_absent (env : Env) (st : MigState)
    (h : env.storageMode = true → st.fileKind ≠ FileKind.absent) :
    ∃ st1, phaseRename env st = .ok st1 ∧
      st1.storedRoot = st.storedRoot ∧ st1.fileKind = st.fileKind := by
  unfold phaseRename
  by_cases hsm : env.storageMode = true
  · rw [hsm, if_pos rfl]
    cases hk : st.fileKind with
    | absent => exact absurd hk (h hsm)
    | directory => exact ⟨_, rfl, rfl, rfl⟩
    | regular => exact ⟨_, rfl, rfl, rfl⟩
  · have hsm2 : env.storageMode = false := by
      cases hb : env.storageMode
      · rfl
      · exact absurd hb hsm
    rw [hsm2, if_neg (by decide)]
    exact ⟨st, rfl, rfl, rfl⟩

theorem phaseCheck_err_elim (st stE : MigState)
    (h : phaseCheck st = .error (PyErr.incompatible, stE)) :
    (st.fileKind ≠ FileKind.regular ∨
      hasD st.storedRoot keyClassName = false) ∧
    stE.storedRoot = st.storedRoot ∧ stE.dsMeta = st.dsMeta ∧
    stE.dsData = st.dsData ∧ stE.fileKind = st.fileKind := by
  unfold phaseCheck at h
  split at h
  case isTrue hreg =>
    split at h
    case isTrue hhas => exact Except.noConfusion h
    case isFalse hhas =>
      have h2 := Except.error.inj h
      have hstE : stE = { st with memMeta := st.storedRoot } :=
        (congrArg Prod.snd h2).symm
      refine ⟨Or.inr ?_, ?_, ?_, ?_, ?_⟩
      · cases hb : hasD st.storedRoot keyClassName
        · rfl
        · exact absurd hb hhas
      · exact (congrArg MigState.storedRoot hstE).trans rfl
      · exact (congrArg MigState.dsMeta hstE).trans rfl
      · exact (congrArg MigState.dsData hstE).trans rfl
      · exact (congrArg MigState.fileKind hstE).trans rfl
  case isFalse hreg =>
    have h2 := Except.error.inj h
    have hstE : stE = st := (congrArg Prod.snd h2).symm
    exact ⟨Or.inl hreg, congrArg MigState.storedRoot hstE,
      congrArg MigState.dsMeta hstE, congrArg MigState.dsData hstE,
      congrArg MigState.fileKind hstE⟩

theorem phaseCheck_error_of_cond (st : MigState)
    (hcond : st.fileKind ≠ FileKind.regular ∨
      hasD st.storedRoot keyClassName = false) :
    ∃ stE, phaseCheck st = .error (PyErr.incompatible, stE) := by
  unfold phaseCheck
  by_cases hreg : st.fileKind = FileKind.regular
  · rw [if_pos hreg]
    rcases hcond with hc | hc
    · exact absurd hreg hc
    · rw [hc, if_neg (by decide)]
      exact ⟨_, rfl⟩
  · rw [if_neg hreg]
    exact ⟨st, rfl⟩

theorem update_incompatible_elim (env : Env) (st0 stE : MigState)
    (h : update env st0 = .error (PyErr.incompatible, stE)) :
    (env.storageMode = true → st0.fileKind ≠ FileKind.absent) ∧
    (st0.fileKind ≠ FileKind.regular ∨
      hasD st0.storedRoot keyClassName = false) ∧
    stE.storedRoot = st0.storedRoot ∧ stE.dsMeta = st0.dsMeta ∧
    stE.dsData = st0.dsData ∧ stE.fileKind = st0.fileKind := by
  unfold update at h
  split at h
  next e heq =>
    have h2 := Except.error.inj h
    rw [h2] at heq
    have h3 := phaseRename_err_kind env (initRun st0) stE PyErr.incompatible heq
    exact absurd h3 (by decide)
  next st1 heq1 =>
    split at h
    next e heq2 =>
      have h2 := Except.error.inj h
      rw [h2] at heq2
      obtain ⟨hcond, hr1, hr2, hr3, hr4⟩ := phaseCheck_err_elim st1 stE heq2
      have hs1 := phaseRename_ok env (initRun st0) st1 heq1
      have hfk : st1.fileKind = st0.fileKind :=
        (congrArg MigState.fileKind hs1).trans rfl
      have hroot : st1.storedRoot = st0.storedRoot :=
        (congrArg MigState.storedRoot hs1).trans rfl
      have hdm : st1.dsMeta = st0.dsMeta :=
        (congrArg MigState.dsMeta hs1).trans rfl
      have hdd : st1.dsData = st0.dsData :=
        (congrArg MigState.dsData hs1).trans rfl
      refine ⟨fun hsm => phaseRename_ok_not_absent env (initRun st0) st1 heq1 hsm,
        ?_, hr1.trans hroot, hr2.trans hdm, hr3.trans hdd, hr4.trans hfk⟩
      rcases hcond with hc | hc
      · exact Or.inl (by rw [← hfk]; exact hc)
      · exact Or.inr (by rw [← hroot]; exact hc)
    next st2 heq2 =>
      split at h
      next e heq3 =>
        have h2 := Except.error.inj h
        rw [h2] at heq3
        exact (phaseNormalize_nincomp env st2 stE heq3).elim
      next cn st3 heq3 =>
        split at h
        next e heq4 =>
          have h2 := Except.error.inj h
          rw [h2] at heq4
          exact (phaseXml_nincomp env st3 stE heq4).elim
        next st4 heq4 =>
          split at h
          next e heq5 =>
            have h2 := Except.error.inj h
            rw [h2] at heq5
            exact (dispatch_nincomp cn st4 stE heq5).elim
          next c st5 heq5 =>
            split at h
            · split at h
              · exact (phasePostIndex_nincomp env cn
                  (phaseWriteback st5) stE h).elim
              · exact Except.noConfusion h
            · exact Except.noConfusion h

/-- C4 (amended).  `update` raises `IncompatibleFileManagerException`
precisely when the path does not resolve to a regular file or the stored
root metadata lacks the class-name (`Type`) key — except that in
storage-migration mode a wholly missing path dies first inside
`os.rename` with `OSError`, so the incompatible error additionally
requires the path to exist.  No later phase of the script can raise this
exception, and when it is raised the container is untouched: stored root
metadata, both dataset tables and the file kind are those of the input. -/
theorem c4_theorem (env : Env) (st0 : MigState) :
    ((∃ stE, update env st0 = .error (PyErr.incompatible, stE)) ↔
      ((env.storageMode = true → st0.fileKind ≠ FileKind.absent) ∧
        (st0.fileKind ≠ FileKind.regular ∨
          hasD st0.storedRoot keyClassName = false))) ∧
    (∀ stE, update env st0 = .error (PyErr.incompatible, stE) →
      stE.storedRoot = st0.storedRoot ∧ stE.dsMeta = st0.dsMeta ∧
      stE.dsData = st0.dsData ∧ stE.fileKind = st0.fileKind) := by
  constructor
  · constructor
    · intro hex
      obtain ⟨stE, h⟩ := hex
      have h3 := update_incompatible_elim env st0 stE h
      exact ⟨h3.1, h3.2.1⟩
    · intro hcnd
      obtain ⟨hna, hcond⟩ := hcnd
      obtain ⟨st1, hr, hrroot, hrfk⟩ :=
        phaseRename_ok_of_not_absent env (initRun st0) hna
      obtain ⟨stE, hc⟩ := phaseCheck_error_of_cond st1 (by
        rcases hcond with hcnd1 | hcnd1
        · exact Or.inl (by rw [hrfk]; exact hcnd1)
        · exact Or.inr (by rw [hrroot]; exact hcnd1))
      exact ⟨stE, by simp only [update, hr, hc]⟩
  · intro stE h
    have h3 := update_incompatible_elim env st0 stE h
    exact ⟨h3.2.2.1, h3.2.2.2.1, h3.2.2.2.2.1, h3.2.2.2.2.2⟩

/-- The ValueWrapper container with the path missing entirely. -/
def stAbsent : MigState :=
  { stVW with fileKind := FileKind.absent }

/-- A regular container whose root metadata lacks the `Type` key. -/
def stNoType : MigState :=
  mkContainer "Unknown_thing.h5" [("Gid", MVal.str "ab")] [] [] false

/-- C4 counterexample.  In storage-migration mode a missing path makes the
`os.rename` of phase one raise `OSError` before the incompatible-format
check is ever reached, contradicting the claimed "if and only if": the
path does not resolve to a regular file, yet no
`IncompatibleFileManagerException` is raised. -/
theorem c4_counterexample :
    baseEnv.storageMode = true ∧
    stAbsent.fileKind ≠ FileKind.regular ∧
    resErr (update baseEnv stAbsent) = some PyErr.osError ∧
    PyErr.osError ≠ PyErr.incompatible := by
  refine ⟨rfl, ?_, rfl, ?_⟩
  · intro hh
    cases hh
  · intro hh
    cases hh

/-- C4 witness: the amended theorem applied to a regular container whose
metadata lacks the `Type` key. -/
theorem c4_witness :
    ∃ stE, update baseEnv stNoType = .error (PyErr.incompatible, stE) :=
  by
  have h := c4_theorem baseEnv stNoType
  exact h.1.mpr ⟨fun _ hk => FileKind.noConfusion hk, Or.inr (by decide)⟩

end Migration005
